import Mathlib

/-!
Verification of the inventory ledger engine (`inventory_app/inventory.py`).

The engine operates on a JSON document (stores → items, a categories registry
and metadata) and an append-only history log.  We embed the Python code
shallowly: JSON/Python values become the inductive type `PyVal`, dicts become
association lists with Python's insertion-order semantics, fallible Python
operations (subscripting, `int(...)`, attribute access) become `Except PyErr`,
and each engine operation returns the ordered list of externally visible
effects (document commits and history appends) it performed, so that ordering
and atomicity properties can be stated faithfully.
-/

namespace Inventory

/-- A Python/JSON value as stored in the inventory document. -/
inductive PyVal where
  | none
  | bool (b : Bool)
  | int (n : Int)
  | str (s : String)
  | list (xs : List PyVal)
  | dict (entries : List (String × PyVal))

mutual

def PyVal.beq : PyVal → PyVal → Bool
  | .none, .none => true
  | .bool a, .bool b => a == b
  | .int a, .int b => a == b
  | .str a, .str b => a == b
  | .list xs, .list ys => PyVal.listBeq xs ys
  | .dict d, .dict e => PyVal.dictBeq d e
  | _, _ => false

def PyVal.listBeq : List PyVal → List PyVal → Bool
  | [], [] => true
  | x :: xs, y :: ys => PyVal.beq x y && PyVal.listBeq xs ys
  | _, _ => false

def PyVal.dictBeq : List (String × PyVal) → List (String × PyVal) → Bool
  | [], [] => true
  | (k, v) :: xs, (l, w) :: ys => k == l && PyVal.beq v w && PyVal.dictBeq xs ys
  | _, _ => false

end

mutual

theorem PyVal.beq_iff : ∀ a b : PyVal, PyVal.beq a b = true ↔ a = b
  | .none, b => by cases b <;> simp [PyVal.beq]
  | .bool x, b => by cases b <;> simp [PyVal.beq]
  | .int x, b => by cases b <;> simp [PyVal.beq]
  | .str x, b => by cases b <;> simp [PyVal.beq]
  | .list xs, b => by
      cases b <;> simp [PyVal.beq]
      exact PyVal.listBeq_iff xs _
  | .dict d, b => by
      cases b <;> simp [PyVal.beq]
      exact PyVal.dictBeq_iff d _

theorem PyVal.listBeq_iff : ∀ xs ys : List PyVal, PyVal.listBeq xs ys = true ↔ xs = ys
  | [], ys => by cases ys <;> simp [PyVal.listBeq]
  | x :: xs, ys => by
      cases ys with
      | nil => simp [PyVal.listBeq]
      | cons y ys =>
        rw [PyVal.listBeq]
        simp only [Bool.and_eq_true, List.cons.injEq]
        rw [PyVal.beq_iff, PyVal.listBeq_iff]

theorem PyVal.dictBeq_iff : ∀ xs ys : List (String × PyVal), PyVal.dictBeq xs ys = true ↔ xs = ys
  | [], ys => by cases ys <;> simp [PyVal.dictBeq]
  | (k, v) :: xs, ys => by
      cases ys with
      | nil => simp [PyVal.dictBeq]
      | cons hd tl =>
        cases hd
        rw [PyVal.dictBeq]
        simp only [Bool.and_eq_true, List.cons.injEq, Prod.mk.injEq, beq_iff_eq]
        rw [PyVal.beq_iff, PyVal.dictBeq_iff]

end

instance : DecidableEq PyVal := fun a b =>
  decidable_of_iff (PyVal.beq a b = true) (PyVal.beq_iff a b)

/-- A Python dict with string keys, in insertion order. -/
abbrev Dict := List (String × PyVal)

/-- `d[k]` lookup: first entry with the given key. -/
def dget : Dict → String → Option PyVal
  | [], _ => Option.none
  | (k, v) :: rest, key => if k = key then some v else dget rest key

/-- `d[k] = v`: replace the value at an existing key in place, else append
the new key at the end (Python dict insertion-order semantics). -/
def dset : Dict → String → PyVal → Dict
  | [], key, v => [(key, v)]
  | (k, w) :: rest, key, v =>
    if k = key then (key, v) :: rest else (k, w) :: dset rest key v

/-- `del d[k]` / `d.pop(k, None)`: drop the entry with the given key. -/
def ddel : Dict → String → Dict
  | [], _ => []
  | (k, w) :: rest, key => if k = key then rest else (k, w) :: ddel rest key

/-- `k in d`. -/
def dmem (d : Dict) (k : String) : Bool := (dget d k).isSome

/-- `list(d.keys())`. -/
def dkeys (d : Dict) : List String := d.map Prod.fst

/-- `d.get(k, dflt)`. -/
def dgetD (d : Dict) (k : String) (dflt : PyVal) : PyVal := (dget d k).getD dflt

/-- The Python exceptions the engine can raise.  `valueError` plays the role
of the specification's ValidationError and `keyError` of its NotFound. -/
inductive PyErr where
  | typeError
  | valueError (msg : String)
  | keyError (msg : String)
  | attributeError
  | stopIteration
deriving DecidableEq

/-- Python truthiness (`bool(x)`). -/
def pyTruthy : PyVal → Bool
  | .none => false
  | .bool b => b
  | .int n => decide (n ≠ 0)
  | .str s => decide (s ≠ "")
  | .list xs => decide (xs ≠ [])
  | .dict d => decide (d ≠ [])

/-- Python `str.strip()` (kernel-computable model of whitespace
stripping). -/
def pyStrip (s : String) : String :=
  String.mk
    (((s.toList.dropWhile Char.isWhitespace).reverse.dropWhile Char.isWhitespace).reverse)

/-- Python `str.lower()`. -/
def pyLower (s : String) : String := String.mk (s.toList.map Char.toLower)

/-- Parse a non-empty all-digit character list as a natural number. -/
def decDigits : List Char → Option Nat
  | [] => Option.none
  | cs =>
    if cs.all Char.isDigit then
      some (cs.foldl (fun acc c => acc * 10 + (c.toNat - 48)) 0)
    else Option.none

/-- Python `int(s)` on a string: strip whitespace, optional sign, decimal
digits; anything else raises ValueError (modelled as `Option.none`). -/
def pyStrToInt (s : String) : Option Int :=
  match (pyStrip s).toList with
  | '-' :: rest => (decDigits rest).map (fun n => -(n : Int))
  | '+' :: rest => (decDigits rest).map (fun n => (n : Int))
  | cs => (decDigits cs).map (fun n => (n : Int))

/-- Python `int(x)`: TypeError for `None`/lists/dicts, ValueError for
non-numeric strings; exact on ints and bools. -/
def pyInt : PyVal → Except PyErr Int
  | .none => .error .typeError
  | .bool b => .ok (if b then 1 else 0)
  | .int n => .ok n
  | .str s =>
    match pyStrToInt s with
    | some n => .ok n
    | Option.none => .error (.valueError "invalid literal for int")
  | .list _ => .error .typeError
  | .dict _ => .error .typeError

/-- `int(x)` with TypeError/ValueError caught, as in the record-coercion
try/except blocks. -/
def pyIntCaught (v : PyVal) : Option Int :=
  match pyInt v with
  | .ok n => some n
  | .error _ => Option.none

mutual

/-- Python `repr(x)` (only the shape matters: it is used for `str` of
containers, which the engine applies to no claim-relevant value). -/
def pyRepr : PyVal → String
  | .none => "None"
  | .bool b => if b then "True" else "False"
  | .int n => toString n
  | .str s => "\x27" ++ s ++ "\x27"
  | .list xs => "[" ++ pyReprSeq xs ++ "]"
  | .dict d => "\x7b" ++ pyReprEntries d ++ "\x7d"

def pyReprSeq : List PyVal → String
  | [] => ""
  | [x] => pyRepr x
  | x :: rest => pyRepr x ++ ", " ++ pyReprSeq rest

def pyReprEntries : List (String × PyVal) → String
  | [] => ""
  | [(k, v)] => "\x27" ++ k ++ "\x27: " ++ pyRepr v
  | (k, v) :: rest => "\x27" ++ k ++ "\x27: " ++ pyRepr v ++ ", " ++ pyReprEntries rest

end

/-- Python `str(x)`. -/
def pyStr : PyVal → String
  | .str s => s
  | v => pyRepr v

/-- Python `sub in s` on strings (substring containment). -/
def strContains (s sub : String) : Bool :=
  decide (sub.toList <:+: s.toList)

/-- The Python `in` operator with the containers appearing in the engine. -/
def pyInOp (container : PyVal) (key : PyVal) : Except PyErr Bool :=
  match container with
  | .dict d =>
    match key with
    | .str s => .ok (dmem d s)
    | _ => .ok false
  | .str s =>
    match key with
    | .str t => .ok (strContains s t)
    | _ => .error .typeError
  | .list xs => .ok (xs.contains key)
  | _ => .error .typeError

/-- Subscripting `v[k]` with a string key. -/
def PyVal.getItem (v : PyVal) (k : String) : Except PyErr PyVal :=
  match v with
  | .dict d =>
    match dget d k with
    | some x => .ok x
    | Option.none => .error (.keyError k)
  | _ => .error .typeError

/-- Method call `v.get(k, dflt)`: AttributeError when `v` is not a dict. -/
def pyGetD (v : PyVal) (k : String) (dflt : PyVal) : Except PyErr PyVal :=
  match v with
  | .dict d => .ok (dgetD d k dflt)
  | _ => .error .attributeError

/-- Method call `v.setdefault(k, dflt)`, returning the updated container and
the value now stored at `k`. -/
def pySetdefault (v : PyVal) (k : String) (dflt : PyVal) : Except PyErr (PyVal × PyVal) :=
  match v with
  | .dict d =>
    match dget d k with
    | some x => .ok (v, x)
    | Option.none => .ok (.dict (dset d k dflt), dflt)
  | _ => .error .attributeError

/-! ### Module-level helpers of `inventory.py` -/

def DEFAULT_STORE_ID : String := "default"
def DEFAULT_STORE_NAME : String := "默认门店"
def UNCATEGORIZED_ID : String := "uncategorized"
def UNCATEGORIZED_NAME : String := "未分类"

/-- Characters kept by the slug regex `[^a-z0-9]+`. -/
def slugKeep (c : Char) : Bool :=
  (decide ('a' ≤ c) && decide (c ≤ 'z')) || (decide ('0' ≤ c) && decide (c ≤ '9'))

/-- Collapse runs of dashes to a single dash (effect of substituting the
maximal-munch regex `[^a-z0-9]+` by `"-"`). -/
def collapseDashes : List Char → List Char
  | [] => []
  | c :: rest =>
    match collapseDashes rest with
    | [] => [c]
    | d :: ds => if c = '-' && d = '-' then d :: ds else c :: d :: ds

/-- `_slugify_identifier(value, fallback=...)` (inventory.py:65). -/
def _slugify_identifier (value : String) (fallback : String) : String :=
  let mapped := (pyLower (pyStrip value)).toList.map (fun c => if slugKeep c then c else '-')
  let collapsed := collapseDashes mapped
  let stripped :=
    ((collapsed.dropWhile (fun c => c = '-')).reverse.dropWhile (fun c => c = '-')).reverse
  let normalized := String.mk stripped
  if normalized = "" then fallback else normalized

/-- Decimal rendering of a natural number (what Python f-string formatting of
the suffix index produces). -/
def natReprAux : Nat → Nat → List Char
  | 0, _ => []
  | fuel+1, n => if n = 0 then [] else natReprAux fuel (n / 10) ++ [Nat.digitChar (n % 10)]

def natRepr (n : Nat) : String :=
  if n = 0 then "0" else String.mk (natReprAux n n)

/-- `_next_identifier(base, existing)` (inventory.py:73).  The source scans
`index = 2, 3, ...` until a free identifier is found; since only
`existing.length` identifiers are taken, scanning `existing.length + 1`
candidates always succeeds, and the final fallback arm is unreachable. -/
def _next_identifier (base : String) (existing : List String) : String :=
  if existing.contains base = false then base
  else
    match (List.range (existing.length + 1)).find?
        (fun k => ! existing.contains (base ++ "-" ++ natRepr (k + 2))) with
    | some k => base ++ "-" ++ natRepr (k + 2)
    | Option.none => base ++ "-" ++ natRepr (existing.length + 3)

/-- `_normalize_threshold(value)` (inventory.py:36): total conversion of an
arbitrary value to a non-negative integer or `None`. -/
def _normalize_threshold (value : PyVal) : Option Int :=
  match value with
  | .none => Option.none
  | .str s =>
    if pyStrip s = "" then Option.none
    else
      match pyStrToInt (pyStrip s) with
      | some n => if n < 0 then Option.none else some n
      | Option.none => Option.none
  | v =>
    match pyInt v with
    | .ok n => if n < 0 then Option.none else some n
    | .error _ => Option.none

/-! ### Records, items, history entries, effects -/

/-- The canonical item record produced by `_coerce_record` (inventory.py:1213).
Timestamp-valued fields are passed through raw; in this embedding a serialized
UTC timestamp is `PyVal.int n` for an abstract instant `n`. -/
structure Record where
  quantity : Int
  unit : String
  last_in : PyVal
  last_out : PyVal
  created_at : PyVal
  created_quantity : Option Int
  last_in_delta : Option Int
  last_out_delta : Option Int
  threshold : Option Int
  category : String
deriving DecidableEq

def optIntVal : Option Int → PyVal
  | Option.none => .none
  | some n => .int n

/-- The dict literal `_coerce_record` returns (inventory.py:1263), in its key
order; this is the shape every mutating operation stores back. -/
def Record.toPyVal (r : Record) : PyVal :=
  .dict [("quantity", .int r.quantity), ("unit", .str r.unit), ("last_in", r.last_in),
         ("last_out", r.last_out), ("created_at", r.created_at),
         ("created_quantity", optIntVal r.created_quantity),
         ("last_in_delta", optIntVal r.last_in_delta),
         ("last_out_delta", optIntVal r.last_out_delta),
         ("threshold", optIntVal r.threshold), ("category", .str r.category)]

/-- `_coerce_record(raw, default_category=...)` (inventory.py:1213).  The
`int(...)` on the `quantity` field is not guarded by a try/except in the
source, so a malformed quantity propagates as an exception. -/
def _coerce_record (raw : PyVal) (default_category : String) : Except PyErr Record :=
  match raw with
  | .dict d => do
    let quantity ← pyInt (dgetD d "quantity" (.int 0))
    let raw_unit := dgetD d "unit" (.str "")
    let unit := if raw_unit = .none then "" else pyStrip (pyStr raw_unit)
    let threshold_value := _normalize_threshold (dgetD d "threshold" .none)
    let category_value := dgetD d "category" .none
    let category :=
      if category_value = .none then default_category
      else if pyStrip (pyStr category_value) = "" then default_category
      else pyStrip (pyStr category_value)
    let created_quantity := dgetD d "created_quantity" .none
    let last_in_delta := dgetD d "last_in_delta" .none
    let last_out_delta := dgetD d "last_out_delta" .none
    .ok { quantity := quantity, unit := unit,
          last_in := dgetD d "last_in" .none, last_out := dgetD d "last_out" .none,
          created_at := dgetD d "created_at" .none,
          created_quantity :=
            if created_quantity = .none then Option.none else pyIntCaught created_quantity,
          last_in_delta :=
            if last_in_delta = .none then Option.none
            else (pyIntCaught last_in_delta).map (fun n => |n|),
          last_out_delta :=
            if last_out_delta = .none then Option.none
            else (pyIntCaught last_out_delta).map (fun n => |n|),
          threshold := threshold_value, category := category }
  | raw => do
    let q ← pyInt (if pyTruthy raw then raw else .int 0)
    .ok { quantity := q, unit := "", last_in := .none, last_out := .none, created_at := .none,
          created_quantity := some q, last_in_delta := Option.none,
          last_out_delta := Option.none, threshold := Option.none,
          category := default_category }

/-- The value-type snapshot `InventoryItem` (inventory.py:82), with parsed
timestamps. -/
structure Item where
  name : String
  quantity : Int
  unit : String
  category : String
  store_id : String
  last_in : Option Int
  last_out : Option Int
  created_at : Option Int
  created_quantity : Option Int
  last_in_delta : Option Int
  last_out_delta : Option Int
  threshold : Option Int
deriving DecidableEq

/-- `_parse_timestamp` on this embedding's timestamps (`PyVal.int`); any other
value fails to parse and yields `None`. -/
def parseTs : PyVal → Option Int
  | .int n => some n
  | _ => Option.none

/-- `_record_to_item(name, record, store_id=...)` (inventory.py:1276), applied
as in the source only to coerced records. -/
def _record_to_item (name : String) (r : Record) (store_id : String) : Item :=
  { name := name, quantity := r.quantity, unit := pyStrip r.unit, category := r.category,
    store_id := store_id,
    last_in := parseTs r.last_in, last_out := parseTs r.last_out,
    created_at := parseTs r.created_at, created_quantity := r.created_quantity,
    last_in_delta := r.last_in_delta, last_out_delta := r.last_out_delta,
    threshold := _normalize_threshold (optIntVal r.threshold) }

/-- One audit event (`InventoryHistoryEntry`, inventory.py:116). -/
structure HistoryEntry where
  timestamp : Nat
  action : String
  name : String
  meta : Dict
deriving DecidableEq

/-- An externally visible side effect of an engine operation, in the order the
source performs it: an atomic commit of the whole document
(`_write_state_unlocked`) or one appended history line
(`_append_history_entry`). -/
inductive Effect where
  | writeState (s : PyVal)
  | appendHistory (e : HistoryEntry)
deriving DecidableEq

/-- The history entries appended by a list of effects, in order. -/
def appendedEntries : List Effect → List HistoryEntry
  | [] => []
  | .writeState _ :: rest => appendedEntries rest
  | .appendHistory e :: rest => e :: appendedEntries rest

/-- The persisted document after a list of effects, starting from `s0`. -/
def finalState (s0 : PyVal) : List Effect → PyVal
  | [] => s0
  | .writeState s :: rest => finalState s rest
  | .appendHistory _ :: rest => finalState s0 rest

/-- `if user: meta["user"] = user` — the user string is attached only when
truthy. -/
def addUser (meta : Dict) (user : Option String) : Dict :=
  match user with
  | some u => if u ≠ "" then dset meta "user" (.str u) else meta
  | Option.none => meta

/-! ### Shared access helpers (exception behaviour of the Python idioms) -/

def expectDict (v : PyVal) (e : PyErr) : Except PyErr Dict :=
  match v with
  | .dict d => .ok d
  | _ => .error e

/-- `d[k]` on an already-matched dict. -/
def getKey (d : Dict) (k : String) : Except PyErr PyVal :=
  match dget d k with
  | some v => pure v
  | Option.none => throw (.keyError k)

/-- The `name not in items` / `items[name]` pair: returns the entry list and
the raw record, raising exactly where Python does (KeyError with the given
message when absent; TypeError when the container is not a dict but the
membership test survived, as subscripting a str/list with a str key does). -/
def getItemsEntry (itemsV : PyVal) (name : String) (absentMsg : String) :
    Except PyErr (Dict × PyVal) := do
  let hasIt ← pyInOp itemsV (.str name)
  if hasIt = false then throw (.keyError absentMsg)
  match itemsV with
  | .dict d =>
    match dget d name with
    | some r => pure (d, r)
    | Option.none => throw (.keyError absentMsg)
  | _ => throw .typeError

/-! ### `_normalize_store_id` (inventory.py:1090) -/

/-- The fallback chain: configured default store, else first store in
iteration order (`next(iter(stores))`, StopIteration when empty). -/
def normalize_fallback (state : PyVal) (stores : PyVal) : Except PyErr String := do
  let metaObj ← pyGetD state "meta" (.dict [])
  let dflt ← pyGetD metaObj "default_store" .none
  let hitD ← pyInOp stores dflt
  if hitD then
    match dflt with
    | .str s => pure s
    | _ => throw .typeError
  else
    match stores with
    | .dict d =>
      match dkeys d with
      | k :: _ => pure k
      | [] => throw .stopIteration
    | .str s =>
      match s.toList with
      | c :: _ => pure (String.mk [c])
      | [] => throw .stopIteration
    | _ => throw .typeError

def _normalize_store_id (state : PyVal) (store_id : Option String) : Except PyErr String := do
  let stores ← state.getItem "stores"
  match store_id with
  | some sid =>
    if sid = "" then normalize_fallback state stores
    else do
      let hit ← pyInOp stores (.str sid)
      if hit then pure sid else normalize_fallback state stores
  | Option.none => normalize_fallback state stores

/-! ### `_ensure_category` (inventory.py:1099) -/

/-- The linear scan `for category_id, data in categories.items(): if
data.get("name") == candidate: return category_id`. -/
def findCategoryByName : Dict → String → Except PyErr (Option String)
  | [], _ => .ok Option.none
  | (cid, data) :: rest, candidate => do
    let nv ← pyGetD data "name" .none
    if nv = .str candidate then .ok (some cid)
    else findCategoryByName rest candidate

def _ensure_category (now : Nat) (state : PyVal) (category : PyVal) :
    Except PyErr (PyVal × String) := do
  let categories ← state.getItem "categories"
  if category = .none then pure (state, UNCATEGORIZED_ID)
  else
    let candidate := pyStrip (pyStr category)
    if candidate = "" then pure (state, UNCATEGORIZED_ID)
    else do
      let hit ← pyInOp categories (.str candidate)
      if hit then pure (state, candidate)
      else
        match categories with
        | .dict cd => do
          match ← findCategoryByName cd candidate with
          | some cid => pure (state, cid)
          | Option.none =>
            let base := _slugify_identifier candidate "category"
            let newId := _next_identifier base (dkeys cd)
            let entry : PyVal := .dict [("id", .str newId), ("name", .str candidate),
                                        ("created_at", .int now)]
            match state with
            | .dict sd =>
              pure (.dict (dset sd "categories" (.dict (dset cd newId entry))), newId)
            | _ => throw .typeError
        | _ => throw .attributeError

/-! ### `_set_quantity_locked` (inventory.py:1120) -/

/-- The field-by-field record update of `_set_quantity_locked`
(inventory.py:1137-1159), in source order. -/
def set_record_update (now : Nat) (quantity : Int) (unit : Option String) (threshold : PyVal)
    (keep_threshold : Bool) (category_id : String) (is_new : Bool) (record : Record) : Record :=
  let previous_quantity := record.quantity
  let record := { record with quantity := quantity }
  let record :=
    match unit with
    | some u => { record with unit := pyStrip u }
    | Option.none => record
  let record :=
    { record with category := if category_id = "" then UNCATEGORIZED_ID else category_id }
  let record :=
    if keep_threshold = false then { record with threshold := _normalize_threshold threshold }
    else if is_new = true ∧ record.threshold = Option.none then
      { record with threshold := _normalize_threshold threshold }
    else record
  let record :=
    if is_new = true then
      { record with created_at := .int now, created_quantity := some quantity }
    else record
  if quantity > previous_quantity then
    { record with last_in := .int now, last_in_delta := some (quantity - previous_quantity) }
  else if quantity < previous_quantity then
    { record with last_out := .int now, last_out_delta := some (previous_quantity - quantity) }
  else if quantity > 0 ∧ record.last_in = .none ∧ record.last_out = .none then
    { record with last_in := .int now }
  else record

/-- The audit decision of `_set_quantity_locked` (inventory.py:1164-1210):
a `create` entry for a new record, a `set` entry only when quantity or unit
changed, nothing otherwise. -/
def set_entry_decision (now : Nat) (name : String) (quantity : Int) (is_new : Bool)
    (previous_quantity : Int) (previous_unit new_unit : String) (store_id : String)
    (store_name : PyVal) (category_id : String) (category_name : PyVal)
    (user : Option String) : Option HistoryEntry :=
  if is_new = true then
    some ⟨now, "create", name,
      addUser [("quantity", .int quantity), ("previous_quantity", .int previous_quantity),
               ("unit", .str new_unit), ("store_id", .str store_id),
               ("store_name", store_name), ("category_id", .str category_id),
               ("category_name", category_name)] user⟩
  else
    let delta := quantity - previous_quantity
    let unit_changed := new_unit ≠ previous_unit
    if delta ≠ 0 ∨ unit_changed then
      let meta : Dict :=
        [("new_quantity", .int quantity), ("previous_quantity", .int previous_quantity),
         ("unit", .str new_unit), ("store_id", .str store_id),
         ("store_name", store_name), ("category_id", .str category_id),
         ("category_name", category_name)]
      let meta := if unit_changed then dset meta "previous_unit" (.str previous_unit) else meta
      let meta := if delta ≠ 0 then dset meta "delta" (.int delta) else meta
      some ⟨now, "set", name, addUser meta user⟩
    else Option.none

def _set_quantity_locked (now : Nat) (state : PyVal) (store_id : String) (name : String)
    (quantity : Int) (unit : Option String) (threshold : PyVal) (keep_threshold : Bool)
    (category_id : String) (user : Option String) :
    Except PyErr (PyVal × Option HistoryEntry × Item) := do
  let stateD ← expectDict state .typeError
  let storesV ← getKey stateD "stores"
  let storesD ← expectDict storesV .typeError
  let store ← getKey storesD store_id
  let (store, itemsV) ← pySetdefault store "items" (.dict [])
  let sd ← expectDict store .attributeError
  let isOld ← pyInOp itemsV (.str name)
  let is_new := !isOld
  let rawrec ← pyGetD itemsV name .none
  let its ← expectDict itemsV .attributeError
  let record ← _coerce_record rawrec UNCATEGORIZED_ID
  let previous_quantity := record.quantity
  let previous_unit := record.unit
  let record := set_record_update now quantity unit threshold keep_threshold category_id
    is_new record
  let newItems := dset its name record.toPyVal
  let newStore := PyVal.dict (dset sd "items" (.dict newItems))
  let newState := PyVal.dict (dset stateD "stores" (.dict (dset storesD store_id newStore)))
  let categoriesV ← getKey stateD "categories"
  let category_entry ← pyGetD categoriesV category_id (.dict [])
  let category_name ← pyGetD category_entry "name" (.str category_id)
  let store_name := dgetD sd "name" (.str store_id)
  let entry := set_entry_decision now name quantity is_new previous_quantity previous_unit
    record.unit store_id store_name category_id category_name user
  pure (newState, entry, _record_to_item name record store_id)

/-! ### `set_quantity` (inventory.py:390) -/

def set_quantity_checked (now : Nat) (state : PyVal) (name : String) (quantity : Int)
    (unit : Option String) (threshold : PyVal) (keep_threshold : Bool) (category : PyVal)
    (store_id : Option String) (user : Option String) :
    Except PyErr (PyVal × Option HistoryEntry × Item) := do
  if quantity < 0 then throw (.valueError "Quantity cannot be negative")
  let resolved ← _normalize_store_id state store_id
  let (state, category_id) ← _ensure_category now state category
  _set_quantity_locked now state resolved name quantity unit threshold keep_threshold
    category_id user

def set_quantity (now : Nat) (state : PyVal) (name : String) (quantity : Int)
    (unit : Option String) (threshold : PyVal) (keep_threshold : Bool) (category : PyVal)
    (store_id : Option String) (user : Option String) :
    List Effect × Except PyErr (PyVal × Item) :=
  match set_quantity_checked now state name quantity unit threshold keep_threshold category
      store_id user with
  | .error e => ([], .error e)
  | .ok (s2, entry, item) =>
    (entry.toList.map Effect.appendHistory ++ [Effect.writeState s2], .ok (s2, item))

/-! ### `adjust_quantity` (inventory.py:422) -/

def adjust_quantity_checked (now : Nat) (state : PyVal) (name : String) (delta : Int)
    (store_id : Option String) (user : Option String) :
    Except PyErr (PyVal × Option HistoryEntry × Item) := do
  let resolved ← _normalize_store_id state store_id
  let stateD ← expectDict state .typeError
  let storesV ← getKey stateD "stores"
  let storesD ← expectDict storesV .typeError
  let store ← getKey storesD resolved
  let sd ← expectDict store .attributeError
  let itemsV := dgetD sd "items" (.dict [])
  let (its, rawrec) ← getItemsEntry itemsV name ("Item " ++ name ++ " not found")
  let record ← _coerce_record rawrec UNCATEGORIZED_ID
  let current_quantity := record.quantity
  let new_quantity := current_quantity + delta
  if new_quantity < 0 then throw (.valueError "Insufficient stock for this operation")
  let record := { record with quantity := new_quantity }
  let category_id := record.category
  let categoriesV ← getKey stateD "categories"
  let category_entry ← pyGetD categoriesV category_id (.dict [])
  let category_name ← pyGetD category_entry "name" (.str category_id)
  let store_name := dgetD sd "name" (.str resolved)
  let meta_base : Dict :=
    [("new_quantity", .int new_quantity), ("previous_quantity", .int current_quantity),
     ("unit", .str record.unit), ("store_id", .str resolved), ("store_name", store_name),
     ("category_id", .str category_id), ("category_name", category_name)]
  let (record, entry) :=
    if delta > 0 then
      ({ record with last_in := .int now, last_in_delta := some delta },
       some (⟨now, "in", name, addUser (dset meta_base "delta" (.int delta)) user⟩ :
         HistoryEntry))
    else if delta < 0 then
      ({ record with last_out := .int now, last_out_delta := some |delta| },
       some (⟨now, "out", name, addUser (dset meta_base "delta" (.int |delta|)) user⟩ :
         HistoryEntry))
    else (record, Option.none)
  let newItems := dset its name record.toPyVal
  let newStore := PyVal.dict (dset sd "items" (.dict newItems))
  let newState := PyVal.dict (dset stateD "stores" (.dict (dset storesD resolved newStore)))
  pure (newState, entry, _record_to_item name record resolved)

def adjust_quantity (now : Nat) (state : PyVal) (name : String) (delta : Int)
    (store_id : Option String) (user : Option String) :
    List Effect × Except PyErr (PyVal × Item) :=
  match adjust_quantity_checked now state name delta store_id user with
  | .error e => ([], .error e)
  | .ok (s2, entry, item) =>
    (entry.toList.map Effect.appendHistory ++ [Effect.writeState s2], .ok (s2, item))

/-! ### `delete_item` (inventory.py:617) -/

def delete_item_checked (now : Nat) (state : PyVal) (name : String)
    (store_id : Option String) (user : Option String) :
    Except PyErr (PyVal × HistoryEntry) := do
  let resolved ← _normalize_store_id state store_id
  let stateD ← expectDict state .typeError
  let storesV ← getKey stateD "stores"
  let storesD ← expectDict storesV .typeError
  let store ← getKey storesD resolved
  let sd ← expectDict store .attributeError
  let itemsV := dgetD sd "items" (.dict [])
  let (its, rawrec) ← getItemsEntry itemsV name ("Item " ++ name ++ " not found")
  let record ← _coerce_record rawrec UNCATEGORIZED_ID
  let category_id := record.category
  let categoriesV ← getKey stateD "categories"
  let category_entry ← pyGetD categoriesV category_id (.dict [])
  let newItems := ddel its name
  let newStore := PyVal.dict (dset sd "items" (.dict newItems))
  let newState := PyVal.dict (dset stateD "stores" (.dict (dset storesD resolved newStore)))
  let category_name ← pyGetD category_entry "name" (.str category_id)
  let store_name := dgetD sd "name" (.str resolved)
  let meta : Dict :=
    [("previous_quantity", .int record.quantity), ("unit", .str record.unit),
     ("store_id", .str resolved), ("store_name", store_name),
     ("category_id", .str category_id), ("category_name", category_name)]
  pure (newState, ⟨now, "delete", name, addUser meta user⟩)

def delete_item (now : Nat) (state : PyVal) (name : String) (store_id : Option String)
    (user : Option String) : List Effect × Except PyErr PyVal :=
  match delete_item_checked now state name store_id user with
  | .error e => ([], .error e)
  | .ok (s2, entry) => ([Effect.writeState s2, Effect.appendHistory entry], .ok s2)

/-! ### `transfer_item` (inventory.py:489) -/

def transfer_item_checked (now : Nat) (state : PyVal) (name : String) (quantity : Int)
    (source_store_id : Option String) (target_store_id : Option String)
    (user : Option String) :
    Except PyErr (PyVal × HistoryEntry × HistoryEntry × Item × Item) := do
  if quantity ≤ 0 then throw (.valueError "Transfer quantity must be greater than zero")
  let source_id ← _normalize_store_id state source_store_id
  let target_id ← _normalize_store_id state target_store_id
  if source_id = target_id then
    throw (.valueError "Source and target stores must be different")
  let stateD ← expectDict state .typeError
  let storesV ← getKey stateD "stores"
  let storesD ← expectDict storesV .typeError
  let source_store ← getKey storesD source_id
  let target_store ← getKey storesD target_id
  let (source_store, source_itemsV) ← pySetdefault source_store "items" (.dict [])
  let (source_its, source_raw) ←
    getItemsEntry source_itemsV name ("Item " ++ name ++ " not found in source store")
  let source_record ← _coerce_record source_raw UNCATEGORIZED_ID
  let current_source_quantity := source_record.quantity
  if quantity > current_source_quantity then
    throw (.valueError "Insufficient stock for transfer")
  let source_new_quantity := current_source_quantity - quantity
  let source_record :=
    { source_record with
        quantity := source_new_quantity, last_out := .int now,
        last_out_delta := some quantity }
  let source_unit := source_record.unit
  let source_category := source_record.category
  let source_threshold := source_record.threshold
  let (target_store, target_itemsV) ← pySetdefault target_store "items" (.dict [])
  let target_exists ← pyInOp target_itemsV (.str name)
  let target_rawOpt ← pyGetD target_itemsV name .none
  let tits ← expectDict target_itemsV .attributeError
  let target_record ← _coerce_record target_rawOpt UNCATEGORIZED_ID
  let previous_target_quantity := target_record.quantity
  let target_new_quantity := previous_target_quantity + quantity
  let target_record :=
    { target_record with
        quantity := target_new_quantity, last_in := .int now,
        last_in_delta := some quantity }
  let target_record :=
    if target_exists = false then
      { target_record with
          created_at := .int now, created_quantity := some target_new_quantity }
    else target_record
  let target_record :=
    if target_record.unit = "" ∧ source_unit ≠ "" then
      { target_record with unit := source_unit }
    else target_record
  let target_category :=
    if target_record.category ≠ "" then target_record.category else source_category
  let target_record :=
    { target_record with
        category := if target_category = "" then UNCATEGORIZED_ID else target_category }
  let target_record :=
    if source_threshold ≠ Option.none then
      if target_exists = false ∨ target_record.threshold = Option.none then
        { target_record with threshold := source_threshold }
      else target_record
    else target_record
  let source_sd ← expectDict source_store .attributeError
  let target_sd ← expectDict target_store .attributeError
  let newSourceStore :=
    PyVal.dict (dset source_sd "items" (.dict (dset source_its name source_record.toPyVal)))
  let newTargetStore :=
    PyVal.dict (dset target_sd "items" (.dict (dset tits name target_record.toPyVal)))
  let newStores := dset (dset storesD source_id newSourceStore) target_id newTargetStore
  let newState := PyVal.dict (dset stateD "stores" (.dict newStores))
  let categoriesV ← getKey stateD "categories"
  let source_category_entry ← pyGetD categoriesV source_record.category (.dict [])
  let target_category_entry ← pyGetD categoriesV target_record.category (.dict [])
  let source_category_name ← pyGetD source_category_entry "name" (.str source_record.category)
  let target_category_name ← pyGetD target_category_entry "name" (.str target_record.category)
  let source_meta : Dict :=
    [("previous_quantity", .int current_source_quantity),
     ("new_quantity", .int source_new_quantity), ("unit", .str source_record.unit),
     ("store_id", .str source_id), ("store_name", dgetD source_sd "name" (.str source_id)),
     ("category_id", .str source_record.category),
     ("category_name", source_category_name), ("delta", .int quantity),
     ("transfer", .bool true), ("transfer_target_id", .str target_id),
     ("transfer_target_name", dgetD target_sd "name" (.str target_id))]
  let target_meta : Dict :=
    [("previous_quantity", .int previous_target_quantity),
     ("new_quantity", .int target_new_quantity), ("unit", .str target_record.unit),
     ("store_id", .str target_id), ("store_name", dgetD target_sd "name" (.str target_id)),
     ("category_id", .str target_record.category),
     ("category_name", target_category_name), ("delta", .int quantity),
     ("transfer", .bool true), ("transfer_source_id", .str source_id),
     ("transfer_source_name", dgetD source_sd "name" (.str source_id))]
  let e_out : HistoryEntry := ⟨now, "out", name, addUser source_meta user⟩
  let e_in : HistoryEntry := ⟨now, "in", name, addUser target_meta user⟩
  pure (newState, e_out, e_in,
    _record_to_item name source_record source_id, _record_to_item name target_record target_id)

def transfer_item (now : Nat) (state : PyVal) (name : String) (quantity : Int)
    (source_store_id : Option String) (target_store_id : Option String)
    (user : Option String) : List Effect × Except PyErr (PyVal × Item × Item) :=
  match transfer_item_checked now state name quantity source_store_id target_store_id user with
  | .error e => ([], .error e)
  | .ok (s2, e_out, e_in, src, tgt) =>
    ([Effect.appendHistory e_out, Effect.appendHistory e_in, Effect.writeState s2],
     .ok (s2, src, tgt))

/-! ### `delete_store` (inventory.py:218) -/

/-- Python `len(x)`. -/
def pyLen : PyVal → Except PyErr Nat
  | .str s => .ok s.length
  | .list xs => .ok xs.length
  | .dict d => .ok d.length
  | _ => .error .typeError

/-- Builds the `delete` history entry for one cascaded item
(inventory.py:239-260). -/
def delete_store_entryFor (now : Nat) (store_id : String) (store_name : PyVal)
    (category_map : PyVal) (user : Option String) (item_name : String) (rawrec : PyVal) :
    Except PyErr HistoryEntry := do
  let record ← _coerce_record rawrec UNCATEGORIZED_ID
  let category_id := record.category
  let category_entry ← pyGetD category_map category_id (.dict [])
  let category_name ← pyGetD category_entry "name" (.str category_id)
  pure ⟨now, "delete", item_name,
        addUser [("previous_quantity", .int record.quantity), ("unit", .str record.unit),
                 ("store_id", .str store_id), ("store_name", store_name),
                 ("category_id", .str category_id), ("category_name", category_name)] user⟩

/-- The cascade loop of `delete_store`: history entries are appended to the
log one by one, so entries emitted before a failure survive it. -/
def delete_store_loop (now : Nat) (store_id : String) (store_name : PyVal)
    (category_map : PyVal) (user : Option String) :
    Dict → List HistoryEntry → List HistoryEntry × Option PyErr
  | [], acc => (acc, Option.none)
  | (n, r) :: rest, acc =>
    match delete_store_entryFor now store_id store_name category_map user n r with
    | .ok e => delete_store_loop now store_id store_name category_map user rest (acc ++ [e])
    | .error err => (acc, some err)

/-- The checks of `delete_store` before the first side effect
(inventory.py:225-237). -/
def delete_store_header (state : PyVal) (store_id : String) (cascade : Bool) :
    Except PyErr (Dict × Dict × Dict × PyVal × PyVal) := do
  let stateD ← expectDict state .typeError
  let storesV ← getKey stateD "stores"
  let has ← pyInOp storesV (.str store_id)
  if has = false then throw (.keyError ("Store " ++ store_id ++ " not found"))
  let cnt ← pyLen storesV
  if cnt ≤ 1 then throw (.valueError "至少需要保留一个门店")
  let storesD ← expectDict storesV .typeError
  let store ← getKey storesD store_id
  let sd ← expectDict store .attributeError
  let itemsV := dgetD sd "items" (.dict [])
  if pyTruthy itemsV = true ∧ cascade = false then
    throw (.valueError "门店仍有库存，无法删除")
  let category_map ← getKey stateD "categories"
  pure (stateD, storesD, sd, itemsV, category_map)

/-- Store deletion tail: remove the store and repair the default-store
pointer (inventory.py:262-266). -/
def delete_store_finish (stateD storesD : Dict) (store_id : String) :
    Except PyErr PyVal := do
  let storesD2 := ddel storesD store_id
  let metaV := dgetD stateD "meta" (.dict [])
  let metaD ← expectDict metaV .attributeError
  let metaD2 :=
    if dgetD metaD "default_store" .none = .str store_id then
      dset metaD "default_store" (.str ((dkeys storesD2).headD ""))
    else metaD
  pure (.dict (dset (dset stateD "meta" (.dict metaD2)) "stores" (.dict storesD2)))

def delete_store (now : Nat) (state : PyVal) (store_id : String) (cascade : Bool)
    (user : Option String) : List Effect × Except PyErr PyVal :=
  match delete_store_header state store_id cascade with
  | .error e => ([], .error e)
  | .ok (stateD, storesD, sd, itemsV, category_map) =>
    let store_name := dgetD sd "name" (.str store_id)
    let scan : List HistoryEntry × Option PyErr :=
      if pyTruthy itemsV = true ∧ cascade = true then
        match itemsV with
        | .dict its => delete_store_loop now store_id store_name category_map user its []
        | _ => ([], some .attributeError)
      else ([], Option.none)
    match scan with
    | (entries, some e) => (entries.map Effect.appendHistory, .error e)
    | (entries, Option.none) =>
      match delete_store_finish stateD storesD store_id with
      | .error e => (entries.map Effect.appendHistory, .error e)
      | .ok s2 =>
        (entries.map Effect.appendHistory ++ [Effect.writeState s2], .ok s2)

/-! ### `delete_category` (inventory.py:305) -/

/-- The inner item scan of `delete_category` for one store: matching items
are deleted (with a history entry) when this store is cascaded, else
reassigned in place to the default category (inventory.py:327-357). -/
def reassignStep (n : String) (r : PyVal)
    (res : List HistoryEntry × Except PyErr Dict) : List HistoryEntry × Except PyErr Dict :=
  match r with
  | .dict rd =>
    match res with
    | (es, .ok d) => (es, .ok ((n, .dict (dset rd "category" (.str UNCATEGORIZED_ID))) :: d))
    | (es, .error e) => (es, .error e)
  | _ => ([], .error .typeError)

def delete_category_scan (now : Nat) (category_id : String) (catEntry : PyVal)
    (cascadeHere : Bool) (store_id : String) (store_name : PyVal) (user : Option String) :
    Dict → List HistoryEntry × Except PyErr Dict
  | [] => ([], .ok [])
  | (n, r) :: rest =>
    match _coerce_record r UNCATEGORIZED_ID with
    | .error e => ([], .error e)
    | .ok rec =>
      if rec.category ≠ category_id then
        match delete_category_scan now category_id catEntry cascadeHere store_id store_name
            user rest with
        | (es, .ok d) => (es, .ok ((n, r) :: d))
        | (es, .error e) => (es, .error e)
      else if cascadeHere then
        match pyGetD catEntry "name" (.str category_id) with
        | .error e => ([], .error e)
        | .ok category_name =>
          let entry : HistoryEntry :=
            ⟨now, "delete", n,
             addUser [("previous_quantity", .int rec.quantity), ("unit", .str rec.unit),
                      ("store_id", .str store_id), ("store_name", store_name),
                      ("category_id", .str category_id),
                      ("category_name", category_name)] user⟩
          match delete_category_scan now category_id catEntry cascadeHere store_id store_name
              user rest with
          | (es, .ok d) => (entry :: es, .ok d)
          | (es, .error e) => (entry :: es, .error e)
      else
        reassignStep n r (delete_category_scan now category_id catEntry cascadeHere store_id
          store_name user rest)

/-- The outer store loop of `delete_category` (inventory.py:324-357). -/
def delete_category_stores (now : Nat) (category_id : String) (catEntry : PyVal)
    (cascade : Bool) (resolved : Option String) (user : Option String) :
    Dict → List HistoryEntry × Except PyErr Dict
  | [] => ([], .ok [])
  | (sid, store) :: rest =>
    match store with
    | .dict sd =>
      let itemsV := dgetD sd "items" (.dict [])
      match itemsV with
      | .dict its =>
        let cascadeHere :=
          cascade && (decide (resolved = Option.none) || decide (resolved = some sid))
        match delete_category_scan now category_id catEntry cascadeHere sid
            (dgetD sd "name" (.str sid)) user its with
        | (es, .error e) => (es, .error e)
        | (es, .ok newIts) =>
          let store2 : PyVal :=
            if dmem sd "items" then .dict (dset sd "items" (.dict newIts)) else store
          match delete_category_stores now category_id catEntry cascade resolved user rest with
          | (es2, .ok tl) => (es ++ es2, .ok ((sid, store2) :: tl))
          | (es2, .error e) => (es ++ es2, .error e)
      | _ => ([], .error .attributeError)
    | _ => ([], .error .attributeError)

/-- Header checks of `delete_category` up to the store loop
(inventory.py:313-323). -/
def delete_category_header (state : PyVal) (category_id : String)
    (store_id : Option String) : Except PyErr (Dict × Dict × Option String × Dict × PyVal) := do
  let stateD ← expectDict state .typeError
  let categoriesV ← getKey stateD "categories"
  let hasCat ← pyInOp categoriesV (.str category_id)
  if hasCat = false then throw (.keyError ("Category " ++ category_id ++ " not found"))
  let resolved ←
    match store_id with
    | some sid => (_normalize_store_id state (some sid)).map some
    | Option.none => pure Option.none
  let storesV ← getKey stateD "stores"
  let storesD ← expectDict storesV .attributeError
  let catsD ← expectDict categoriesV .typeError
  let catEntry ← categoriesV.getItem category_id
  pure (stateD, catsD, resolved, storesD, catEntry)

def delete_category (now : Nat) (state : PyVal) (category_id : String) (cascade : Bool)
    (user : Option String) (store_id : Option String) :
    List Effect × Except PyErr PyVal :=
  if category_id = UNCATEGORIZED_ID then ([], .error (.valueError "默认分类无法删除"))
  else
    match delete_category_header state category_id store_id with
    | .error e => ([], .error e)
    | .ok (stateD, catsD, resolved, storesD, catEntry) =>
      match delete_category_stores now category_id catEntry cascade resolved user storesD with
      | (es, .error e) => (es.map Effect.appendHistory, .error e)
      | (es, .ok newStores) =>
        let catsD2 := ddel catsD category_id
        let s2 : PyVal :=
          .dict (dset (dset stateD "stores" (.dict newStores)) "categories" (.dict catsD2))
        (es.map Effect.appendHistory ++ [Effect.writeState s2], .ok s2)

/-! ### `create_store` / `create_category` (inventory.py:188, 280) -/

/-- The store-name comprehension `{data.get("name", key).strip(): key}`:
only the trimmed names matter for the duplicate check. -/
def storeNames : Dict → Except PyErr (List String)
  | [] => .ok []
  | (key, data) :: rest => do
    let nv ← pyGetD data "name" (.str key)
    match nv with
    | .str s => do
      let tl ← storeNames rest
      .ok (pyStrip s :: tl)
    | _ => throw .attributeError

def create_store_checked (now : Nat) (state : PyVal) (name : String) :
    Except PyErr (PyVal × PyVal) := do
  let candidate := pyStrip name
  if candidate = "" then throw (.valueError "门店名称不能为空")
  let stateD ← expectDict state .typeError
  let storesV ← getKey stateD "stores"
  let storesD ← expectDict storesV .attributeError
  let names ← storeNames storesD
  if names.contains candidate then throw (.valueError "门店名称已存在")
  let base := _slugify_identifier candidate "store"
  let store_id := _next_identifier base (dkeys storesD)
  let newStore : PyVal :=
    .dict [("id", .str store_id), ("name", .str candidate), ("created_at", .int now),
           ("items", .dict [])]
  let storesD2 := dset storesD store_id newStore
  let metaV := dgetD stateD "meta" (.dict [])
  let metaD ← expectDict metaV .attributeError
  let needDefault :=
    match dgetD metaD "default_store" .none with
    | .str s => !(dmem storesD2 s)
    | _ => true
  let metaD2 := if needDefault then dset metaD "default_store" (.str store_id) else metaD
  let s2 : PyVal := .dict (dset (dset stateD "meta" (.dict metaD2)) "stores" (.dict storesD2))
  pure (s2, .dict [("id", .str store_id), ("name", .str candidate),
                   ("created_at", .int now), ("items_count", .int 0)])

def create_store (now : Nat) (state : PyVal) (name : String) :
    List Effect × Except PyErr (PyVal × PyVal) :=
  match create_store_checked now state name with
  | .error e => ([], .error e)
  | .ok (s2, ret) => ([Effect.writeState s2], .ok (s2, ret))

/-- `for entry in categories.values(): if entry.get("name") == candidate`. -/
def categoryNameDup : Dict → String → Except PyErr Bool
  | [], _ => .ok false
  | (_, data) :: rest, candidate => do
    let nv ← pyGetD data "name" .none
    if nv = .str candidate then .ok true else categoryNameDup rest candidate

def create_category_checked (now : Nat) (state : PyVal) (name : String) :
    Except PyErr (PyVal × PyVal) := do
  let candidate := pyStrip name
  if candidate = "" then throw (.valueError "分类名称不能为空")
  let stateD ← expectDict state .typeError
  let categoriesV ← getKey stateD "categories"
  let catsD ← expectDict categoriesV .attributeError
  let dup ← categoryNameDup catsD candidate
  if dup then throw (.valueError "分类名称已存在")
  let base := _slugify_identifier candidate "category"
  let category_id := _next_identifier base (dkeys catsD)
  let catsD2 := dset catsD category_id
    (.dict [("id", .str category_id), ("name", .str candidate), ("created_at", .int now)])
  pure (.dict (dset stateD "categories" (.dict catsD2)),
        .dict [("id", .str category_id), ("name", .str candidate), ("created_at", .int now)])

def create_category (now : Nat) (state : PyVal) (name : String) :
    List Effect × Except PyErr (PyVal × PyVal) :=
  match create_category_checked now state name with
  | .error e => ([], .error e)
  | .ok (s2, ret) => ([Effect.writeState s2], .ok (s2, ret))

/-! ### `import_items` (inventory.py:826) -/

/-- `for key in (...): if key in row: value; break`. -/
def firstKeyPresent (rd : Dict) : List String → Option PyVal
  | [] => Option.none
  | k :: rest => if dmem rd k then some (dgetD rd k .none) else firstKeyPresent rd rest

/-- Python `x or ""` as applied to `row.get(...)` before `str(...)`. -/
def pyOrEmptyStr (v : PyVal) : PyVal := if pyTruthy v then v else .str ""

/-- The category column scan of `import_items` (inventory.py:859-863): the
first of the aliases that is present with a non-blank value. -/
def importCategoryRaw (rd : Dict) : PyVal :=
  match (["category", "分类", "库存分类"].find?
      (fun k => dmem rd k && pyStrip (pyStr (pyOrEmptyStr (dgetD rd k .none))) ≠ "")) with
  | some k => dgetD rd k .none
  | Option.none => .none

/-- Row loop of `import_items`: bad rows are skipped silently, accepted rows
run the `_set_quantity_locked` path and their history entries are appended
immediately; the single document commit happens after the loop. -/
def import_items_loop (now : Nat) (user : Option String) (resolved : String) :
    PyVal → List PyVal → List HistoryEntry → List Item →
    List HistoryEntry × Except PyErr (PyVal × List Item)
  | state, [], es, acc => (es, .ok (state, acc))
  | state, row :: rest, es, acc =>
    match row with
    | .dict rd =>
      let nameV := dgetD rd "name" .none
      let name := pyStrip (pyStr (pyOrEmptyStr nameV))
      if name = "" then import_items_loop now user resolved state rest es acc
      else
        match pyInt (dgetD rd "quantity" .none) with
        | .error _ => import_items_loop now user resolved state rest es acc
        | .ok q =>
          if q < 0 then import_items_loop now user resolved state rest es acc
          else
            let unit_value := dgetD rd "unit" .none
            let unit := if unit_value = .none then Option.none
                        else some (pyStrip (pyStr unit_value))
            let th := firstKeyPresent rd ["threshold", "阈值提醒", "阈值"]
            let threshold_raw := th.getD .none
            let threshold_field_present := th.isSome
            let category_raw := importCategoryRaw rd
            match _ensure_category now state category_raw with
            | .error e => (es, .error e)
            | .ok (state2, category_id) =>
              let threshold := _normalize_threshold threshold_raw
              match _set_quantity_locked now state2 resolved name q unit
                  (optIntVal threshold) (!threshold_field_present) category_id user with
              | .error e => (es, .error e)
              | .ok (state3, entry, item) =>
                import_items_loop now user resolved state3 rest (es ++ entry.toList)
                  (acc ++ [item])
    | _ => import_items_loop now user resolved state rest es acc

def import_items (now : Nat) (state : PyVal) (rows : List PyVal)
    (store_id : Option String) (user : Option String) :
    List Effect × Except PyErr (PyVal × List Item) :=
  match _normalize_store_id state store_id with
  | .error e => ([], .error e)
  | .ok resolved =>
    match import_items_loop now user resolved state rows [] [] with
    | (es, .error e) => (es.map Effect.appendHistory, .error e)
    | (es, .ok (s2, items)) =>
      (es.map Effect.appendHistory ++ [Effect.writeState s2], .ok (s2, items))

/-! ### `_upgrade_state` (inventory.py:971) -/

/-- `if not isinstance(items, dict): store_data["items"] = {}` (inventory.py:1008-1012). -/
def fixItems (sd : Dict) : Bool × Dict :=
  match dget sd "items" with
  | some (.dict _) => (false, sd)
  | _ => (true, dset sd "items" (.dict []))

/-- `if store_data.get("id") != store_id: store_data["id"] = store_id`. -/
def fixId (ident : String) (sd : Dict) : Bool × Dict :=
  if dgetD sd "id" .none ≠ .str ident then (true, dset sd "id" (.str ident))
  else (false, sd)

/-- `if not isinstance(data.get("name"), str): data["name"] = key`. -/
def fixName (ident : String) (sd : Dict) : Bool × Dict :=
  match dget sd "name" with
  | some (.str _) => (false, sd)
  | _ => (true, dset sd "name" (.str ident))

/-- `if "created_at" not in data: data["created_at"] = now`. -/
def fixCreated (now : Nat) (sd : Dict) : Bool × Dict :=
  if dmem sd "created_at" then (false, sd)
  else (true, dset sd "created_at" (.int now))

/-- Per-store normalization (inventory.py:1007-1027). -/
def upgrade_store_entry (now : Nat) (store_id : String) (store_data : PyVal) :
    Bool × PyVal :=
  match store_data with
  | .dict sd0 =>
    let (c1, sd1) := fixItems sd0
    let (c2, sd2) := fixId store_id sd1
    let (c3, sd3) := fixName store_id sd2
    let (c4, sd4) := fixCreated now sd3
    (c1 || c2 || c3 || c4, .dict sd4)
  | _ =>
    (true, .dict [("id", .str store_id), ("name", .str store_id),
                  ("created_at", .int now), ("items", .dict [])])

/-- Per-category normalization (inventory.py:1041-1057). -/
def upgrade_category_entry (now : Nat) (category_id : String) (category_data : PyVal) :
    Bool × PyVal :=
  match category_data with
  | .dict cd0 =>
    let (c1, cd1) := fixId category_id cd0
    let (c2, cd2) := fixName category_id cd1
    let (c3, cd3) := fixCreated now cd2
    (c1 || c2 || c3, .dict cd3)
  | v =>
    (true, .dict [("id", .str category_id), ("name", .str (pyStr v)),
                  ("created_at", .int now)])

/-- Per-item normalization in the category back-fill pass
(inventory.py:1061-1076).  A non-dict record becomes `{"quantity": int(record
or 0)}`, which can raise; a blank or non-string category is reset to the
sentinel; an unknown category id gets a stub registry entry. -/
def upgrade_item_record (now : Nat) (record : PyVal) (categories : Dict) :
    Except PyErr (Bool × PyVal × Dict) :=
  match record with
  | .dict rd =>
    match dget rd "category" with
    | some (.str s) =>
      if pyStrip s = "" then
        .ok (true, .dict (dset rd "category" (.str UNCATEGORIZED_ID)), categories)
      else if dmem categories s = false then
        .ok (true, .dict rd,
          dset categories s
            (.dict [("id", .str s), ("name", .str s), ("created_at", .int now)]))
      else .ok (false, .dict rd, categories)
    | _ => .ok (true, .dict (dset rd "category" (.str UNCATEGORIZED_ID)), categories)
  | v => do
    let n ← pyInt (if pyTruthy v then v else .int 0)
    let rd : Dict := [("quantity", .int n)]
    .ok (true, .dict (dset rd "category" (.str UNCATEGORIZED_ID)), categories)

def upgrade_items_fold (now : Nat) : Dict → Dict → Except PyErr (Bool × Dict × Dict)
  | cats, [] => .ok (false, [], cats)
  | cats, (n, r) :: rest => do
    let (c, r2, cats2) ← upgrade_item_record now r cats
    let (cr, rest2, cats3) ← upgrade_items_fold now cats2 rest
    .ok (c || cr, (n, r2) :: rest2, cats3)

def upgrade_stores_items (now : Nat) : Dict → Dict → Except PyErr (Bool × Dict × Dict)
  | cats, [] => .ok (false, [], cats)
  | cats, (sid, store) :: rest =>
    match store with
    | .dict sd =>
      match dget sd "items" with
      | some (.dict its) => do
        let (c, its2, cats2) ← upgrade_items_fold now cats its
        let (cr, rest2, cats3) ← upgrade_stores_items now cats2 rest
        .ok (c || cr, (sid, .dict (dset sd "items" (.dict its2))) :: rest2, cats3)
      | some _ => .error .attributeError
      | Option.none => do
        let (cr, rest2, cats3) ← upgrade_stores_items now cats rest
        .ok (cr, (sid, store) :: rest2, cats3)
    | _ => .error .attributeError

/-- Stores half of `_upgrade_state` (inventory.py:983-1027): a non-dict
`stores` value falls back to a default store wrapping the legacy flat items,
an empty store dict gets a fresh default store, and every surviving entry is
normalized field by field. -/
def upgrade_stores_phase (now : Nat) (sd : Dict) : Bool × Dict :=
  let stores_raw := dget sd "stores"
  let (changed1, stores1) : Bool × Dict :=
    match stores_raw with
    | some (.dict s) => (false, s)
    | _ =>
      let legacy_items := sd.filter (fun kv =>
        !(kv.1 = "categories" || kv.1 = "meta" || kv.1 = "stores") &&
          (match kv.2 with | .dict _ => true | _ => false))
      (true, [(DEFAULT_STORE_ID,
        PyVal.dict [("id", .str DEFAULT_STORE_ID), ("name", .str DEFAULT_STORE_NAME),
                    ("created_at", .int now), ("items", .dict legacy_items)])])
  let storesEmpty := stores1.isEmpty
  let stores2 : Dict :=
    if storesEmpty then
      [(DEFAULT_STORE_ID,
        PyVal.dict [("id", .str DEFAULT_STORE_ID), ("name", .str DEFAULT_STORE_NAME),
                    ("created_at", .int now), ("items", .dict [])])]
    else stores1
  let storePairs : List (String × (Bool × PyVal)) :=
    stores2.map (fun kv => (kv.1, upgrade_store_entry now kv.1 kv.2))
  (changed1 || storesEmpty || storePairs.any (fun kv => kv.2.1),
   storePairs.map (fun kv => (kv.1, kv.2.2)))

/-- Category half of `_upgrade_state` (inventory.py:1029-1057): a non-dict
registry is reset, the `uncategorized` sentinel is ensured, and every entry
is normalized field by field. -/
def upgrade_cats_phase (now : Nat) (sd : Dict) : Bool × Dict :=
  let categories_raw := dget sd "categories"
  let catsIsDict := match categories_raw with | some (.dict _) => true | _ => false
  let cats1 : Dict := match categories_raw with | some (.dict c) => c | _ => []
  let uncatMissing := !(dmem cats1 UNCATEGORIZED_ID)
  let cats2 : Dict :=
    if uncatMissing then
      dset cats1 UNCATEGORIZED_ID
        (.dict [("id", .str UNCATEGORIZED_ID), ("name", .str UNCATEGORIZED_NAME),
                ("created_at", .int now)])
    else cats1
  let catPairs : List (String × (Bool × PyVal)) :=
    cats2.map (fun kv => (kv.1, upgrade_category_entry now kv.1 kv.2))
  (!catsIsDict || uncatMissing || catPairs.any (fun kv => kv.2.1),
   catPairs.map (fun kv => (kv.1, kv.2.2)))

/-- Metadata repair of `_upgrade_state` (inventory.py:1078-1086): the default
store pointer must name an existing store, else it is repointed at the first
store. -/
def upgrade_meta_phase (stores4 : Dict) (sd : Dict) : Bool × Dict :=
  let meta_raw := dget sd "meta"
  let metaIsDict := match meta_raw with | some (.dict _) => true | _ => false
  let metaD : Dict := match meta_raw with | some (.dict m) => m | _ => []
  let needDefault :=
    match dgetD metaD "default_store" .none with
    | .str s => !(dmem stores4 s)
    | _ => true
  let metaD2 :=
    if needDefault then dset metaD "default_store" (.str ((dkeys stores4).headD ""))
    else metaD
  (!metaIsDict || needDefault, metaD2)

/-- Body of `_upgrade_state` after the top-level dict check. -/
def upgrade_body (now : Nat) (changed0 : Bool) (sd : Dict) : Except PyErr (Bool × PyVal) := do
  let (cs, stores3) := upgrade_stores_phase now sd
  let (cc, cats3) := upgrade_cats_phase now sd
  let (ci, stores4, cats4) ← upgrade_stores_items now cats3 stores3
  let (cm, metaD2) := upgrade_meta_phase stores4 sd
  .ok (changed0 || cs || cc || ci || cm,
       .dict [("stores", .dict stores4), ("categories", .dict cats4),
              ("meta", .dict metaD2)])

/-- `_upgrade_state(state)` (inventory.py:971): returns whether anything was
repaired together with the normalized document `{stores, categories, meta}`. -/
def _upgrade_state (now : Nat) (state0 : PyVal) : Except PyErr (Bool × PyVal) :=
  match state0 with
  | .dict d => upgrade_body now false d
  | _ => upgrade_body now true []

/-! ### Lemma kit -/

theorem dget_dset_self (d : Dict) (k : String) (v : PyVal) : dget (dset d k v) k = some v := by
  induction d with
  | nil => simp [dget, dset]
  | cons hd tl ih =>
    obtain ⟨k', v'⟩ := hd
    by_cases h : k' = k <;> simp [dget, dset, h, ih]

theorem dget_dset_ne (d : Dict) (k k' : String) (v : PyVal) (h : k' ≠ k) :
    dget (dset d k v) k' = dget d k' := by
  induction d with
  | nil => simp [dget, dset, Ne.symm h]
  | cons hd tl ih =>
    obtain ⟨k0, v0⟩ := hd
    by_cases h0 : k0 = k
    · subst h0
      simp [dget, dset, Ne.symm h]
    · simp only [dset, if_neg h0, dget]
      by_cases h1 : k0 = k' <;> simp [h1, ih]

theorem dmem_dset (d : Dict) (k k' : String) (v : PyVal) :
    dmem (dset d k v) k' = (dmem d k' || (k' = k)) := by
  by_cases h : k' = k
  · subst h
    simp [dmem, dget_dset_self]
  · simp [dmem, dget_dset_ne d k k' v h, h]

theorem dset_ne_nil (d : Dict) (k : String) (v : PyVal) : dset d k v ≠ [] := by
  cases d with
  | nil => simp [dset]
  | cons hd tl =>
    obtain ⟨k0, v0⟩ := hd
    by_cases h : k0 = k <;> simp [dset, h]

theorem dget_ddel_ne (d : Dict) (k k' : String) (h : k' ≠ k) :
    dget (ddel d k) k' = dget d k' := by
  induction d with
  | nil => simp [ddel]
  | cons hd tl ih =>
    obtain ⟨k0, v0⟩ := hd
    by_cases h0 : k0 = k
    · subst h0
      simp [ddel, dget, Ne.symm h]
    · simp only [ddel, if_neg h0, dget]
      by_cases h1 : k0 = k' <;> simp [h1, ih]

theorem dmem_ddel_ne (d : Dict) (k k' : String) (h : k' ≠ k) :
    dmem (ddel d k) k' = dmem d k' := by
  simp [dmem, dget_ddel_ne d k k' h]

theorem except_bind_ok {α β : Type} {x : Except PyErr α} {f : α → Except PyErr β} {r : β} :
    (x >>= f) = .ok r ↔ ∃ a, x = .ok a ∧ f a = .ok r := by
  cases x <;> simp [Bind.bind, Except.bind]

theorem expectDict_ok {v : PyVal} {e : PyErr} {d : Dict} :
    expectDict v e = .ok d ↔ v = .dict d := by
  cases v <;> simp [expectDict]

theorem getKey_ok {d : Dict} {k : String} {v : PyVal} :
    getKey d k = .ok v ↔ dget d k = some v := by
  unfold getKey
  cases h : dget d k <;> simp [pure, Except.pure, throw, throwThe, MonadExceptOf.throw]

/-- A normalized-enough document for stating claims: `stores` and
`categories` are dicts. -/
def Effect.isWrite : Effect → Bool
  | .writeState _ => true
  | .appendHistory _ => false

/-- A small concrete document used by witnesses: one store `default` holding
one item `widget` with quantity 10, and the sentinel category. -/
def exWidgetRaw : PyVal :=
  .dict [("quantity", .int 10), ("unit", .str "pcs"), ("category", .str "uncategorized")]

def exItems : Dict := [("widget", exWidgetRaw)]

def exStoreD : Dict :=
  [("id", .str "default"), ("name", .str "Main"), ("created_at", .int 0),
   ("items", .dict exItems)]

def exStoresD : Dict := [("default", .dict exStoreD)]

def exUncat : PyVal :=
  .dict [("id", .str "uncategorized"), ("name", .str "未分类"), ("created_at", .int 0)]

def exCatsD : Dict := [("uncategorized", exUncat)]

def exStateD : Dict :=
  [("stores", .dict exStoresD), ("categories", .dict exCatsD),
   ("meta", .dict [("default_store", .str "default")])]

def exState : PyVal := .dict exStateD

/-- The coerced form of `exWidgetRaw`. -/
def exWidgetRec : Record :=
  { quantity := 10, unit := "pcs", last_in := .none, last_out := .none, created_at := .none,
    created_quantity := Option.none, last_in_delta := Option.none,
    last_out_delta := Option.none, threshold := Option.none, category := "uncategorized" }

/-- Extract the committed state of a successful operation result (used only
to name concrete values inside witnesses). -/
def okStateOf (r : Except PyErr PyVal) : PyVal :=
  match r with
  | .ok s => s
  | .error _ => .none

def okPairState (r : Except PyErr (PyVal × Item)) : PyVal :=
  match r with
  | .ok p => p.1
  | .error _ => .none

def okTripleState (r : Except PyErr (PyVal × Item × Item)) : PyVal :=
  match r with
  | .ok p => p.1
  | .error _ => .none

/-- A two-store variant of `exState` (adds the empty store `branch`). -/
def exBranchD : Dict :=
  [("id", .str "branch"), ("name", .str "Branch"), ("created_at", .int 0),
   ("items", .dict [])]

def exStoresD2 : Dict := [("default", .dict exStoreD), ("branch", .dict exBranchD)]

def exStateD2 : Dict :=
  [("stores", .dict exStoresD2), ("categories", .dict exCatsD),
   ("meta", .dict [("default_store", .str "default")])]

def exState2 : PyVal := .dict exStateD2

theorem except_pure_ok {α : Type} {x r : α} :
    (pure x : Except PyErr α) = .ok r ↔ x = r := by
  simp [pure, Except.pure]

theorem getItemsEntry_dict {its : Dict} {name : String} {raw : PyVal} {msg : String}
    (h : dget its name = some raw) :
    getItemsEntry (.dict its) name msg = .ok (its, raw) := by
  unfold getItemsEntry
  simp [pyInOp, dmem, h, pure, Except.pure, Bind.bind, Except.bind]

theorem pyGetD_dict (d : Dict) (k : String) (dflt : PyVal) :
    pyGetD (.dict d) k dflt = .ok (dgetD d k dflt) := rfl

theorem pySetdefault_found {d : Dict} {k : String} {x dflt : PyVal} (h : dget d k = some x) :
    pySetdefault (.dict d) k dflt = .ok (.dict d, x) := by
  simp [pySetdefault, h]

/-- The quantity actually stored in the document for `(store_id, name)`. -/
def storedQuantity (s : PyVal) (store_id name : String) : Option PyVal :=
  match s with
  | .dict sd =>
    match dget sd "stores" with
    | some (.dict stores) =>
      match dget stores store_id with
      | some (.dict store) =>
        match dget store "items" with
        | some (.dict its) =>
          match dget its name with
          | some (.dict r) => dget r "quantity"
          | _ => Option.none
        | _ => Option.none
      | _ => Option.none
    | _ => Option.none
  | _ => Option.none

theorem set_record_update_quantity (now : Nat) (q : Int) (unit : Option String)
    (th : PyVal) (keep : Bool) (cid : String) (is_new : Bool) (rec : Record) :
    (set_record_update now q unit th keep cid is_new rec).quantity = q := by
  cases unit <;>
    simp only [set_record_update, apply_ite (Record.quantity)] <;>
    simp

theorem storedQuantity_built (stateD storesD sd its : Dict) (sid name : String)
    (r : Record) :
    storedQuantity (.dict (dset stateD "stores" (.dict (dset storesD sid
      (.dict (dset sd "items" (.dict (dset its name r.toPyVal)))))))) sid name
      = some (.int r.quantity) := by
  simp [storedQuantity, dget_dset_self, Record.toPyVal, dget]

/-! ### C9 — threshold normalization is total and non-negative -/

/-- C9: `_normalize_threshold` is total and never raises: every input maps to
`None` or a non-negative integer.  In particular a negative, blank or
non-numeric threshold reaching the `set_quantity` record update with
`keep_threshold = false` is stored as exactly the normalized value — null in
those cases — instead of failing the operation. -/
theorem C9_threshold_normalization :
    (∀ v : PyVal, _normalize_threshold v = Option.none ∨
      ∃ n : Int, _normalize_threshold v = some n ∧ 0 ≤ n) ∧
    (∀ now quantity unit threshold category_id is_new record,
      (set_record_update now quantity unit threshold false category_id
        is_new record).threshold = _normalize_threshold threshold) ∧
    _normalize_threshold (.int (-3)) = Option.none ∧
    _normalize_threshold (.str "   ") = Option.none ∧
    _normalize_threshold (.str "abc") = Option.none := by
  refine ⟨?_, ?_, rfl, rfl, rfl⟩
  · intro v
    cases v with
    | none => left; rfl
    | bool b =>
      cases b
      · right; exact ⟨0, rfl, le_refl 0⟩
      · right; exact ⟨1, rfl, by norm_num⟩
    | int n =>
      by_cases h : n < 0
      · left; simp [_normalize_threshold, pyInt, h]
      · right; exact ⟨n, by simp [_normalize_threshold, pyInt, h], not_lt.mp h⟩
    | str s =>
      unfold _normalize_threshold
      by_cases h : pyStrip s = ""
      · left; simp [h]
      · simp only [if_neg h]
        cases hp : pyStrToInt (pyStrip s) with
        | none => left; rfl
        | some n =>
          by_cases hn : n < 0
          · left; simp [hn]
          · right; exact ⟨n, by simp [hn], not_lt.mp hn⟩
    | list xs => left; rfl
    | dict d => left; rfl
  · intro now quantity unit threshold category_id is_new record
    cases unit <;> simp only [set_record_update] <;> split_ifs <;> rfl

/-! ### Identifier freshness machinery -/

theorem natReprAux_eq (fuel : Nat) : ∀ n : Nat, n ≤ fuel →
    natReprAux fuel n = ((Nat.digits 10 n).map Nat.digitChar).reverse := by
  induction fuel with
  | zero =>
    intro n h
    interval_cases n
    simp [natReprAux]
  | succ fuel ih =>
    intro n h
    by_cases h0 : n = 0
    · subst h0
      simp [natReprAux]
    · rw [natReprAux, if_neg h0,
        Nat.digits_def' (by norm_num : (1:Nat) < 10) (Nat.pos_of_ne_zero h0)]
      have hdiv : n / 10 ≤ fuel := by
        have := Nat.div_lt_self (Nat.pos_of_ne_zero h0) (by norm_num : (1:Nat) < 10)
        omega
      rw [ih (n / 10) hdiv]
      simp

theorem digitChar_inj_lt : ∀ a < 10, ∀ b < 10, Nat.digitChar a = Nat.digitChar b → a = b := by
  decide

theorem map_digitChar_inj : ∀ l1 l2 : List Nat, (∀ x ∈ l1, x < 10) → (∀ x ∈ l2, x < 10) →
    l1.map Nat.digitChar = l2.map Nat.digitChar → l1 = l2
  | [], [], _, _, _ => rfl
  | [], _ :: _, _, _, h => by simp at h
  | _ :: _, [], _, _, h => by simp at h
  | a :: l1, b :: l2, h1, h2, h => by
    simp only [List.map_cons, List.cons.injEq] at h
    have ha := h1 a (by simp)
    have hb := h2 b (by simp)
    have := digitChar_inj_lt a ha b hb h.1
    rw [this, map_digitChar_inj l1 l2 (fun x hx => h1 x (by simp [hx]))
      (fun x hx => h2 x (by simp [hx])) h.2]

theorem natRepr_inj_pos {m n : Nat} (hm : 0 < m) (hn : 0 < n) (h : natRepr m = natRepr n) :
    m = n := by
  unfold natRepr at h
  rw [if_neg (Nat.pos_iff_ne_zero.mp hm), if_neg (Nat.pos_iff_ne_zero.mp hn)] at h
  rw [natReprAux_eq m m (le_refl m), natReprAux_eq n n (le_refl n)] at h
  have hl : ((Nat.digits 10 m).map Nat.digitChar).reverse
      = ((Nat.digits 10 n).map Nat.digitChar).reverse := by
    have := congrArg String.data h
    simpa using this
  have hmap := List.reverse_injective hl
  have := map_digitChar_inj _ _
    (fun x hx => Nat.digits_lt_base (by norm_num) hx)
    (fun x hx => Nat.digits_lt_base (by norm_num) hx) hmap
  exact Nat.digits_inj_iff.mp this

theorem suffix_candidate_inj (base : String) :
    Function.Injective (fun k : Nat => base ++ "-" ++ natRepr (k + 2)) := by
  intro a b h
  simp only at h
  have hdata := congrArg String.data h
  rw [String.data_append, String.data_append, String.data_append, String.data_append]
    at hdata
  rw [List.append_assoc, List.append_assoc] at hdata
  have h2 := List.append_cancel_left hdata
  have h3 := List.append_cancel_left h2
  have h4 : natRepr (a + 2) = natRepr (b + 2) := by
    apply String.ext
    exact h3
  have := natRepr_inj_pos (by omega) (by omega) h4
  omega

/-- The identifier returned by `_next_identifier` never collides with an
existing identifier. -/
theorem next_identifier_fresh (base : String) (existing : List String) :
    _next_identifier base existing ∉ existing := by
  unfold _next_identifier
  by_cases hb : existing.contains base = false
  · rw [if_pos hb]
    intro hmem
    rw [← List.elem_iff] at hmem
    simp only [List.contains] at hb
    rw [hmem] at hb
    simp at hb
  · rw [if_neg hb]
    cases hf : (List.range (existing.length + 1)).find?
        (fun k => ! existing.contains (base ++ "-" ++ natRepr (k + 2))) with
    | some k =>
      simp only []
      have hp := List.find?_some hf
      simp only [Bool.not_eq_true'] at hp
      intro hmem
      rw [← List.elem_iff] at hmem
      simp only [List.contains] at hp
      rw [hmem] at hp
      simp at hp
    | none =>
      exfalso
      rw [List.find?_eq_none] at hf
      set L := (List.range (existing.length + 1)).map
        (fun k : Nat => base ++ "-" ++ natRepr (k + 2)) with hL
      have hnodup : L.Nodup :=
        List.Nodup.map (suffix_candidate_inj base) (List.nodup_range _)
      have hsub : ∀ x ∈ L, x ∈ existing := by
        intro x hx
        rw [hL, List.mem_map] at hx
        obtain ⟨k, hk, rfl⟩ := hx
        have := hf k hk
        simp only [Bool.not_eq_true', Bool.not_eq_false] at this
        exact List.elem_iff.mp this
      have hlen : L.length = existing.length + 1 := by simp [hL]
      have hcard : L.length ≤ existing.length := by
        calc L.length = L.toFinset.card := (List.toFinset_card_of_nodup hnodup).symm
          _ ≤ existing.toFinset.card := by
              apply Finset.card_le_card
              intro x hx
              rw [List.mem_toFinset] at hx ⊢
              exact hsub x hx
          _ ≤ existing.length := List.toFinset_card_le existing
      omega

theorem dmem_iff_mem_dkeys (d : Dict) (k : String) : dmem d k = true ↔ k ∈ dkeys d := by
  induction d with
  | nil => simp [dmem, dget, dkeys]
  | cons hd tl ih =>
    obtain ⟨k0, v0⟩ := hd
    by_cases h : k0 = k
    · subst h
      simp [dmem, dget, dkeys]
    · simp only [dmem, dget, if_neg h, dkeys, List.map_cons, List.mem_cons]
      rw [← dkeys, ← dmem, ih]
      simp [Ne.symm h]

/-! ### C7 — category resolution -/

/-- C7: `_ensure_category` resolves `None`/blank to the sentinel; an
existing id is returned unchanged with the state untouched; otherwise the
trimmed value is matched by exact (case-sensitive) string equality against
existing category names and the matching id returned; otherwise a fresh
category is created under the slug-derived, numerically disambiguated id —
which never collides with an existing id — and that id is returned. -/
theorem C7_ensure_category :
    (∀ now stateD catsV, dget stateD "categories" = some catsV →
      _ensure_category now (.dict stateD) .none = .ok (.dict stateD, UNCATEGORIZED_ID)) ∧
    (∀ now stateD catsV v, dget stateD "categories" = some catsV →
      pyStrip (pyStr v) = "" →
      _ensure_category now (.dict stateD) v = .ok (.dict stateD, UNCATEGORIZED_ID)) ∧
    (∀ now stateD catsD v, dget stateD "categories" = some (.dict catsD) →
      v ≠ .none → pyStrip (pyStr v) ≠ "" →
      dmem catsD (pyStrip (pyStr v)) = true →
      _ensure_category now (.dict stateD) v = .ok (.dict stateD, pyStrip (pyStr v))) ∧
    (∀ cd cand cid, findCategoryByName cd cand = .ok (some cid) →
      ∃ dd, (cid, PyVal.dict dd) ∈ cd ∧ dgetD dd "name" .none = .str cand) ∧
    (∀ now stateD catsD v cid, dget stateD "categories" = some (.dict catsD) →
      v ≠ .none → pyStrip (pyStr v) ≠ "" →
      dmem catsD (pyStrip (pyStr v)) = false →
      findCategoryByName catsD (pyStrip (pyStr v)) = .ok (some cid) →
      _ensure_category now (.dict stateD) v = .ok (.dict stateD, cid)) ∧
    (∀ now stateD catsD v, dget stateD "categories" = some (.dict catsD) →
      v ≠ .none → pyStrip (pyStr v) ≠ "" →
      dmem catsD (pyStrip (pyStr v)) = false →
      findCategoryByName catsD (pyStrip (pyStr v)) = .ok Option.none →
      ∃ newId, newId = _next_identifier
          (_slugify_identifier (pyStrip (pyStr v)) "category") (dkeys catsD) ∧
        dmem catsD newId = false ∧
        _ensure_category now (.dict stateD) v
          = .ok (.dict (dset stateD "categories" (.dict (dset catsD newId
              (.dict [("id", .str newId), ("name", .str (pyStrip (pyStr v))),
                      ("created_at", .int now)])))), newId)) := by
  refine ⟨?_, ?_, ?_, ?_, ?_, ?_⟩
  · intro now stateD catsV hcats
    simp [_ensure_category, PyVal.getItem, hcats, Bind.bind, Except.bind, pure, Except.pure]
  · intro now stateD catsV v hcats hblank
    by_cases hv : v = .none
    · subst hv
      simp [pyStr, pyRepr, pyStrip] at hblank
    · simp [_ensure_category, PyVal.getItem, hcats, hv, hblank, Bind.bind, Except.bind,
        pure, Except.pure]
  · intro now stateD catsD v hcats hv hne hmem
    simp [_ensure_category, PyVal.getItem, hcats, hv, hne, pyInOp, hmem, Bind.bind,
      Except.bind, pure, Except.pure]
  · intro cd cand cid
    induction cd with
    | nil => intro h; simp [findCategoryByName] at h
    | cons hd tl ih =>
      obtain ⟨k0, data⟩ := hd
      intro h
      cases data with
      | dict dd =>
        rw [findCategoryByName] at h
        simp only [pyGetD_dict, Bind.bind, Except.bind] at h
        by_cases hname : dgetD dd "name" .none = .str cand
        · rw [if_pos hname] at h
          simp only [Except.ok.injEq, Option.some.injEq] at h
          exact ⟨dd, by simp [← h], hname⟩
        · rw [if_neg hname] at h
          obtain ⟨dd', hmem', hname'⟩ := ih h
          exact ⟨dd', by simp [hmem'], hname'⟩
      | none => simp [findCategoryByName, pyGetD, Bind.bind, Except.bind] at h
      | bool b => simp [findCategoryByName, pyGetD, Bind.bind, Except.bind] at h
      | int n => simp [findCategoryByName, pyGetD, Bind.bind, Except.bind] at h
      | str s => simp [findCategoryByName, pyGetD, Bind.bind, Except.bind] at h
      | list xs => simp [findCategoryByName, pyGetD, Bind.bind, Except.bind] at h
  · intro now stateD catsD v cid hcats hv hne hmem hfind
    simp [_ensure_category, PyVal.getItem, hcats, hv, hne, pyInOp, hmem, hfind,
      Bind.bind, Except.bind, pure, Except.pure]
  · intro now stateD catsD v hcats hv hne hmem hfind
    refine ⟨_, rfl, ?_, ?_⟩
    · have := next_identifier_fresh
        (_slugify_identifier (pyStrip (pyStr v)) "category") (dkeys catsD)
      rw [← dmem_iff_mem_dkeys] at this
      simpa using this
    · simp [_ensure_category, PyVal.getItem, hcats, hv, hne, pyInOp, hmem, hfind,
        Bind.bind, Except.bind, pure, Except.pure]

/-- Witness for C7 at concrete inputs on `exState`. -/
theorem C7_witness :
    _ensure_category 1 exState .none = .ok (.dict exStateD, UNCATEGORIZED_ID) ∧
    _ensure_category 1 exState (.str "uncategorized")
      = .ok (.dict exStateD, pyStrip (pyStr (.str "uncategorized"))) ∧
    _ensure_category 1 exState (.str "未分类") = .ok (.dict exStateD, "uncategorized") ∧
    (∃ newId, newId = _next_identifier
        (_slugify_identifier (pyStrip (pyStr (.str "Drinks"))) "category")
        (dkeys exCatsD) ∧
      dmem exCatsD newId = false ∧
      _ensure_category 1 exState (.str "Drinks")
        = .ok (.dict (dset exStateD "categories" (.dict (dset exCatsD newId
            (.dict [("id", .str newId), ("name", .str (pyStrip (pyStr (.str "Drinks")))),
                    ("created_at", .int 1)])))), newId)) := by
  refine ⟨?_, ?_, ?_, ?_⟩
  · exact C7_ensure_category.1 1 exStateD (.dict exCatsD) (by rfl)
  · exact C7_ensure_category.2.2.1 1 exStateD exCatsD (.str "uncategorized") (by rfl)
      (by decide) (by decide) (by rfl)
  · exact C7_ensure_category.2.2.2.2.1 1 exStateD exCatsD (.str "未分类") "uncategorized"
      (by rfl) (by decide) (by decide) (by rfl) (by rfl)
  · exact C7_ensure_category.2.2.2.2.2 1 exStateD exCatsD (.str "Drinks") (by rfl)
      (by decide) (by decide) (by rfl) (by rfl)

/-! ### C6 — import row acceptance -/

/-- The row-acceptance test of `import_items` (inventory.py:837-849): a row is
written iff it is a dict whose name is non-empty after trimming and whose
quantity converts to a non-negative integer. -/
def import_row_ok (row : PyVal) : Bool :=
  match row with
  | .dict rd =>
    decide (pyStrip (pyStr (pyOrEmptyStr (dgetD rd "name" .none))) ≠ "") &&
    (match pyInt (dgetD rd "quantity" .none) with
     | .ok q => decide (0 ≤ q)
     | .error _ => false)
  | _ => false

/-- The item name an accepted row is written under. -/
def import_row_name (row : PyVal) : String :=
  match row with
  | .dict rd => pyStrip (pyStr (pyOrEmptyStr (dgetD rd "name" .none)))
  | _ => ""

theorem set_locked_ok_name {now : Nat} {state : PyVal} {sid name : String} {q : Int}
    {unit : Option String} {th : PyVal} {keep : Bool} {cid : String} {user : Option String}
    {s2 : PyVal} {entry : Option HistoryEntry} {item : Item}
    (h : _set_quantity_locked now state sid name q unit th keep cid user
      = .ok (s2, entry, item)) : item.name = name := by
  unfold _set_quantity_locked at h
  simp only [except_bind_ok, except_pure_ok] at h
  obtain ⟨a1, -, a2, -, a3, -, a4, -, a5, -, a6, -, a7, -, a8, -, a9, -, a10, -, a11, -,
    a12, -, a13, -, hfin⟩ := h
  injection hfin with h1 h2
  injection h2 with h2a h2b
  rw [← h2b]
  rfl

theorem import_loop_filter (now : Nat) (user : Option String) (resolved : String) :
    ∀ (rows : List PyVal) (state : PyVal) (es : List HistoryEntry) (acc : List Item),
      import_items_loop now user resolved state rows es acc
        = import_items_loop now user resolved state (rows.filter import_row_ok) es acc := by
  intro rows
  induction rows with
  | nil => intro state es acc; rfl
  | cons row rest ih =>
    intro state es acc
    by_cases hok : import_row_ok row = true
    · rw [List.filter_cons_of_pos hok]
      cases row with
      | dict rd =>
        simp only [import_row_ok, Bool.and_eq_true, decide_eq_true_eq] at hok
        obtain ⟨hname, hq⟩ := hok
        rw [import_items_loop, import_items_loop]
        rw [if_neg hname, if_neg hname]
        cases hqi : pyInt (dgetD rd "quantity" .none) with
        | error e => rw [hqi] at hq; simp at hq
        | ok q =>
          rw [hqi] at hq
          simp only [decide_eq_true_eq] at hq
          have hq' : ¬ q < 0 := not_lt.mpr hq
          simp only []
          rw [if_neg hq', if_neg hq']
          cases _ensure_category now state (importCategoryRaw rd) with
          | error e => rfl
          | ok p =>
            obtain ⟨state2, cid⟩ := p
            simp only []
            cases _set_quantity_locked now state2 resolved
                (pyStrip (pyStr (pyOrEmptyStr (dgetD rd "name" .none)))) q
                (if dgetD rd "unit" .none = .none then Option.none
                 else some (pyStrip (pyStr (dgetD rd "unit" .none))))
                (optIntVal (_normalize_threshold
                  ((firstKeyPresent rd ["threshold", "阈值提醒", "阈值"]).getD .none)))
                (!(firstKeyPresent rd ["threshold", "阈值提醒", "阈值"]).isSome) cid user with
            | error e => rfl
            | ok p2 =>
              obtain ⟨state3, entry, item⟩ := p2
              simp only []
              exact ih state3 _ _
      | none => simp [import_row_ok] at hok
      | bool b => simp [import_row_ok] at hok
      | int n => simp [import_row_ok] at hok
      | str s => simp [import_row_ok] at hok
      | list xs => simp [import_row_ok] at hok
    · rw [List.filter_cons_of_neg (by simp [hok])]
      cases row with
      | dict rd =>
        simp only [import_row_ok, Bool.and_eq_true, decide_eq_true_eq, not_and] at hok
        rw [import_items_loop]
        by_cases hname : pyStrip (pyStr (pyOrEmptyStr (dgetD rd "name" .none))) = ""
        · rw [if_pos hname]
          exact ih state es acc
        · have hq := hok hname
          rw [if_neg hname]
          cases hqi : pyInt (dgetD rd "quantity" .none) with
          | error e => exact ih state es acc
          | ok q =>
            rw [hqi] at hq
            simp only [decide_eq_true_eq] at hq
            simp only []
            rw [if_pos (by omega : q < 0)]
            exact ih state es acc
      | none => exact ih state es acc
      | bool b => exact ih state es acc
      | int n => exact ih state es acc
      | str s => exact ih state es acc
      | list xs => exact ih state es acc

theorem import_loop_names (now : Nat) (user : Option String) (resolved : String) :
    ∀ (rows : List PyVal) (state : PyVal) (es es2 : List HistoryEntry) (acc items : List Item)
      (s2 : PyVal),
      (∀ r ∈ rows, import_row_ok r = true) →
      import_items_loop now user resolved state rows es acc = (es2, .ok (s2, items)) →
      items.map Item.name = acc.map Item.name ++ rows.map import_row_name := by
  intro rows
  induction rows with
  | nil =>
    intro state es es2 acc items s2 _ h
    rw [import_items_loop] at h
    simp only [Prod.mk.injEq, Except.ok.injEq] at h
    rw [← h.2.2]
    simp
  | cons row rest ih =>
    intro state es es2 acc items s2 hall h
    have hok := hall row (by simp)
    cases row with
    | dict rd =>
      simp only [import_row_ok, Bool.and_eq_true, decide_eq_true_eq] at hok
      obtain ⟨hname, hq⟩ := hok
      rw [import_items_loop, if_neg hname] at h
      cases hqi : pyInt (dgetD rd "quantity" .none) with
      | error e => rw [hqi] at hq; simp at hq
      | ok q =>
        rw [hqi] at h hq
        simp only [decide_eq_true_eq] at hq
        simp only [] at h
        rw [if_neg (not_lt.mpr hq)] at h
        cases hens : _ensure_category now state (importCategoryRaw rd) with
        | error e => rw [hens] at h; simp at h
        | ok p =>
          rw [hens] at h
          obtain ⟨state2, cid⟩ := p
          simp only [] at h
          cases hlock : _set_quantity_locked now state2 resolved
              (pyStrip (pyStr (pyOrEmptyStr (dgetD rd "name" .none)))) q
              (if dgetD rd "unit" .none = .none then Option.none
               else some (pyStrip (pyStr (dgetD rd "unit" .none))))
              (optIntVal (_normalize_threshold
                ((firstKeyPresent rd ["threshold", "阈值提醒", "阈值"]).getD .none)))
              (!(firstKeyPresent rd ["threshold", "阈值提醒", "阈值"]).isSome) cid user with
          | error e => rw [hlock] at h; simp at h
          | ok p2 =>
            rw [hlock] at h
            obtain ⟨state3, entry, item⟩ := p2
            simp only [] at h
            have := ih state3 _ _ _ _ _ (fun r hr => hall r (by simp [hr])) h
            rw [this]
            simp [set_locked_ok_name hlock, import_row_name]
    | none => simp [import_row_ok] at hok
    | bool b => simp [import_row_ok] at hok
    | int n => simp [import_row_ok] at hok
    | str s => simp [import_row_ok] at hok
    | list xs => simp [import_row_ok] at hok

/-- C6: `import_items` writes exactly the rows that are dicts with a usable
(non-blank) name and a non-negative integral quantity, skipping all other
rows silently and without effect; the returned list is exactly the accepted
rows, written in input order under their trimmed names. -/
theorem C6_import_filtering :
    (∀ now state rows sid user,
      import_items now state rows sid user
        = import_items now state (rows.filter import_row_ok) sid user) ∧
    (∀ row, import_row_ok row = true ↔ ∃ rd q, row = .dict rd ∧
      pyStrip (pyStr (pyOrEmptyStr (dgetD rd "name" .none))) ≠ "" ∧
      pyInt (dgetD rd "quantity" .none) = .ok q ∧ 0 ≤ q) ∧
    (∀ now state rows sid user es s2 items,
      import_items now state rows sid user = (es, .ok (s2, items)) →
      items.map Item.name = (rows.filter import_row_ok).map import_row_name) := by
  refine ⟨?_, ?_, ?_⟩
  · intro now state rows sid user
    unfold import_items
    cases _normalize_store_id state sid with
    | error e => rfl
    | ok resolved =>
      simp only []
      rw [import_loop_filter now user resolved rows state [] []]
  · intro row
    cases row with
    | dict rd =>
      simp only [import_row_ok, Bool.and_eq_true, decide_eq_true_eq]
      constructor
      · rintro ⟨hname, hq⟩
        cases hqi : pyInt (dgetD rd "quantity" .none) with
        | error e => rw [hqi] at hq; simp at hq
        | ok q =>
          rw [hqi] at hq
          simp only [decide_eq_true_eq] at hq
          exact ⟨rd, q, rfl, hname, hqi, hq⟩
      · rintro ⟨rd', q, heq, hname, hqi, hq⟩
        obtain rfl : rd' = rd := by injection heq with hh; exact hh.symm
        exact ⟨hname, by rw [hqi]; simpa using hq⟩
    | none => simp [import_row_ok]
    | bool b => simp [import_row_ok]
    | int n => simp [import_row_ok]
    | str s => simp [import_row_ok]
    | list xs => simp [import_row_ok]
  · intro now state rows sid user es s2 items h
    unfold import_items at h
    cases hn : _normalize_store_id state sid with
    | error e => rw [hn] at h; simp at h
    | ok resolved =>
      rw [hn] at h
      simp only [] at h
      rw [import_loop_filter now user resolved rows state [] []] at h
      cases hl : import_items_loop now user resolved state
          (rows.filter import_row_ok) [] [] with
      | mk les lr =>
        rw [hl] at h
        cases lr with
        | error e => simp at h
        | ok p =>
          obtain ⟨ls2, litems⟩ := p
          simp only [Prod.mk.injEq, Except.ok.injEq] at h
          have := import_loop_names now user resolved (rows.filter import_row_ok)
            state [] les [] litems ls2 (fun r hr => List.of_mem_filter hr) hl
          rw [← h.2.2, this]
          simp

/-- Witness for C6 on the specification's example rows. -/
theorem C6_witness :
    (import_items 1 exState
        [.dict [("name", .str "A"), ("quantity", .str "5")],
         .dict [("name", .str ""), ("quantity", .int 1)],
         .dict [("name", .str "B"), ("quantity", .str "x")]] Option.none Option.none
      = import_items 1 exState [.dict [("name", .str "A"), ("quantity", .str "5")]]
          Option.none Option.none) ∧
    (∀ es s2 items,
      import_items 1 exState
          [.dict [("name", .str "A"), ("quantity", .str "5")],
           .dict [("name", .str ""), ("quantity", .int 1)],
           .dict [("name", .str "B"), ("quantity", .str "x")]] Option.none Option.none
        = (es, .ok (s2, items)) →
      items.map Item.name = ["A"]) := by
  constructor
  · have h := C6_import_filtering.1 1 exState
      [.dict [("name", .str "A"), ("quantity", .str "5")],
       .dict [("name", .str ""), ("quantity", .int 1)],
       .dict [("name", .str "B"), ("quantity", .str "x")]] Option.none Option.none
    rw [h]
    rfl
  · intro es s2 items h
    have := C6_import_filtering.2.2 1 exState
      [.dict [("name", .str "A"), ("quantity", .str "5")],
       .dict [("name", .str ""), ("quantity", .int 1)],
       .dict [("name", .str "B"), ("quantity", .str "x")]] Option.none Option.none
      es s2 items h
    rw [this]
    rfl

/-! ### C1 — non-negativity of quantities -/

/-- C1: `set_quantity` rejects a negative quantity outright with
ValidationError and no effects; `adjust_quantity` on an existing item whose
balance would go below zero raises ValidationError with no effects (document
and history untouched); and successful `adjust_quantity`/`set_quantity` calls
always leave a non-negative stored quantity, so no sequence of them can drive
a stock level negative. -/
theorem C1_nonnegativity :
    (∀ now state name quantity unit th keep cat sid user, quantity < 0 →
      set_quantity now state name quantity unit th keep cat sid user
        = ([], .error (.valueError "Quantity cannot be negative"))) ∧
    (∀ now stateD name delta sid user resolved storesD sd its raw rec,
      _normalize_store_id (.dict stateD) sid = .ok resolved →
      dget stateD "stores" = some (.dict storesD) →
      dget storesD resolved = some (.dict sd) →
      dget sd "items" = some (.dict its) →
      dget its name = some raw →
      _coerce_record raw UNCATEGORIZED_ID = .ok rec →
      rec.quantity + delta < 0 →
      adjust_quantity now (.dict stateD) name delta sid user
        = ([], .error (.valueError "Insufficient stock for this operation"))) ∧
    (∀ now stateD name delta sid user resolved storesD sd its raw rec catsD ced,
      _normalize_store_id (.dict stateD) sid = .ok resolved →
      dget stateD "stores" = some (.dict storesD) →
      dget storesD resolved = some (.dict sd) →
      dget sd "items" = some (.dict its) →
      dget its name = some raw →
      _coerce_record raw UNCATEGORIZED_ID = .ok rec →
      dget stateD "categories" = some (.dict catsD) →
      dgetD catsD rec.category (.dict []) = .dict ced →
      0 ≤ rec.quantity + delta →
      ∃ effs s2 item,
        adjust_quantity now (.dict stateD) name delta sid user = (effs, .ok (s2, item)) ∧
        storedQuantity s2 resolved name = some (.int (rec.quantity + delta)) ∧
        0 ≤ rec.quantity + delta) ∧
    (∀ now state name quantity unit th keep cat sid user resolved s1D cid storesD sd0
        its0 rec catsD ced,
      0 ≤ quantity →
      _normalize_store_id state sid = .ok resolved →
      _ensure_category now state cat = .ok (.dict s1D, cid) →
      dget s1D "stores" = some (.dict storesD) →
      dget storesD resolved = some (.dict sd0) →
      dget sd0 "items" = some (.dict its0) →
      _coerce_record (dgetD its0 name .none) UNCATEGORIZED_ID = .ok rec →
      dget s1D "categories" = some (.dict catsD) →
      dgetD catsD cid (.dict []) = .dict ced →
      ∃ effs s2 item,
        set_quantity now state name quantity unit th keep cat sid user
          = (effs, .ok (s2, item)) ∧
        storedQuantity s2 resolved name = some (.int quantity) ∧ 0 ≤ quantity) := by
  refine ⟨?_, ?_, ?_, ?_⟩
  · intro now state name quantity unit th keep cat sid user h
    unfold set_quantity set_quantity_checked
    simp [h, Bind.bind, Except.bind, throw, throwThe, MonadExceptOf.throw]
  · intro now stateD name delta sid user resolved storesD sd its raw rec
      hnorm hstores hstore hitems hraw hco hneg
    unfold adjust_quantity adjust_quantity_checked
    rw [hnorm]
    simp only [Bind.bind, Except.bind, expectDict, getKey, hstores, hstore, hitems,
      getItemsEntry_dict hraw, hco, dgetD, Option.getD, throw, throwThe,
      MonadExceptOf.throw, pure, Except.pure, if_pos hneg]
  · intro now stateD name delta sid user resolved storesD sd its raw rec catsD ced
      hnorm hstores hstore hitems hraw hco hcats hce hge
    unfold adjust_quantity adjust_quantity_checked
    rw [hnorm]
    simp only [dgetD] at hce
    simp only [Bind.bind, Except.bind, expectDict, getKey, hstores, hstore, hitems,
      getItemsEntry_dict hraw, hco, hcats, hce, pyGetD_dict, dgetD, Option.getD_some,
      throw, throwThe, MonadExceptOf.throw, if_neg (not_lt.mpr hge), pure, Except.pure]
    split_ifs <;>
      exact ⟨_, _, _, rfl, by simp [storedQuantity_built], hge⟩
  · intro now state name quantity unit th keep cat sid user resolved s1D cid storesD sd0
      its0 rec catsD ced hq hnorm hens hstores hstore hitems hco hcats hce
    unfold set_quantity set_quantity_checked _set_quantity_locked
    rw [hnorm, hens]
    simp only [dgetD] at hce hco
    simp only [Bind.bind, Except.bind, expectDict, getKey, hstores, hstore, hitems,
      pySetdefault_found hitems, hco, hcats, hce, pyGetD_dict, dgetD, Option.getD_some,
      pyInOp, throw, throwThe, MonadExceptOf.throw, if_neg (not_lt.mpr hq),
      pure, Except.pure]
    exact ⟨_, _, _, rfl, by
      simp [storedQuantity_built, set_record_update_quantity], hq⟩

/-- Witness for C1 at concrete calls on `exState`. -/
theorem C1_witness :
    (set_quantity 1 exState "widget" (-1) Option.none .none false .none Option.none
      Option.none = ([], .error (.valueError "Quantity cannot be negative"))) ∧
    (adjust_quantity 1 exState "widget" (-15) Option.none Option.none
      = ([], .error (.valueError "Insufficient stock for this operation"))) ∧
    (∃ effs s2 item,
      adjust_quantity 1 exState "widget" (-4) Option.none Option.none
        = (effs, .ok (s2, item)) ∧
      storedQuantity s2 "default" "widget" = some (.int (exWidgetRec.quantity + (-4))) ∧
      0 ≤ exWidgetRec.quantity + (-4)) := by
  refine ⟨?_, ?_, ?_⟩
  · exact C1_nonnegativity.1 1 exState "widget" (-1) Option.none .none false .none
      Option.none Option.none (by norm_num)
  · exact C1_nonnegativity.2.1 1 exStateD "widget" (-15) Option.none Option.none
      "default" exStoresD exStoreD exItems exWidgetRaw exWidgetRec (by rfl) (by rfl)
      (by rfl) (by rfl) (by rfl) (by rfl) (by decide)
  · exact C1_nonnegativity.2.2.1 1 exStateD "widget" (-4) Option.none Option.none
      "default" exStoresD exStoreD exItems exWidgetRaw exWidgetRec exCatsD
      [("id", .str "uncategorized"), ("name", .str "未分类"), ("created_at", .int 0)]
      (by rfl) (by rfl) (by rfl) (by rfl) (by rfl) (by rfl) (by rfl) (by rfl) (by decide)

/-! ### C4 — no-op suppression on `set_quantity` -/

/-- A stored record field in the document for `(store_id, name)`. -/
def storedField (s : PyVal) (store_id name field : String) : Option PyVal :=
  match s with
  | .dict sd =>
    match dget sd "stores" with
    | some (.dict stores) =>
      match dget stores store_id with
      | some (.dict store) =>
        match dget store "items" with
        | some (.dict its) =>
          match dget its name with
          | some (.dict r) => dget r field
          | _ => Option.none
        | _ => Option.none
      | _ => Option.none
    | _ => Option.none
  | _ => Option.none

theorem storedField_built (stateD storesD sd its : Dict) (sid name field : String)
    (r : Record) :
    storedField (.dict (dset stateD "stores" (.dict (dset storesD sid
      (.dict (dset sd "items" (.dict (dset its name r.toPyVal)))))))) sid name field
      = dget [("quantity", .int r.quantity), ("unit", .str r.unit), ("last_in", r.last_in),
         ("last_out", r.last_out), ("created_at", r.created_at),
         ("created_quantity", optIntVal r.created_quantity),
         ("last_in_delta", optIntVal r.last_in_delta),
         ("last_out_delta", optIntVal r.last_out_delta),
         ("threshold", optIntVal r.threshold), ("category", .str r.category)] field := by
  simp [storedField, dget_dset_self, Record.toPyVal]

theorem set_record_update_unit (now : Nat) (q : Int) (unit : Option String) (th : PyVal)
    (keep : Bool) (cid : String) (is_new : Bool) (rec : Record) :
    (set_record_update now q unit th keep cid is_new rec).unit
      = match unit with
        | some u => pyStrip u
        | Option.none => rec.unit := by
  cases unit <;>
    simp only [set_record_update, apply_ite (Record.unit)] <;>
    simp

theorem set_record_update_category (now : Nat) (q : Int) (unit : Option String) (th : PyVal)
    (keep : Bool) (cid : String) (is_new : Bool) (rec : Record) :
    (set_record_update now q unit th keep cid is_new rec).category
      = (if cid = "" then UNCATEGORIZED_ID else cid) := by
  cases unit <;>
    simp only [set_record_update, apply_ite (Record.category)] <;>
    simp

theorem set_record_update_threshold (now : Nat) (q : Int) (unit : Option String)
    (th : PyVal) (keep : Bool) (cid : String) (rec : Record) :
    (set_record_update now q unit th keep cid false rec).threshold
      = (if keep = true then rec.threshold else _normalize_threshold th) := by
  cases unit <;> cases keep <;>
    simp only [set_record_update, apply_ite (Record.threshold)] <;>
    simp

theorem dget_addUser (m : Dict) (u : Option String) (k : String) (h : k ≠ "user") :
    dget (addUser m u) k = dget m k := by
  cases u with
  | none => rfl
  | some s =>
    simp only [addUser]
    split_ifs with hs
    · exact dget_dset_ne m "user" k _ h
    · rfl

theorem set_entry_decision_noop (now : Nat) (name : String) (q : Int)
    (prevUnit newUnit : String) (sid : String) (sname : PyVal) (cid : String)
    (cname : PyVal) (user : Option String) (hu : newUnit = prevUnit) :
    set_entry_decision now name q false q prevUnit newUnit sid sname cid cname user
      = Option.none := by
  unfold set_entry_decision
  simp [hu]

theorem set_entry_decision_changed (now : Nat) (name : String) (q prev : Int)
    (prevUnit newUnit : String) (sid : String) (sname : PyVal) (cid : String)
    (cname : PyVal) (user : Option String) (h : q - prev ≠ 0 ∨ newUnit ≠ prevUnit) :
    ∃ e : HistoryEntry,
      set_entry_decision now name q false prev prevUnit newUnit sid sname cid cname user
        = some e ∧
      e.action = "set" ∧ e.name = name ∧
      dget e.meta "previous_quantity" = some (.int prev) ∧
      dget e.meta "new_quantity" = some (.int q) ∧
      (q - prev ≠ 0 → dget e.meta "delta" = some (.int (q - prev))) ∧
      (q - prev = 0 → dget e.meta "delta" = Option.none) ∧
      (newUnit ≠ prevUnit → dget e.meta "previous_unit" = some (.str prevUnit)) ∧
      (newUnit = prevUnit → dget e.meta "previous_unit" = Option.none) := by
  unfold set_entry_decision
  simp only [Bool.false_eq_true, if_false, if_pos h]
  refine ⟨_, rfl, rfl, rfl, ?_, ?_, ?_, ?_, ?_, ?_⟩ <;>
    [skip; skip; intro hd; intro hd; intro hu; intro hu] <;>
    split_ifs <;>
    simp_all [dget_addUser, dget_dset_ne, dget_dset_self, dget]

/-- C4: `set_quantity` on an existing record with an unchanged quantity and a
null-or-unchanged unit appends no history entry but still commits (storing the
re-resolved category, and overwriting the threshold unless `keep_threshold`);
when quantity or unit changed, exactly one `set` entry is appended carrying
previous/new quantity, the delta when nonzero, and the previous unit exactly
when it changed. -/
theorem C4_noop_suppression
    (now : Nat) (state : PyVal) (name : String) (quantity : Int) (unit : Option String)
    (th cat : PyVal) (keep : Bool) (sid user : Option String) (resolved : String)
    (s1D storesD sd0 its0 : Dict) (cid : String) (raw : PyVal) (rec : Record)
    (catsD ced : Dict)
    (hq : 0 ≤ quantity)
    (hnorm : _normalize_store_id state sid = .ok resolved)
    (hens : _ensure_category now state cat = .ok (.dict s1D, cid))
    (hstores : dget s1D "stores" = some (.dict storesD))
    (hstore : dget storesD resolved = some (.dict sd0))
    (hitems : dget sd0 "items" = some (.dict its0))
    (hraw : dget its0 name = some raw)
    (hco : _coerce_record raw UNCATEGORIZED_ID = .ok rec)
    (hcats : dget s1D "categories" = some (.dict catsD))
    (hce : dgetD catsD cid (.dict []) = .dict ced) :
    (quantity = rec.quantity →
     (unit = Option.none ∨ ∃ u, unit = some u ∧ pyStrip u = rec.unit) →
     ∃ s2 item,
       set_quantity now state name quantity unit th keep cat sid user
         = ([Effect.writeState s2], .ok (s2, item)) ∧
       storedField s2 resolved name "category"
         = some (.str (if cid = "" then UNCATEGORIZED_ID else cid)) ∧
       storedField s2 resolved name "threshold"
         = some (optIntVal (if keep = true then rec.threshold
             else _normalize_threshold th))) ∧
    (((match unit with
        | some u => pyStrip u
        | Option.none => rec.unit) ≠ rec.unit ∨ quantity ≠ rec.quantity) →
     ∃ s2 item entry,
       set_quantity now state name quantity unit th keep cat sid user
         = ([Effect.appendHistory entry, Effect.writeState s2], .ok (s2, item)) ∧
       entry.action = "set" ∧ entry.name = name ∧
       dget entry.meta "previous_quantity" = some (.int rec.quantity) ∧
       dget entry.meta "new_quantity" = some (.int quantity) ∧
       (quantity - rec.quantity ≠ 0 →
         dget entry.meta "delta" = some (.int (quantity - rec.quantity))) ∧
       (quantity - rec.quantity = 0 → dget entry.meta "delta" = Option.none) ∧
       ((match unit with
         | some u => pyStrip u
         | Option.none => rec.unit) ≠ rec.unit →
         dget entry.meta "previous_unit" = some (.str rec.unit)) ∧
       ((match unit with
         | some u => pyStrip u
         | Option.none => rec.unit) = rec.unit →
         dget entry.meta "previous_unit" = Option.none)) := by
  have hmem : dmem its0 name = true := by simp [dmem, hraw]
  have hco' : _coerce_record (dgetD its0 name .none) UNCATEGORIZED_ID = .ok rec := by
    simpa [dgetD, hraw] using hco
  constructor
  · intro hqeq huq
    subst hqeq
    unfold set_quantity set_quantity_checked _set_quantity_locked
    rw [hnorm, hens]
    simp only [dgetD] at hce hco'
    simp only [Bind.bind, Except.bind, expectDict, getKey, hstores, hstore, hitems,
      pySetdefault_found hitems, hco', hcats, hce, pyGetD_dict, dgetD, Option.getD_some,
      pyInOp, hmem, throw, throwThe, MonadExceptOf.throw, if_neg (not_lt.mpr hq),
      pure, Except.pure, Bool.not_true]
    have hdec := set_entry_decision_noop now name rec.quantity rec.unit
      (set_record_update now rec.quantity unit th keep cid false rec).unit resolved
      (dgetD sd0 "name" (.str resolved)) cid (dgetD ced "name" (.str cid)) user
      (by
        rw [set_record_update_unit]
        rcases huq with h | ⟨u, rfl, hu⟩
        · rw [h]
        · exact hu)
    simp only [dgetD] at hdec
    rw [hdec]
    refine ⟨_, _, rfl, ?_, ?_⟩
    · rw [storedField_built]
      simp [dget, set_record_update_category]
    · rw [storedField_built]
      simp [dget, set_record_update_threshold]
  · intro hchanged
    unfold set_quantity set_quantity_checked _set_quantity_locked
    rw [hnorm, hens]
    simp only [dgetD] at hce hco'
    simp only [Bind.bind, Except.bind, expectDict, getKey, hstores, hstore, hitems,
      pySetdefault_found hitems, hco', hcats, hce, pyGetD_dict, dgetD, Option.getD_some,
      pyInOp, hmem, throw, throwThe, MonadExceptOf.throw, if_neg (not_lt.mpr hq),
      pure, Except.pure, Bool.not_true]
    obtain ⟨e, he, hact, hname', hprev, hnew, hd1, hd2, hu1, hu2⟩ :=
      set_entry_decision_changed now name quantity rec.quantity rec.unit
        (set_record_update now quantity unit th keep cid false rec).unit resolved
        (dgetD sd0 "name" (.str resolved)) cid (dgetD ced "name" (.str cid)) user
        (by
          rw [set_record_update_unit]
          rcases hchanged with h | h
          · exact Or.inr h
          · exact Or.inl (by omega))
    simp only [dgetD] at he
    rw [he]
    refine ⟨_, _, e, rfl, hact, hname', hprev, hnew, hd1, hd2, ?_, ?_⟩
    · intro h
      exact hu1 (by rw [set_record_update_unit]; exact h)
    · intro h
      exact hu2 (by rw [set_record_update_unit]; exact h)

/-- Witness for C4: a no-op write and a changed write on `exState`. -/
theorem C4_witness :
    (∃ s2 item,
      set_quantity 1 exState "widget" 10 Option.none .none false .none Option.none
          Option.none
        = ([Effect.writeState s2], .ok (s2, item)) ∧
      storedField s2 "default" "widget" "category"
        = some (.str (if ("uncategorized" : String) = "" then UNCATEGORIZED_ID
            else "uncategorized")) ∧
      storedField s2 "default" "widget" "threshold"
        = some (optIntVal (if false = true then exWidgetRec.threshold
            else _normalize_threshold .none))) ∧
    (∃ s2 item entry,
      set_quantity 1 exState "widget" 3 Option.none .none false .none Option.none
          Option.none
        = ([Effect.appendHistory entry, Effect.writeState s2], .ok (s2, item)) ∧
      entry.action = "set" ∧ entry.name = "widget" ∧
      dget entry.meta "previous_quantity" = some (.int exWidgetRec.quantity) ∧
      dget entry.meta "new_quantity" = some (.int 3) ∧
      ((3 : Int) - exWidgetRec.quantity ≠ 0 →
        dget entry.meta "delta" = some (.int (3 - exWidgetRec.quantity))) ∧
      ((3 : Int) - exWidgetRec.quantity = 0 →
        dget entry.meta "delta" = Option.none) ∧
      ((match (Option.none : Option String) with
        | some u => pyStrip u
        | Option.none => exWidgetRec.unit) ≠ exWidgetRec.unit →
        dget entry.meta "previous_unit" = some (.str exWidgetRec.unit)) ∧
      ((match (Option.none : Option String) with
        | some u => pyStrip u
        | Option.none => exWidgetRec.unit) = exWidgetRec.unit →
        dget entry.meta "previous_unit" = Option.none)) := by
  constructor
  · exact (C4_noop_suppression 1 exState "widget" 10 Option.none .none .none false
      Option.none Option.none "default" exStateD exStoresD exStoreD exItems
      "uncategorized" exWidgetRaw exWidgetRec exCatsD
      [("id", .str "uncategorized"), ("name", .str "未分类"), ("created_at", .int 0)]
      (by norm_num) (by rfl) (by rfl) (by rfl) (by rfl) (by rfl) (by rfl) (by rfl)
      (by rfl) (by rfl)).1 (by decide) (Or.inl rfl)
  · exact (C4_noop_suppression 1 exState "widget" 3 Option.none .none .none false
      Option.none Option.none "default" exStateD exStoresD exStoreD exItems
      "uncategorized" exWidgetRaw exWidgetRec exCatsD
      [("id", .str "uncategorized"), ("name", .str "未分类"), ("created_at", .int 0)]
      (by norm_num) (by rfl) (by rfl) (by rfl) (by rfl) (by rfl) (by rfl) (by rfl)
      (by rfl) (by rfl)).2 (Or.inr (by decide))

/-! ### C10 — scoped category cascade -/

/-- Whether a raw record belongs (after coercion) to the given category. -/
def record_matches (cid : String) (r : PyVal) : Bool :=
  match _coerce_record r UNCATEGORIZED_ID with
  | .ok rec => decide (rec.category = cid)
  | .error _ => false

/-- The in-place reassignment `record["category"] = "uncategorized"`. -/
def reassign_record (r : PyVal) : PyVal :=
  match r with
  | .dict rd => .dict (dset rd "category" (.str UNCATEGORIZED_ID))
  | _ => r

/-- What `delete_category(cascade=true, store_id→S)` does to one store:
matching items are removed in store `S`, and reassigned in place to the
sentinel category everywhere else. -/
def store_transform (cid S : String) (kv : String × PyVal) : String × PyVal :=
  match kv.2 with
  | .dict sd =>
    match dget sd "items" with
    | some (.dict its) =>
      if kv.1 = S then
        (kv.1, .dict (dset sd "items"
          (.dict (its.filter (fun iv => ! record_matches cid iv.2)))))
      else
        (kv.1, .dict (dset sd "items"
          (.dict (its.map (fun iv =>
            if record_matches cid iv.2 then (iv.1, reassign_record iv.2) else iv)))))
    | _ => kv
  | _ => kv

/-- The names of a store's items that match the category. -/
def matching_names (cid : String) (kv : String × PyVal) : List String :=
  match kv.2 with
  | .dict sd =>
    match dget sd "items" with
    | some (.dict its) => (its.filter (fun iv => record_matches cid iv.2)).map Prod.fst
    | _ => []
  | _ => []

theorem coerce_nondict_category {r : PyVal} {rec : Record}
    (h : _coerce_record r UNCATEGORIZED_ID = .ok rec) (hnd : ∀ d, r ≠ .dict d) :
    rec.category = UNCATEGORIZED_ID := by
  cases r with
  | dict d => exact absurd rfl (hnd d)
  | none =>
    unfold _coerce_record at h
    simp only [except_bind_ok, except_pure_ok, Except.ok.injEq] at h
    obtain ⟨q, -, hrec⟩ := h
    rw [← hrec]
  | bool b =>
    unfold _coerce_record at h
    simp only [except_bind_ok, except_pure_ok, Except.ok.injEq] at h
    obtain ⟨q, -, hrec⟩ := h
    rw [← hrec]
  | int n =>
    unfold _coerce_record at h
    simp only [except_bind_ok, except_pure_ok, Except.ok.injEq] at h
    obtain ⟨q, -, hrec⟩ := h
    rw [← hrec]
  | str sv =>
    unfold _coerce_record at h
    simp only [except_bind_ok, except_pure_ok, Except.ok.injEq] at h
    obtain ⟨q, -, hrec⟩ := h
    rw [← hrec]
  | list xs =>
    unfold _coerce_record at h
    simp only [except_bind_ok, except_pure_ok, Except.ok.injEq] at h
    obtain ⟨q, -, hrec⟩ := h
    rw [← hrec]

theorem coerce_matches_dict {r : PyVal} {rec : Record} {cid : String}
    (h : _coerce_record r UNCATEGORIZED_ID = .ok rec) (hm : rec.category = cid)
    (hcid : cid ≠ UNCATEGORIZED_ID) : ∃ rd, r = .dict rd := by
  by_cases hd : ∃ rd, r = .dict rd
  · exact hd
  · exfalso
    have hnd : ∀ d, r ≠ .dict d := fun d hdd => hd ⟨d, hdd⟩
    have hc := coerce_nondict_category h hnd
    rw [hm] at hc
    exact hcid hc

theorem delete_category_scan_cascade (now : Nat) (cid : String) (ced : Dict)
    (sid : String) (sname : PyVal) (user : Option String) :
    ∀ its : Dict, (∀ iv ∈ its, ∃ rec, _coerce_record iv.2 UNCATEGORIZED_ID = .ok rec) →
      ∃ es, delete_category_scan now cid (.dict ced) true sid sname user its
        = (es, .ok (its.filter (fun iv => ! record_matches cid iv.2))) ∧
        es.map (fun e => (e.action, e.name))
          = ((its.filter (fun iv => record_matches cid iv.2)).map Prod.fst).map
              (fun n => (("delete" : String), n)) := by
  intro its
  induction its with
  | nil => intro _; exact ⟨[], rfl, rfl⟩
  | cons iv rest ih =>
    intro hall
    obtain ⟨n, r⟩ := iv
    obtain ⟨rec, hrec⟩ := hall (n, r) (by simp)
    obtain ⟨es, hes, hproj⟩ := ih (fun x hx => hall x (by simp [hx]))
    by_cases hm : rec.category = cid
    · have hmatch : record_matches cid r = true := by simp [record_matches, hrec, hm]
      refine ⟨⟨now, "delete", n,
        addUser [("previous_quantity", .int rec.quantity), ("unit", .str rec.unit),
                 ("store_id", .str sid), ("store_name", sname), ("category_id", .str cid),
                 ("category_name", dgetD ced "name" (.str cid))] user⟩ :: es, ?_, ?_⟩
      · rw [delete_category_scan]
        simp only [hrec]
        rw [if_neg (not_not_intro hm), if_pos trivial]
        simp only [pyGetD_dict, hes, List.filter_cons, hmatch, Bool.not_true]
        simp
      · simp [hmatch, hproj]
    · have hmatch : record_matches cid r = false := by simp [record_matches, hrec, hm]
      refine ⟨es, ?_, ?_⟩
      · rw [delete_category_scan]
        simp only [hrec]
        rw [if_pos hm]
        simp only [hes, List.filter_cons, hmatch, Bool.not_false]
        simp
      · simp [hmatch, hproj]

theorem delete_category_scan_reassign (now : Nat) (cid : String) (catEntry : PyVal)
    (sid : String) (sname : PyVal) (user : Option String)
    (hcid : cid ≠ UNCATEGORIZED_ID) :
    ∀ its : Dict, (∀ iv ∈ its, ∃ rec, _coerce_record iv.2 UNCATEGORIZED_ID = .ok rec) →
      delete_category_scan now cid catEntry false sid sname user its
        = ([], .ok (its.map (fun iv =>
            if record_matches cid iv.2 then (iv.1, reassign_record iv.2) else iv))) := by
  intro its
  induction its with
  | nil => intro _; rfl
  | cons iv rest ih =>
    intro hall
    obtain ⟨n, r⟩ := iv
    obtain ⟨rec, hrec⟩ := hall (n, r) (by simp)
    have htl := ih (fun x hx => hall x (by simp [hx]))
    by_cases hm : rec.category = cid
    · obtain ⟨rd, rfl⟩ := coerce_matches_dict hrec hm hcid
      have hmatch : record_matches cid (.dict rd) = true := by
        simp [record_matches, hrec, hm]
      rw [delete_category_scan]
      simp only [hrec]
      rw [if_neg (not_not_intro hm)]
      simp [htl, hmatch, reassign_record, reassignStep, hm]
    · have hmatch : record_matches cid r = false := by simp [record_matches, hrec, hm]
      rw [delete_category_scan]
      simp only [hrec]
      rw [if_pos hm]
      simp [htl, hmatch]

theorem delete_category_stores_char (now : Nat) (cid : String) (ced : Dict)
    (user : Option String) (S : String) (hcid : cid ≠ UNCATEGORIZED_ID) :
    ∀ storesD : Dict,
      (∀ kv ∈ storesD, ∃ sd its, kv.2 = .dict sd ∧ dget sd "items" = some (.dict its) ∧
        ∀ iv ∈ its, ∃ rec, _coerce_record iv.2 UNCATEGORIZED_ID = .ok rec) →
      ∃ es, delete_category_stores now cid (.dict ced) true (some S) user storesD
        = (es, .ok (storesD.map (store_transform cid S))) ∧
        es.map (fun e => (e.action, e.name))
          = storesD.flatMap (fun kv => if kv.1 = S then
              (matching_names cid kv).map (fun n => (("delete" : String), n)) else []) := by
  intro storesD
  induction storesD with
  | nil => intro _; exact ⟨[], rfl, rfl⟩
  | cons kv rest ih =>
    intro hall
    obtain ⟨sid, store⟩ := kv
    obtain ⟨sd, its, hsd, hits, hcoerce⟩ := hall (sid, store) (by simp)
    obtain ⟨es2, hes2, hproj2⟩ := ih (fun x hx => hall x (by simp [hx]))
    subst hsd
    have hmemi : dmem sd "items" = true := by simp [dmem, hits]
    by_cases hS : sid = S
    · subst hS
      obtain ⟨es1, hes1, hproj1⟩ := delete_category_scan_cascade now cid ced sid
        (dgetD sd "name" (.str sid)) user its hcoerce
      simp only [dgetD] at hes1
      have hhead : store_transform cid sid (sid, .dict sd)
          = (sid, .dict (dset sd "items"
              (.dict (its.filter (fun iv => ! record_matches cid iv.2))))) := by
        simp [store_transform, hits]
      have hmn : matching_names cid (sid, .dict sd)
          = (its.filter (fun iv => record_matches cid iv.2)).map Prod.fst := by
        simp [matching_names, hits]
      refine ⟨es1 ++ es2, ?_, ?_⟩
      · rw [delete_category_stores]
        simp only [dgetD, hits, Option.getD_some, eq_self_iff_true, decide_True,
          Bool.or_true, Bool.true_and, hes1, hes2, hmemi, if_true, List.map_cons, hhead]
      · simp [hproj1, hproj2, hmn]
    · obtain hre := delete_category_scan_reassign now cid (.dict ced) sid
        (dgetD sd "name" (.str sid)) user hcid its hcoerce
      simp only [dgetD] at hre
      have hne1 : ((some S : Option String) = (Option.none : Option String)) = False := by
        simp
      have hne2 : ((some S : Option String) = some sid) = False := by simp [Ne.symm hS]
      have hhead : store_transform cid S (sid, .dict sd)
          = (sid, .dict (dset sd "items" (.dict (its.map (fun iv =>
              if record_matches cid iv.2 then (iv.1, reassign_record iv.2) else iv))))) := by
        simp [store_transform, hits, hS]
      refine ⟨es2, ?_, ?_⟩
      · rw [delete_category_stores]
        simp only [dgetD, hits, Option.getD_some, hne1, hne2, decide_False,
          Bool.or_false, Bool.or_self, Bool.and_false, hre, hes2, hmemi, if_true,
          List.map_cons, hhead, List.nil_append]
      · simp [hproj2, hS]

theorem dget_ddel_self_nodup (d : Dict) (k : String) (h : (dkeys d).Nodup) :
    dget (ddel d k) k = Option.none := by
  induction d with
  | nil => simp [ddel, dget]
  | cons hd tl ih =>
    obtain ⟨k0, v0⟩ := hd
    simp only [dkeys, List.map_cons, List.nodup_cons] at h
    by_cases h0 : k0 = k
    · subst h0
      have hd : ddel ((k0, v0) :: tl) k0 = tl := by simp [ddel]
      rw [hd]
      cases hres : dget tl k0 with
      | none => rfl
      | some v =>
        exfalso
        apply h.1
        have hmem : dmem tl k0 = true := by simp [dmem, hres]
        simpa [dkeys] using (dmem_iff_mem_dkeys tl k0).mp hmem
    · simp only [ddel, if_neg h0, dget, if_neg h0]
      exact ih h.2

/-- C10: with `cascade = true` and a `store_id` resolving to store `S`,
`delete_category` deletes the matching items of `S` (one `delete` history
entry each), reassigns matching items of every other store in place to
`uncategorized` with no history entry and without deleting them, and removes
the category from the registry. -/
theorem C10_delete_category_scoped
    (now : Nat) (stateD catsD ced storesD : Dict) (cid : String) (user : Option String)
    (sidArg S : String)
    (hcid : cid ≠ UNCATEGORIZED_ID)
    (hcats : dget stateD "categories" = some (.dict catsD))
    (hhas : dget catsD cid = some (.dict ced))
    (hnodup : (dkeys catsD).Nodup)
    (hnorm : _normalize_store_id (.dict stateD) (some sidArg) = .ok S)
    (hstores : dget stateD "stores" = some (.dict storesD))
    (hwf : ∀ kv ∈ storesD, ∃ sd its, kv.2 = .dict sd ∧ dget sd "items" = some (.dict its) ∧
      ∀ iv ∈ its, ∃ rec, _coerce_record iv.2 UNCATEGORIZED_ID = .ok rec) :
    ∃ es : List HistoryEntry,
      delete_category now (.dict stateD) cid true user (some sidArg)
        = (es.map Effect.appendHistory ++
            [Effect.writeState (.dict (dset (dset stateD "stores"
              (.dict (storesD.map (store_transform cid S)))) "categories"
              (.dict (ddel catsD cid))))],
           .ok (.dict (dset (dset stateD "stores"
              (.dict (storesD.map (store_transform cid S)))) "categories"
              (.dict (ddel catsD cid))))) ∧
      es.map (fun e => (e.action, e.name))
        = storesD.flatMap (fun kv => if kv.1 = S then
            (matching_names cid kv).map (fun n => (("delete" : String), n)) else []) ∧
      dget (ddel catsD cid) cid = Option.none := by
  obtain ⟨es, hes, hproj⟩ :=
    delete_category_stores_char now cid ced user S hcid storesD hwf
  refine ⟨es, ?_, hproj, dget_ddel_self_nodup catsD cid hnodup⟩
  unfold delete_category delete_category_header
  rw [if_neg hcid]
  have hmem : dmem catsD cid = true := by simp [dmem, hhas]
  simp only [Bind.bind, Except.bind, expectDict, getKey, hcats, hstores, hnorm,
    PyVal.getItem, hhas, pyInOp, hmem, throw, throwThe, MonadExceptOf.throw,
    pure, Except.pure, hes]
  simp [Except.map, hes]

/-- A document for the C10 witness: category `tools` is referenced by item
`hammer` in both stores. -/
def exHammerDefault : PyVal :=
  .dict [("quantity", .int 3), ("unit", .str "pcs"), ("category", .str "tools")]

def exHammerBranch : PyVal :=
  .dict [("quantity", .int 2), ("unit", .str "pcs"), ("category", .str "tools")]

def exStoreToolsD : Dict :=
  [("id", .str "default"), ("name", .str "Main"), ("created_at", .int 0),
   ("items", .dict [("widget", exWidgetRaw), ("hammer", exHammerDefault)])]

def exBranchToolsD : Dict :=
  [("id", .str "branch"), ("name", .str "Branch"), ("created_at", .int 0),
   ("items", .dict [("hammer", exHammerBranch)])]

def exCatsToolsD : Dict :=
  [("uncategorized", exUncat),
   ("tools", .dict [("id", .str "tools"), ("name", .str "Tools"), ("created_at", .int 0)])]

def exStoresToolsD : Dict :=
  [("default", .dict exStoreToolsD), ("branch", .dict exBranchToolsD)]

def exStateToolsD : Dict :=
  [("stores", .dict exStoresToolsD), ("categories", .dict exCatsToolsD),
   ("meta", .dict [("default_store", .str "default")])]

/-- Witness for C10 on a two-store document with a shared `tools` category. -/
theorem C10_witness :
    ∃ es : List HistoryEntry,
      delete_category 1 (.dict exStateToolsD) "tools" true Option.none (some "default")
        = (es.map Effect.appendHistory ++
            [Effect.writeState (.dict (dset (dset exStateToolsD "stores"
              (.dict (exStoresToolsD.map (store_transform "tools" "default"))))
              "categories" (.dict (ddel exCatsToolsD "tools"))))],
           .ok (.dict (dset (dset exStateToolsD "stores"
              (.dict (exStoresToolsD.map (store_transform "tools" "default"))))
              "categories" (.dict (ddel exCatsToolsD "tools"))))) ∧
      es.map (fun e => (e.action, e.name))
        = exStoresToolsD.flatMap (fun kv => if kv.1 = "default" then
            (matching_names "tools" kv).map (fun n => (("delete" : String), n)) else []) ∧
      dget (ddel exCatsToolsD "tools") "tools" = Option.none := by
  apply C10_delete_category_scoped 1 exStateToolsD exCatsToolsD
    [("id", .str "tools"), ("name", .str "Tools"), ("created_at", .int 0)]
    exStoresToolsD "tools" Option.none "default" "default"
    (by decide) (by rfl) (by rfl) (by decide) (by rfl) (by rfl)
  intro kv hkv
  simp only [exStoresToolsD, List.mem_cons, List.not_mem_nil, or_false] at hkv
  rcases hkv with rfl | rfl
  · refine ⟨exStoreToolsD, _, rfl, rfl, ?_⟩
    intro iv hiv
    simp only [List.mem_cons, List.not_mem_nil, or_false] at hiv
    rcases hiv with rfl | rfl
    · exact ⟨_, rfl⟩
    · exact ⟨_, rfl⟩
  · refine ⟨exBranchToolsD, _, rfl, rfl, ?_⟩
    intro iv hiv
    simp only [List.mem_cons, List.not_mem_nil, or_false] at hiv
    rcases hiv with rfl
    exact ⟨_, rfl⟩

/-! ### C2 — transfer atomicity -/

theorem getItemsEntry_dict_absent {its : Dict} {name : String} {msg : String}
    (h : dget its name = Option.none) :
    getItemsEntry (.dict its) name msg = .error (.keyError msg) := by
  unfold getItemsEntry
  simp [pyInOp, dmem, h, pure, Except.pure, Bind.bind, Except.bind, throw, throwThe,
    MonadExceptOf.throw]

theorem storedQuantity_built_src (stateD storesD ssd sits : Dict) (sid tid name : String)
    (r : Record) (T : PyVal) (hne : sid ≠ tid) :
    storedQuantity (.dict (dset stateD "stores" (.dict (dset (dset storesD sid
      (.dict (dset ssd "items" (.dict (dset sits name r.toPyVal))))) tid T)))) sid name
      = some (.int r.quantity) := by
  simp [storedQuantity, dget_dset_self, dget_dset_ne _ tid sid T hne, Record.toPyVal, dget]

theorem coerce_category_ne_empty {raw : PyVal} {rec : Record}
    (h : _coerce_record raw UNCATEGORIZED_ID = .ok rec) : rec.category ≠ "" := by
  cases raw with
  | dict d =>
    unfold _coerce_record at h
    simp only [except_bind_ok, except_pure_ok, Except.ok.injEq] at h
    obtain ⟨q, -, hrec⟩ := h
    rw [← hrec]
    simp only []
    split_ifs with h1 h2
    · simp [UNCATEGORIZED_ID]
    · simp [UNCATEGORIZED_ID]
    · exact h2
  | none =>
    unfold _coerce_record at h
    simp only [except_bind_ok, except_pure_ok, Except.ok.injEq] at h
    obtain ⟨q, -, hrec⟩ := h
    rw [← hrec]
    simp [UNCATEGORIZED_ID]
  | bool b =>
    unfold _coerce_record at h
    simp only [except_bind_ok, except_pure_ok, Except.ok.injEq] at h
    obtain ⟨q, -, hrec⟩ := h
    rw [← hrec]
    simp [UNCATEGORIZED_ID]
  | int n =>
    unfold _coerce_record at h
    simp only [except_bind_ok, except_pure_ok, Except.ok.injEq] at h
    obtain ⟨q, -, hrec⟩ := h
    rw [← hrec]
    simp [UNCATEGORIZED_ID]
  | str sv =>
    unfold _coerce_record at h
    simp only [except_bind_ok, except_pure_ok, Except.ok.injEq] at h
    obtain ⟨q, -, hrec⟩ := h
    rw [← hrec]
    simp [UNCATEGORIZED_ID]
  | list xs =>
    unfold _coerce_record at h
    simp only [except_bind_ok, except_pure_ok, Except.ok.injEq] at h
    obtain ⟨q, -, hrec⟩ := h
    rw [← hrec]
    simp [UNCATEGORIZED_ID]

/-- C2: `transfer_item` is all-or-nothing.  Non-positive quantity, identical
resolved stores, a missing source item, and insufficient source stock each
raise (ValidationError / NotFound) with no effects; on success the source is
debited and the target credited by exactly the quantity (the target record
being created when absent), and exactly two history entries — `out` for the
source carrying `transfer_target_id`, `in` for the target carrying
`transfer_source_id`, both with `transfer = true` — are appended. -/
theorem C2_transfer_atomicity :
    (∀ now state name quantity src tgt user, quantity ≤ 0 →
      transfer_item now state name quantity src tgt user
        = ([], .error (.valueError "Transfer quantity must be greater than zero"))) ∧
    (∀ now state name quantity src tgt user sid, 0 < quantity →
      _normalize_store_id state src = .ok sid →
      _normalize_store_id state tgt = .ok sid →
      transfer_item now state name quantity src tgt user
        = ([], .error (.valueError "Source and target stores must be different"))) ∧
    (∀ now stateD name quantity src tgt user source_id target_id storesD ssd sits tstoreV,
      0 < quantity →
      _normalize_store_id (.dict stateD) src = .ok source_id →
      _normalize_store_id (.dict stateD) tgt = .ok target_id →
      source_id ≠ target_id →
      dget stateD "stores" = some (.dict storesD) →
      dget storesD source_id = some (.dict ssd) →
      dget storesD target_id = some tstoreV →
      dget ssd "items" = some (.dict sits) →
      dget sits name = Option.none →
      transfer_item now (.dict stateD) name quantity src tgt user
        = ([], .error (.keyError ("Item " ++ name ++ " not found in source store")))) ∧
    (∀ now stateD name quantity src tgt user source_id target_id storesD ssd sits tsd
        raw srec,
      0 < quantity →
      _normalize_store_id (.dict stateD) src = .ok source_id →
      _normalize_store_id (.dict stateD) tgt = .ok target_id →
      source_id ≠ target_id →
      dget stateD "stores" = some (.dict storesD) →
      dget storesD source_id = some (.dict ssd) →
      dget storesD target_id = some (.dict tsd) →
      dget ssd "items" = some (.dict sits) →
      dget sits name = some raw →
      _coerce_record raw UNCATEGORIZED_ID = .ok srec →
      srec.quantity < quantity →
      transfer_item now (.dict stateD) name quantity src tgt user
        = ([], .error (.valueError "Insufficient stock for transfer"))) ∧
    (∀ now stateD name quantity src tgt user source_id target_id storesD ssd sits tsd
        tits raw srec trec catsD cedS cedT,
      0 < quantity →
      _normalize_store_id (.dict stateD) src = .ok source_id →
      _normalize_store_id (.dict stateD) tgt = .ok target_id →
      source_id ≠ target_id →
      dget stateD "stores" = some (.dict storesD) →
      dget storesD source_id = some (.dict ssd) →
      dget storesD target_id = some (.dict tsd) →
      dget ssd "items" = some (.dict sits) →
      dget tsd "items" = some (.dict tits) →
      dget sits name = some raw →
      _coerce_record raw UNCATEGORIZED_ID = .ok srec →
      _coerce_record (dgetD tits name .none) UNCATEGORIZED_ID = .ok trec →
      quantity ≤ srec.quantity →
      dget stateD "categories" = some (.dict catsD) →
      dgetD catsD srec.category (.dict []) = .dict cedS →
      dgetD catsD trec.category (.dict []) = .dict cedT →
      ∃ e_out e_in s2 srcItem tgtItem,
        transfer_item now (.dict stateD) name quantity src tgt user
          = ([Effect.appendHistory e_out, Effect.appendHistory e_in,
              Effect.writeState s2], .ok (s2, srcItem, tgtItem)) ∧
        storedQuantity s2 source_id name = some (.int (srec.quantity - quantity)) ∧
        storedQuantity s2 target_id name = some (.int (trec.quantity + quantity)) ∧
        e_out.action = "out" ∧ e_in.action = "in" ∧
        dget e_out.meta "transfer" = some (.bool true) ∧
        dget e_in.meta "transfer" = some (.bool true) ∧
        dget e_out.meta "transfer_target_id" = some (.str target_id) ∧
        dget e_in.meta "transfer_source_id" = some (.str source_id)) := by
  refine ⟨?_, ?_, ?_, ?_, ?_⟩
  · intro now state name quantity src tgt user h
    unfold transfer_item transfer_item_checked
    simp [h, Bind.bind, Except.bind, throw, throwThe, MonadExceptOf.throw]
  · intro now state name quantity src tgt user sid hq hs ht
    unfold transfer_item transfer_item_checked
    rw [hs, ht]
    simp [Bind.bind, Except.bind, throw, throwThe, MonadExceptOf.throw,
      if_neg (not_le.mpr hq), pure, Except.pure]
  · intro now stateD name quantity src tgt user source_id target_id storesD ssd sits
      tstoreV hq hs ht hne hstores hss hts hsits hraw
    unfold transfer_item transfer_item_checked
    rw [hs, ht]
    simp only [Bind.bind, Except.bind, expectDict, getKey, hstores, hss, hts, hsits,
      pySetdefault_found hsits, getItemsEntry_dict_absent hraw, throw, throwThe,
      MonadExceptOf.throw, if_neg (not_le.mpr hq), if_neg hne, pure, Except.pure]
  · intro now stateD name quantity src tgt user source_id target_id storesD ssd sits tsd
      raw srec hq hs ht hne hstores hss hts hsits hraw hco hlt
    unfold transfer_item transfer_item_checked
    rw [hs, ht]
    simp only [Bind.bind, Except.bind, expectDict, getKey, hstores, hss, hts, hsits,
      pySetdefault_found hsits, getItemsEntry_dict hraw, hco, throw, throwThe,
      MonadExceptOf.throw, if_neg (not_le.mpr hq), if_neg hne,
      if_pos hlt, pure, Except.pure]
  · intro now stateD name quantity src tgt user source_id target_id storesD ssd sits tsd
      tits raw srec trec catsD cedS cedT hq hs ht hne hstores hss hts hsits htits hraw
      hcoS hcoT hle hcats hceS hceT
    have hne2 : trec.category ≠ "" := coerce_category_ne_empty hcoT
    unfold transfer_item transfer_item_checked
    rw [hs, ht]
    simp only [dgetD] at hcoT hceS hceT
    simp only [Bind.bind, Except.bind, expectDict, getKey, hstores, hss, hts, hsits,
      htits, pySetdefault_found hsits, pySetdefault_found htits,
      getItemsEntry_dict hraw, hcoS, hcoT, hcats, hceS, hceT, pyGetD_dict, dgetD,
      Option.getD_some, pyInOp, throw, throwThe, MonadExceptOf.throw,
      if_neg (not_le.mpr hq), if_neg hne, if_neg (not_lt.mpr hle), pure, Except.pure,
      apply_ite (Record.category), ite_self, hne2, ne_eq, not_false_eq_true, if_true,
      if_false, ite_false, ite_true]
    refine ⟨_, _, _, _, _, rfl, ?_, ?_, rfl, rfl, ?_, ?_, ?_, ?_⟩
    · rw [storedQuantity_built_src _ _ _ _ _ _ _ _ _ hne]
    · rw [storedQuantity_built]
      congr 2
      simp only [apply_ite (Record.quantity)]
      split_ifs <;> rfl
    · simp [dget_addUser, dget]
    · simp [dget_addUser, dget]
    · simp [dget_addUser, dget]
    · simp [dget_addUser, dget]

/-- Witness for C2 on the two-store document `exState2`. -/
theorem C2_witness :
    (transfer_item 1 exState2 "widget" 0 Option.none (some "branch") Option.none
      = ([], .error (.valueError "Transfer quantity must be greater than zero"))) ∧
    (transfer_item 1 exState2 "widget" 4 Option.none Option.none Option.none
      = ([], .error (.valueError "Source and target stores must be different"))) ∧
    (transfer_item 1 exState2 "nothere" 4 Option.none (some "branch") Option.none
      = ([], .error (.keyError ("Item " ++ "nothere" ++ " not found in source store")))) ∧
    (transfer_item 1 exState2 "widget" 15 Option.none (some "branch") Option.none
      = ([], .error (.valueError "Insufficient stock for transfer"))) ∧
    (∃ e_out e_in s2 srcItem tgtItem,
      transfer_item 1 exState2 "widget" 4 Option.none (some "branch") Option.none
        = ([Effect.appendHistory e_out, Effect.appendHistory e_in,
            Effect.writeState s2], .ok (s2, srcItem, tgtItem)) ∧
      storedQuantity s2 "default" "widget" = some (.int (exWidgetRec.quantity - 4)) ∧
      storedQuantity s2 "branch" "widget" = some (.int (0 + 4)) ∧
      e_out.action = "out" ∧ e_in.action = "in" ∧
      dget e_out.meta "transfer" = some (.bool true) ∧
      dget e_in.meta "transfer" = some (.bool true) ∧
      dget e_out.meta "transfer_target_id" = some (.str "branch") ∧
      dget e_in.meta "transfer_source_id" = some (.str "default")) := by
  refine ⟨?_, ?_, ?_, ?_, ?_⟩
  · exact C2_transfer_atomicity.1 1 exState2 "widget" 0 Option.none (some "branch")
      Option.none (by norm_num)
  · exact C2_transfer_atomicity.2.1 1 exState2 "widget" 4 Option.none Option.none
      Option.none "default" (by norm_num) (by rfl) (by rfl)
  · exact C2_transfer_atomicity.2.2.1 1 exStateD2 "nothere" 4 Option.none (some "branch")
      Option.none "default" "branch" exStoresD2 exStoreD exItems (.dict exBranchD)
      (by norm_num) (by rfl) (by rfl) (by decide) (by rfl) (by rfl) (by rfl) (by rfl)
      (by rfl)
  · exact C2_transfer_atomicity.2.2.2.1 1 exStateD2 "widget" 15 Option.none
      (some "branch") Option.none "default" "branch" exStoresD2 exStoreD exItems
      exBranchD exWidgetRaw exWidgetRec (by norm_num) (by rfl) (by rfl) (by decide)
      (by rfl) (by rfl) (by rfl) (by rfl) (by rfl) (by rfl) (by decide)
  · have h := C2_transfer_atomicity.2.2.2.2 1 exStateD2 "widget" 4 Option.none
      (some "branch") Option.none "default" "branch" exStoresD2 exStoreD exItems
      exBranchD [] exWidgetRaw exWidgetRec
      { quantity := 0, unit := "", last_in := .none, last_out := .none, created_at := .none,
        created_quantity := some 0, last_in_delta := Option.none,
        last_out_delta := Option.none, threshold := Option.none,
        category := "uncategorized" }
      exCatsD
      [("id", .str "uncategorized"), ("name", .str "未分类"), ("created_at", .int 0)]
      [("id", .str "uncategorized"), ("name", .str "未分类"), ("created_at", .int 0)]
      (by norm_num) (by rfl) (by rfl) (by decide) (by rfl) (by rfl) (by rfl) (by rfl)
      (by rfl) (by rfl) (by rfl) (by rfl) (by decide) (by rfl) (by rfl) (by rfl)
    exact h

/-! ### C3 — ordering of document commit versus history append -/

/-- C3 is false as stated: in `adjust_quantity` (and likewise `set_quantity`
and `transfer_item`) the history entry is appended *before* the document is
committed.  At this concrete successful stock-in the effect sequence is
`[appendHistory, writeState]`, i.e. the append precedes the commit. -/
theorem C3_counterexample :
    ((adjust_quantity 1 exState "widget" 1 Option.none Option.none).1.map Effect.isWrite)
        = [false, true] ∧
    (adjust_quantity 1 exState "widget" 1 Option.none Option.none).2.toOption.isSome
        = true := by
  exact ⟨rfl, rfl⟩

/-- C3 (amended): only `delete_item` commits the mutated document before
appending its history entry; `set_quantity`, `adjust_quantity` and
`transfer_item` append their history entries first and commit the document as
the final effect of the operation. -/
theorem C3_amended_ordering :
    (∀ now s name sid u effs s2, delete_item now s name sid u = (effs, .ok s2) →
      ∃ e, effs = [Effect.writeState s2, Effect.appendHistory e]) ∧
    (∀ now s name q unit th keep cat sid u effs s2 it,
      set_quantity now s name q unit th keep cat sid u = (effs, .ok (s2, it)) →
      ∃ es : List HistoryEntry, effs = es.map Effect.appendHistory ++ [Effect.writeState s2]) ∧
    (∀ now s name d sid u effs s2 it,
      adjust_quantity now s name d sid u = (effs, .ok (s2, it)) →
      ∃ es : List HistoryEntry, effs = es.map Effect.appendHistory ++ [Effect.writeState s2]) ∧
    (∀ now s name q src tgt u effs s2 i1 i2,
      transfer_item now s name q src tgt u = (effs, .ok (s2, i1, i2)) →
      ∃ e1 e2, effs = [Effect.appendHistory e1, Effect.appendHistory e2,
        Effect.writeState s2]) := by
  refine ⟨?_, ?_, ?_, ?_⟩
  · intro now s name sid u effs s2 h
    unfold delete_item at h
    cases hc : delete_item_checked now s name sid u with
    | error e => rw [hc] at h; simp at h
    | ok p =>
      rw [hc] at h
      obtain ⟨ps, pe⟩ := p
      simp only [Prod.mk.injEq, Except.ok.injEq] at h
      exact ⟨pe, by rw [← h.1, h.2]⟩
  · intro now s name q unit th keep cat sid u effs s2 it h
    unfold set_quantity at h
    cases hc : set_quantity_checked now s name q unit th keep cat sid u with
    | error e => rw [hc] at h; simp at h
    | ok p =>
      rw [hc] at h
      obtain ⟨ps, pentry, pitem⟩ := p
      simp only [Prod.mk.injEq, Except.ok.injEq] at h
      refine ⟨pentry.toList, ?_⟩
      rw [← h.1, h.2.1]
  · intro now s name d sid u effs s2 it h
    unfold adjust_quantity at h
    cases hc : adjust_quantity_checked now s name d sid u with
    | error e => rw [hc] at h; simp at h
    | ok p =>
      rw [hc] at h
      obtain ⟨ps, pentry, pitem⟩ := p
      simp only [Prod.mk.injEq, Except.ok.injEq] at h
      refine ⟨pentry.toList, ?_⟩
      rw [← h.1, h.2.1]
  · intro now s name q src tgt u effs s2 i1 i2 h
    unfold transfer_item at h
    cases hc : transfer_item_checked now s name q src tgt u with
    | error e => rw [hc] at h; simp at h
    | ok p =>
      rw [hc] at h
      obtain ⟨ps, pout, pin, psrc, ptgt⟩ := p
      simp only [Prod.mk.injEq, Except.ok.injEq] at h
      exact ⟨pout, pin, by rw [← h.1, h.2.1]⟩

/-- Witness for the amended C3 ordering at concrete successful calls. -/
theorem C3_amended_witness :
    (∃ e, (delete_item 1 exState "widget" Option.none Option.none).1
      = [Effect.writeState (okStateOf (delete_item 1 exState "widget"
          Option.none Option.none).2), Effect.appendHistory e]) ∧
    (∃ es : List HistoryEntry, (adjust_quantity 1 exState "widget" 2 Option.none Option.none).1
      = es.map Effect.appendHistory
        ++ [Effect.writeState (okPairState
              (adjust_quantity 1 exState "widget" 2 Option.none Option.none).2)]) ∧
    (∃ e1 e2, (transfer_item 1 exState2 "widget" 4 Option.none (some "branch")
        Option.none).1
      = [Effect.appendHistory e1, Effect.appendHistory e2,
         Effect.writeState (okTripleState (transfer_item 1 exState2 "widget" 4
           Option.none (some "branch") Option.none).2)]) := by
  refine ⟨?_, ?_, ?_⟩
  · exact C3_amended_ordering.1 1 exState "widget" Option.none Option.none _ _ (by rfl)
  · exact C3_amended_ordering.2.2.1 1 exState "widget" 2 Option.none Option.none _ _ _
      (by rfl)
  · exact C3_amended_ordering.2.2.2 1 exState2 "widget" 4 Option.none (some "branch")
      Option.none _ _ _ _ (by rfl)

/-! ### C5 — registry invariants -/

/-- The store half of the registry invariant: the document carries a
non-empty dict of stores. -/
def stores_nonempty (s : PyVal) : Bool :=
  match s with
  | .dict d =>
    match dget d "stores" with
    | some (.dict sd) => decide (sd ≠ [])
    | _ => false
  | _ => false

/-- The category half of the registry invariant: the document carries a dict
of categories containing the `uncategorized` sentinel. -/
def has_uncategorized (s : PyVal) : Bool :=
  match s with
  | .dict d =>
    match dget d "categories" with
    | some (.dict cd) => dmem cd UNCATEGORIZED_ID
    | _ => false
  | _ => false

def registry_inv (s : PyVal) : Bool := stores_nonempty s && has_uncategorized s

/-- One public mutating engine operation together with its arguments. -/
inductive EngineOp where
  | setQ (name : String) (quantity : Int) (unit : Option String) (threshold : PyVal)
      (keep_threshold : Bool) (category : PyVal) (store_id : Option String)
  | adjQ (name : String) (delta : Int) (store_id : Option String)
  | transfer (name : String) (quantity : Int) (src tgt : Option String)
  | delItem (name : String) (store_id : Option String)
  | delStore (store_id : String) (cascade : Bool)
  | delCat (category_id : String) (cascade : Bool) (store_id : Option String)
  | newStore (name : String)
  | newCat (name : String)
  | importRows (rows : List PyVal) (store_id : Option String)

/-- Dispatch an operation to the engine, keeping its effect trace. -/
def applyOp (now : Nat) (user : Option String) (state : PyVal) : EngineOp → List Effect
  | .setQ n q u t k c sid => (set_quantity now state n q u t k c sid user).1
  | .adjQ n d sid => (adjust_quantity now state n d sid user).1
  | .transfer n q src tgt => (transfer_item now state n q src tgt user).1
  | .delItem n sid => (delete_item now state n sid user).1
  | .delStore sid c => (delete_store now state sid c user).1
  | .delCat cid c sid => (delete_category now state cid c user sid).1
  | .newStore n => (create_store now state n).1
  | .newCat n => (create_category now state n).1
  | .importRows rows sid => (import_items now state rows sid user).1

theorem writeState_not_mem_appends (es : List HistoryEntry) (s : PyVal) :
    Effect.writeState s ∉ es.map Effect.appendHistory := by
  intro h
  obtain ⟨e, -, he⟩ := List.mem_map.mp h
  exact Effect.noConfusion he

theorem stores_nonempty_dict (d : Dict) :
    stores_nonempty (.dict d)
      = (match dget d "stores" with
         | some (.dict sd) => decide (sd ≠ [])
         | _ => false) := rfl

theorem has_uncategorized_dict (d : Dict) :
    has_uncategorized (.dict d)
      = (match dget d "categories" with
         | some (.dict cd) => dmem cd UNCATEGORIZED_ID
         | _ => false) := rfl

theorem registry_inv_elim {s : PyVal} (h : registry_inv s = true) :
    ∃ d sd cd, s = .dict d ∧ dget d "stores" = some (.dict sd) ∧ sd ≠ [] ∧
      dget d "categories" = some (.dict cd) ∧ dmem cd UNCATEGORIZED_ID = true := by
  simp only [registry_inv, Bool.and_eq_true] at h
  obtain ⟨hs, hc⟩ := h
  cases s with
  | dict d =>
    rw [stores_nonempty_dict] at hs
    rw [has_uncategorized_dict] at hc
    refine ⟨d, ?_⟩
    cases hgs : dget d "stores" with
    | none => rw [hgs] at hs; exact Bool.noConfusion hs
    | some v =>
      rw [hgs] at hs
      cases v with
      | dict sd =>
        cases hgc : dget d "categories" with
        | none => rw [hgc] at hc; exact Bool.noConfusion hc
        | some w =>
          rw [hgc] at hc
          cases w with
          | dict cd => exact ⟨sd, cd, rfl, rfl, by simpa using hs, rfl, hc⟩
          | none => exact Bool.noConfusion hc
          | bool b => exact Bool.noConfusion hc
          | int n => exact Bool.noConfusion hc
          | str t => exact Bool.noConfusion hc
          | list l => exact Bool.noConfusion hc
      | none => exact Bool.noConfusion hs
      | bool b => exact Bool.noConfusion hs
      | int n => exact Bool.noConfusion hs
      | str t => exact Bool.noConfusion hs
      | list l => exact Bool.noConfusion hs
  | none => exact Bool.noConfusion hs
  | bool b => exact Bool.noConfusion hs
  | int n => exact Bool.noConfusion hs
  | str t => exact Bool.noConfusion hs
  | list l => exact Bool.noConfusion hs

theorem registry_inv_build {d sd cd : Dict}
    (hs : dget d "stores" = some (.dict sd)) (hsne : sd ≠ [])
    (hc : dget d "categories" = some (.dict cd)) (hcm : dmem cd UNCATEGORIZED_ID = true) :
    registry_inv (.dict d) = true := by
  unfold registry_inv
  rw [stores_nonempty_dict, has_uncategorized_dict, hs, hc]
  simp [hsne, hcm]

/-- After replacing the `stores` value of a document with a non-empty dict,
the registry invariant holds as soon as the base document has a conforming
category registry. -/
theorem inv_set_stores {base cd : Dict} (storesD2 : Dict)
    (hc : dget base "categories" = some (.dict cd)) (hcm : dmem cd UNCATEGORIZED_ID = true)
    (hne : storesD2 ≠ []) :
    registry_inv (.dict (dset base "stores" (.dict storesD2))) = true :=
  registry_inv_build (dget_dset_self _ _ _) hne
    (by rw [dget_dset_ne _ "stores" "categories" _ (by decide)]; exact hc) hcm

theorem inv_set_cats {base sd catsD : Dict} (cid2 : String) (e : PyVal)
    (hs : dget base "stores" = some (.dict sd)) (hsne : sd ≠ [])
    (hcm : dmem catsD UNCATEGORIZED_ID = true) :
    registry_inv (.dict (dset base "categories" (.dict (dset catsD cid2 e)))) = true :=
  registry_inv_build
    (by rw [dget_dset_ne _ "categories" "stores" _ (by decide)]; exact hs) hsne
    (dget_dset_self _ _ _) (by rw [dmem_dset]; simp [hcm])

theorem ensure_inv {now : Nat} {state cat state2 : PyVal} {cid : String}
    (hinv : registry_inv state = true)
    (h : _ensure_category now state cat = .ok (state2, cid)) :
    registry_inv state2 = true := by
  obtain ⟨d, sd0, cd0, rfl, hs, hsne, hc, hcm⟩ := registry_inv_elim hinv
  unfold _ensure_category at h
  rw [show (PyVal.dict d).getItem "categories" = .ok (.dict cd0) from by
    simp [PyVal.getItem, hc]] at h
  simp only [Bind.bind, Except.bind] at h
  by_cases h0 : cat = .none
  · rw [if_pos h0] at h
    simp only [pure, Except.pure, Except.ok.injEq, Prod.mk.injEq] at h
    rw [← h.1]
    exact hinv
  · rw [if_neg h0] at h
    by_cases h1 : pyStrip (pyStr cat) = ""
    · rw [if_pos h1] at h
      simp only [pure, Except.pure, Except.ok.injEq, Prod.mk.injEq] at h
      rw [← h.1]
      exact hinv
    · rw [if_neg h1] at h
      rw [show pyInOp (.dict cd0) (.str (pyStrip (pyStr cat)))
          = .ok (dmem cd0 (pyStrip (pyStr cat))) from rfl] at h
      simp only [Bind.bind, Except.bind] at h
      by_cases h2 : dmem cd0 (pyStrip (pyStr cat)) = true
      · rw [if_pos h2] at h
        simp only [pure, Except.pure, Except.ok.injEq, Prod.mk.injEq] at h
        rw [← h.1]
        exact hinv
      · rw [if_neg h2] at h
        cases hfc : findCategoryByName cd0 (pyStrip (pyStr cat)) with
        | error e => rw [hfc] at h; exact Except.noConfusion h
        | ok fcv =>
          rw [hfc] at h
          simp only [Except.bind] at h
          cases fcv with
          | some cid2 =>
            simp only [pure, Except.pure, Except.ok.injEq, Prod.mk.injEq] at h
            rw [← h.1]
            exact hinv
          | none =>
            simp only [pure, Except.pure, Except.ok.injEq, Prod.mk.injEq] at h
            rw [← h.1]
            exact inv_set_cats _ _ hs hsne hcm

theorem set_locked_inv {now : Nat} {state : PyVal} {sid name : String} {q : Int}
    {unit : Option String} {th : PyVal} {keep : Bool} {cid : String} {user : Option String}
    {s2 : PyVal} {entry : Option HistoryEntry} {item : Item}
    (hinv : registry_inv state = true)
    (h : _set_quantity_locked now state sid name q unit th keep cid user
      = .ok (s2, entry, item)) : registry_inv s2 = true := by
  unfold _set_quantity_locked at h
  simp only [except_bind_ok, except_pure_ok] at h
  obtain ⟨a1, h1, a2, -, a3, -, a4, -, a5, -, a6, -, a7, -, a8, -, a9, -, a10, -, a11, -,
    a12, -, a13, -, hfin⟩ := h
  rw [expectDict_ok] at h1
  obtain ⟨d, sd0, cd0, hd, hs, hsne, hc, hcm⟩ := registry_inv_elim hinv
  rw [h1] at hd
  injection hd with hd
  subst hd
  injection hfin with hA hB
  rw [← hA]
  exact inv_set_stores _ hc hcm (dset_ne_nil _ _ _)

theorem set_checked_inv {now : Nat} {state : PyVal} {name : String} {q : Int}
    {unit : Option String} {th : PyVal} {keep : Bool} {cat : PyVal} {sid : Option String}
    {user : Option String} {s2 : PyVal} {entry : Option HistoryEntry} {item : Item}
    (hinv : registry_inv state = true)
    (h : set_quantity_checked now state name q unit th keep cat sid user
      = .ok (s2, entry, item)) : registry_inv s2 = true := by
  unfold set_quantity_checked at h
  by_cases hq : q < 0
  · rw [if_pos hq] at h
    exact Except.noConfusion h
  · rw [if_neg hq] at h
    simp only [except_bind_ok] at h
    obtain ⟨-, -, resolved, -, p, hens, hlock⟩ := h
    exact set_locked_inv (ensure_inv hinv hens) hlock

theorem adjust_checked_inv {now : Nat} {state : PyVal} {name : String} {delta : Int}
    {sid : Option String} {user : Option String} {s2 : PyVal} {entry : Option HistoryEntry}
    {item : Item}
    (hinv : registry_inv state = true)
    (h : adjust_quantity_checked now state name delta sid user = .ok (s2, entry, item)) :
    registry_inv s2 = true := by
  unfold adjust_quantity_checked at h
  simp only [except_bind_ok, except_pure_ok] at h
  obtain ⟨a0, -, a1, h1, a2, -, a3, -, a4, -, a5, -, a6, -, a7, -, hrest⟩ := h
  by_cases hg : a7.quantity + delta < 0
  · rw [if_pos hg] at hrest
    exact Except.noConfusion hrest
  · rw [if_neg hg] at hrest
    simp only [except_bind_ok, except_pure_ok] at hrest
    obtain ⟨a9, -, a10, -, a11, -, a12, -, hfin⟩ := hrest
    rw [expectDict_ok] at h1
    obtain ⟨d, sd0, cd0, hd, hs, hsne, hc, hcm⟩ := registry_inv_elim hinv
    rw [h1] at hd
    injection hd with hd
    subst hd
    injection hfin with hA hB
    rw [← hA]
    exact inv_set_stores _ hc hcm (dset_ne_nil _ _ _)

theorem delete_item_checked_inv {now : Nat} {state : PyVal} {name : String}
    {sid : Option String} {user : Option String} {s2 : PyVal} {entry : HistoryEntry}
    (hinv : registry_inv state = true)
    (h : delete_item_checked now state name sid user = .ok (s2, entry)) :
    registry_inv s2 = true := by
  unfold delete_item_checked at h
  simp only [except_bind_ok, except_pure_ok] at h
  obtain ⟨a0, -, a1, h1, a2, -, a3, -, a4, -, a5, -, a6, -, a7, -, a8, -, a9, -, a10, -,
    hfin⟩ := h
  rw [expectDict_ok] at h1
  obtain ⟨d, sd0, cd0, hd, hs, hsne, hc, hcm⟩ := registry_inv_elim hinv
  rw [h1] at hd
  injection hd with hd
  subst hd
  injection hfin with hA hB
  rw [← hA]
  exact inv_set_stores _ hc hcm (dset_ne_nil _ _ _)

theorem transfer_checked_inv {now : Nat} {state : PyVal} {name : String} {q : Int}
    {src tgt : Option String} {user : Option String} {s2 : PyVal}
    {e1 e2 : HistoryEntry} {i1 i2 : Item}
    (hinv : registry_inv state = true)
    (h : transfer_item_checked now state name q src tgt user = .ok (s2, e1, e2, i1, i2)) :
    registry_inv s2 = true := by
  unfold transfer_item_checked at h
  by_cases hg1 : q ≤ 0
  · rw [if_pos hg1] at h
    exact Except.noConfusion h
  · rw [if_neg hg1] at h
    simp only [except_bind_ok, except_pure_ok] at h
    obtain ⟨-, -, a0, -, a1, -, hrest⟩ := h
    by_cases hg2 : a0 = a1
    · rw [if_pos hg2] at hrest
      exact Except.noConfusion hrest
    · rw [if_neg hg2] at hrest
      simp only [except_bind_ok, except_pure_ok] at hrest
      obtain ⟨-, -, a2, h1, a3, -, a4, -, a5, -, a6, -, a7, -, a8, -, a9, -, hrest2⟩ := hrest
      by_cases hg3 : q > a9.quantity
      · rw [if_pos hg3] at hrest2
        exact Except.noConfusion hrest2
      · rw [if_neg hg3] at hrest2
        simp only [except_bind_ok, except_pure_ok] at hrest2
        obtain ⟨-, -, a10, -, a11, -, a12, -, a13, -, a14, -, a15, -, a16, -, a17, -, a18, -,
          a19, -, a20, -, a21, -, hfin⟩ := hrest2
        rw [expectDict_ok] at h1
        obtain ⟨d, sd0, cd0, hd, hs, hsne, hc, hcm⟩ := registry_inv_elim hinv
        rw [h1] at hd
        injection hd with hd
        subst hd
        injection hfin with hA hB
        rw [← hA]
        exact inv_set_stores _ hc hcm (dset_ne_nil _ _ _)

theorem create_store_checked_inv {now : Nat} {state : PyVal} {name : String}
    {s2 ret : PyVal}
    (hinv : registry_inv state = true)
    (h : create_store_checked now state name = .ok (s2, ret)) :
    registry_inv s2 = true := by
  unfold create_store_checked at h
  by_cases hg1 : pyStrip name = ""
  · rw [if_pos hg1] at h
    exact Except.noConfusion h
  · rw [if_neg hg1] at h
    simp only [except_bind_ok, except_pure_ok] at h
    obtain ⟨-, -, a1, h1, a2, h2, a3, h3, a4, -, hrest⟩ := h
    by_cases hg2 : a4.contains (pyStrip name) = true
    · rw [if_pos hg2] at hrest
      exact Except.noConfusion hrest
    · rw [if_neg hg2] at hrest
      simp only [except_bind_ok, except_pure_ok] at hrest
      obtain ⟨-, -, a5, -, hfin⟩ := hrest
      rw [expectDict_ok] at h1
      obtain ⟨d, sd0, cd0, hd, hs, hsne, hc, hcm⟩ := registry_inv_elim hinv
      rw [h1] at hd
      injection hd with hd
      subst hd
      injection hfin with hA hB
      rw [← hA]
      refine inv_set_stores _ ?_ hcm (dset_ne_nil _ _ _)
      rw [dget_dset_ne _ "meta" "categories" _ (by decide)]
      exact hc

theorem create_category_checked_inv {now : Nat} {state : PyVal} {name : String}
    {s2 ret : PyVal}
    (hinv : registry_inv state = true)
    (h : create_category_checked now state name = .ok (s2, ret)) :
    registry_inv s2 = true := by
  unfold create_category_checked at h
  by_cases hg1 : pyStrip name = ""
  · rw [if_pos hg1] at h
    exact Except.noConfusion h
  · rw [if_neg hg1] at h
    simp only [except_bind_ok, except_pure_ok] at h
    obtain ⟨-, -, a1, h1, a2, h2, a3, h3, a4, -, hrest⟩ := h
    by_cases hg2 : a4 = true
    · rw [if_pos hg2] at hrest
      exact Except.noConfusion hrest
    · rw [if_neg hg2] at hrest
      simp only [except_bind_ok, except_pure_ok] at hrest
      obtain ⟨-, -, hfin⟩ := hrest
      rw [expectDict_ok] at h1
      rw [getKey_ok] at h2
      rw [expectDict_ok] at h3
      obtain ⟨d, sd0, cd0, hd, hs, hsne, hc, hcm⟩ := registry_inv_elim hinv
      rw [h1] at hd
      injection hd with hd
      subst hd
      rw [h2] at hc
      injection hc with hc
      rw [h3] at hc
      injection hc with hc
      subst hc
      injection hfin with hA hB
      rw [← hA]
      exact inv_set_cats _ _ hs hsne hcm

theorem ddel_ne_nil_of_two (d : Dict) (k : String) (h : 2 ≤ d.length) : ddel d k ≠ [] := by
  match d, h with
  | (k0, v0) :: (k1, v1) :: rest, _ =>
    simp only [ddel]
    by_cases h0 : k0 = k
    · rw [if_pos h0]; simp
    · rw [if_neg h0]; simp

theorem delete_store_header_facts {state : PyVal} {store_id : String} {cascade : Bool}
    {stateD storesD sd : Dict} {itemsV category_map : PyVal}
    (h : delete_store_header state store_id cascade
      = .ok (stateD, storesD, sd, itemsV, category_map)) :
    state = .dict stateD ∧ dget stateD "stores" = some (.dict storesD) ∧
      2 ≤ storesD.length := by
  unfold delete_store_header at h
  simp only [except_bind_ok, except_pure_ok] at h
  obtain ⟨a1, h1, a2, h2, a3, h3, hrest⟩ := h
  by_cases hg1 : a3 = false
  · rw [if_pos hg1] at hrest
    exact Except.noConfusion hrest
  · rw [if_neg hg1] at hrest
    simp only [except_bind_ok, except_pure_ok] at hrest
    obtain ⟨-, -, a4, h4, hrest2⟩ := hrest
    by_cases hg2 : a4 ≤ 1
    · rw [if_pos hg2] at hrest2
      exact Except.noConfusion hrest2
    · rw [if_neg hg2] at hrest2
      simp only [except_bind_ok, except_pure_ok] at hrest2
      obtain ⟨-, -, a5, h5, a6, h6, a7, h7, hrest3⟩ := hrest2
      by_cases hg3 : pyTruthy (dgetD a7 "items" (.dict [])) = true ∧ cascade = false
      · rw [if_pos hg3] at hrest3
        exact Except.noConfusion hrest3
      · rw [if_neg hg3] at hrest3
        simp only [except_bind_ok, except_pure_ok] at hrest3
        obtain ⟨-, -, a8, h8, hfin⟩ := hrest3
        simp only [Prod.mk.injEq] at hfin
        obtain ⟨hA, hB, -⟩ := hfin
        subst hA
        subst hB
        rw [expectDict_ok] at h1 h5
        rw [getKey_ok] at h2
        rw [h5] at h2 h4
        refine ⟨h1, h2, ?_⟩
        rw [show ∀ dd : Dict, pyLen (.dict dd) = .ok dd.length from fun dd => rfl] at h4
        injection h4 with h4
        omega

theorem delete_store_finish_inv {stateD storesD : Dict} {store_id : String} {s2 : PyVal}
    {cd : Dict}
    (hc : dget stateD "categories" = some (.dict cd)) (hcm : dmem cd UNCATEGORIZED_ID = true)
    (hlen : 2 ≤ storesD.length)
    (h : delete_store_finish stateD storesD store_id = .ok s2) :
    registry_inv s2 = true := by
  unfold delete_store_finish at h
  simp only [except_bind_ok, except_pure_ok] at h
  obtain ⟨a1, -, hfin⟩ := h
  rw [← hfin]
  refine registry_inv_build (dget_dset_self _ _ _) (ddel_ne_nil_of_two _ _ hlen) ?_ hcm
  rw [dget_dset_ne _ "stores" "categories" _ (by decide),
    dget_dset_ne _ "meta" "categories" _ (by decide)]
  exact hc

theorem delete_category_header_facts {state : PyVal} {category_id : String}
    {store_id : Option String} {stateD catsD storesD : Dict} {resolved : Option String}
    {catEntry : PyVal}
    (h : delete_category_header state category_id store_id
      = .ok (stateD, catsD, resolved, storesD, catEntry)) :
    state = .dict stateD ∧ dget stateD "categories" = some (.dict catsD) ∧
      dget stateD "stores" = some (.dict storesD) := by
  unfold delete_category_header at h
  simp only [except_bind_ok, except_pure_ok] at h
  obtain ⟨a1, h1, a2, h2, a3, h3, hrest⟩ := h
  by_cases hg1 : a3 = false
  · rw [if_pos hg1] at hrest
    exact Except.noConfusion hrest
  · rw [if_neg hg1] at hrest
    simp only [except_bind_ok, except_pure_ok] at hrest
    obtain ⟨-, -, hrest2⟩ := hrest
    cases store_id with
    | some sidv =>
      simp only [except_bind_ok, except_pure_ok] at hrest2
      obtain ⟨a4, -, a5, h5, a6, h6, a7, h7, a8, -, hfin⟩ := hrest2
      simp only [Prod.mk.injEq] at hfin
      obtain ⟨hA, hB, -, hC, -⟩ := hfin
      subst hA
      subst hB
      subst hC
      rw [expectDict_ok] at h1 h6 h7
      rw [getKey_ok] at h2 h5
      rw [h7] at h2
      rw [h6] at h5
      exact ⟨h1, h2, h5⟩
    | none =>
      simp only [except_bind_ok, except_pure_ok] at hrest2
      obtain ⟨a4, -, a5, h5, a6, h6, a7, h7, a8, -, hfin⟩ := hrest2
      simp only [Prod.mk.injEq] at hfin
      obtain ⟨hA, hB, -, hC, -⟩ := hfin
      subst hA
      subst hB
      subst hC
      rw [expectDict_ok] at h1 h6 h7
      rw [getKey_ok] at h2 h5
      rw [h7] at h2
      rw [h6] at h5
      exact ⟨h1, h2, h5⟩

theorem delete_category_stores_ok_length (now : Nat) (cid : String) (catEntry : PyVal)
    (cascade : Bool) (resolved : Option String) (user : Option String) :
    ∀ (d : Dict) (es : List HistoryEntry) (d2 : Dict),
      delete_category_stores now cid catEntry cascade resolved user d = (es, .ok d2) →
      d2.length = d.length := by
  intro d
  induction d with
  | nil =>
    intro es d2 h
    rw [delete_category_stores] at h
    simp only [Prod.mk.injEq, Except.ok.injEq] at h
    rw [← h.2]
  | cons kv rest ih =>
    intro es d2 h
    obtain ⟨sid, store⟩ := kv
    cases store with
    | dict sd =>
      rw [delete_category_stores] at h
      cases hiv : dgetD sd "items" (.dict []) with
      | dict its =>
        rw [hiv] at h
        simp only [] at h
        cases hscan : delete_category_scan now cid catEntry
            (cascade && (decide (resolved = Option.none) || decide (resolved = some sid)))
            sid (dgetD sd "name" (.str sid)) user its with
        | mk es1 res1 =>
          rw [hscan] at h
          cases res1 with
          | error e => simp at h
          | ok newIts =>
            cases hrec : delete_category_stores now cid catEntry cascade resolved user
                rest with
            | mk es2 res2 =>
              rw [hrec] at h
              cases res2 with
              | error e => simp at h
              | ok tl =>
                simp only [Prod.mk.injEq, Except.ok.injEq] at h
                rw [← h.2]
                simp [ih es2 tl hrec]
      | none => rw [hiv] at h; simp at h
      | bool b => rw [hiv] at h; simp at h
      | int n => rw [hiv] at h; simp at h
      | str t => rw [hiv] at h; simp at h
      | list l => rw [hiv] at h; simp at h
    | none => simp [delete_category_stores] at h
    | bool b => simp [delete_category_stores] at h
    | int n => simp [delete_category_stores] at h
    | str t => simp [delete_category_stores] at h
    | list l => simp [delete_category_stores] at h

theorem delete_store_tail_inv {stateD storesD : Dict} {store_id : String}
    {entries : List HistoryEntry} {cd : Dict} {s2 : PyVal}
    (hc : dget stateD "categories" = some (.dict cd))
    (hcm : dmem cd UNCATEGORIZED_ID = true) (hlen : 2 ≤ storesD.length)
    (hmem : Effect.writeState s2 ∈ (match delete_store_finish stateD storesD store_id with
      | .error e => (entries.map Effect.appendHistory, (Except.error e : Except PyErr PyVal))
      | .ok s2f => (entries.map Effect.appendHistory ++ [Effect.writeState s2f],
          .ok s2f)).1) :
    registry_inv s2 = true := by
  cases hfin : delete_store_finish stateD storesD store_id with
  | error e =>
    rw [hfin] at hmem
    exact absurd hmem (writeState_not_mem_appends _ _)
  | ok s2f =>
    rw [hfin] at hmem
    rcases List.mem_append.mp hmem with hm | hm
    · exact absurd hm (writeState_not_mem_appends _ _)
    · have hs2 : s2 = s2f := by
        have := List.mem_singleton.mp hm
        injection this
      rw [hs2]
      exact delete_store_finish_inv hc hcm hlen hfin

theorem delete_store_op_inv {now : Nat} {state : PyVal} {store_id : String} {cascade : Bool}
    {user : Option String} {s2 : PyVal}
    (hinv : registry_inv state = true)
    (hmem : Effect.writeState s2 ∈ (delete_store now state store_id cascade user).1) :
    registry_inv s2 = true := by
  unfold delete_store at hmem
  split at hmem
  · exact absurd hmem (List.not_mem_nil _)
  · rename_i stateD storesD sd itemsV category_map hh
    obtain ⟨hstate, hstores, hlen⟩ := delete_store_header_facts hh
    obtain ⟨d, sd0, cd0, hd, -, -, hc, hcm⟩ := registry_inv_elim hinv
    rw [hstate] at hd
    injection hd with hd
    subst hd
    simp only [] at hmem
    by_cases hca : pyTruthy itemsV = true ∧ cascade = true
    · rw [if_pos hca] at hmem
      cases itemsV with
      | dict its =>
        simp only [] at hmem
        cases hloop : delete_store_loop now store_id (dgetD sd "name" (.str store_id))
            category_map user its [] with
        | mk entries errOpt =>
          rw [hloop] at hmem
          cases errOpt with
          | some e => exact absurd hmem (writeState_not_mem_appends _ _)
          | none => exact delete_store_tail_inv hc hcm hlen hmem
      | none => exact absurd hmem (writeState_not_mem_appends _ _)
      | bool b => exact absurd hmem (writeState_not_mem_appends _ _)
      | int n => exact absurd hmem (writeState_not_mem_appends _ _)
      | str t => exact absurd hmem (writeState_not_mem_appends _ _)
      | list l => exact absurd hmem (writeState_not_mem_appends _ _)
    · rw [if_neg hca] at hmem
      exact delete_store_tail_inv hc hcm hlen hmem

theorem delete_category_op_inv {now : Nat} {state : PyVal} {category_id : String}
    {cascade : Bool} {user : Option String} {store_id : Option String} {s2 : PyVal}
    (hinv : registry_inv state = true)
    (hmem : Effect.writeState s2
      ∈ (delete_category now state category_id cascade user store_id).1) :
    registry_inv s2 = true := by
  unfold delete_category at hmem
  by_cases hcid : category_id = UNCATEGORIZED_ID
  · rw [if_pos hcid] at hmem
    exact absurd hmem (List.not_mem_nil _)
  · rw [if_neg hcid] at hmem
    split at hmem
    · exact absurd hmem (List.not_mem_nil _)
    · rename_i stateD catsD resolved storesD catEntry hh
      split at hmem
      · exact absurd hmem (writeState_not_mem_appends _ _)
      · rename_i es newStores hloop
        rcases List.mem_append.mp hmem with hm | hm
        · exact absurd hm (writeState_not_mem_appends _ _)
        · have hs2 : s2 = .dict (dset (dset stateD "stores" (.dict newStores)) "categories"
              (.dict (ddel catsD category_id))) := by
            have := List.mem_singleton.mp hm
            injection this
          obtain ⟨hstate, hcats, hstores⟩ := delete_category_header_facts hh
          obtain ⟨d, sd0, cd0, hd, hs, hsne, hc, hcm⟩ := registry_inv_elim hinv
          rw [hstate] at hd
          injection hd with hd
          subst hd
          rw [hc] at hcats
          injection hcats with hcats
          injection hcats with hcats
          subst hcats
          rw [hs] at hstores
          injection hstores with hstores
          injection hstores with hstores
          subst hstores
          rw [hs2]
          refine registry_inv_build
            (by rw [dget_dset_ne _ "categories" "stores" _ (by decide)]
                exact dget_dset_self _ _ _)
            ?_ (dget_dset_self _ _ _) ?_
          · have hlen := delete_category_stores_ok_length now category_id catEntry cascade
              resolved user _ _ _ hloop
            intro hnil
            rw [hnil] at hlen
            simp only [List.length_nil] at hlen
            exact hsne (List.length_eq_zero.mp hlen.symm)
          · rw [dmem_ddel_ne _ _ _ (fun hb => hcid hb.symm)]
            exact hcm

theorem import_loop_inv (now : Nat) (user : Option String) (resolved : String) :
    ∀ (rows : List PyVal) (state : PyVal) (es0 : List HistoryEntry) (acc : List Item)
      (es2 : List HistoryEntry) (s2 : PyVal) (items : List Item),
      registry_inv state = true →
      import_items_loop now user resolved state rows es0 acc = (es2, .ok (s2, items)) →
      registry_inv s2 = true := by
  intro rows
  induction rows with
  | nil =>
    intro state es0 acc es2 s2 items hinv h
    rw [import_items_loop] at h
    simp only [Prod.mk.injEq, Except.ok.injEq] at h
    rw [← h.2.1]
    exact hinv
  | cons row rest ih =>
    intro state es0 acc es2 s2 items hinv h
    cases row with
    | dict rd =>
      rw [import_items_loop] at h
      by_cases hname : pyStrip (pyStr (pyOrEmptyStr (dgetD rd "name" .none))) = ""
      · rw [if_pos hname] at h
        exact ih state es0 acc es2 s2 items hinv h
      · rw [if_neg hname] at h
        cases hqi : pyInt (dgetD rd "quantity" .none) with
        | error e =>
          rw [hqi] at h
          exact ih state es0 acc es2 s2 items hinv h
        | ok q =>
          rw [hqi] at h
          simp only [] at h
          by_cases hq : q < 0
          · rw [if_pos hq] at h
            exact ih state es0 acc es2 s2 items hinv h
          · rw [if_neg hq] at h
            cases hens : _ensure_category now state (importCategoryRaw rd) with
            | error e => rw [hens] at h; simp at h
            | ok p =>
              rw [hens] at h
              obtain ⟨state2, cid⟩ := p
              simp only [] at h
              cases hlock : _set_quantity_locked now state2 resolved
                  (pyStrip (pyStr (pyOrEmptyStr (dgetD rd "name" .none)))) q
                  (if dgetD rd "unit" .none = .none then Option.none
                   else some (pyStrip (pyStr (dgetD rd "unit" .none))))
                  (optIntVal (_normalize_threshold
                    ((firstKeyPresent rd ["threshold", "阈值提醒", "阈值"]).getD .none)))
                  (!(firstKeyPresent rd ["threshold", "阈值提醒", "阈值"]).isSome) cid
                  user with
              | error e => rw [hlock] at h; simp at h
              | ok p2 =>
                rw [hlock] at h
                obtain ⟨state3, entry, item⟩ := p2
                simp only [] at h
                exact ih state3 _ _ es2 s2 items
                  (set_locked_inv (ensure_inv hinv hens) hlock) h
    | none => exact ih state es0 acc es2 s2 items hinv h
    | bool b => exact ih state es0 acc es2 s2 items hinv h
    | int n => exact ih state es0 acc es2 s2 items hinv h
    | str t => exact ih state es0 acc es2 s2 items hinv h
    | list l => exact ih state es0 acc es2 s2 items hinv h

theorem import_items_op_inv {now : Nat} {state : PyVal} {rows : List PyVal}
    {store_id : Option String} {user : Option String} {s2 : PyVal}
    (hinv : registry_inv state = true)
    (hmem : Effect.writeState s2 ∈ (import_items now state rows store_id user).1) :
    registry_inv s2 = true := by
  unfold import_items at hmem
  split at hmem
  · exact absurd hmem (List.not_mem_nil _)
  · rename_i resolved hres
    split at hmem
    · exact absurd hmem (writeState_not_mem_appends _ _)
    · rename_i es s2b items hloop
      rcases List.mem_append.mp hmem with hm | hm
      · exact absurd hm (writeState_not_mem_appends _ _)
      · have hs2 : s2 = s2b := by
          have := List.mem_singleton.mp hm
          injection this
        rw [hs2]
        exact import_loop_inv now user resolved rows state [] [] es s2b items hinv hloop

/-- C5: every engine operation preserves the registry invariants — any
document state it commits still carries a non-empty store dict and the
`uncategorized` category; `delete_store` refuses with ValidationError and no
effects when only one store remains, regardless of cascade; and
`delete_category` on `uncategorized` refuses with ValidationError and no
effects regardless of the cascade flag and store scope. -/
theorem C5_registry_invariants :
    (∀ (now : Nat) (user : Option String) (state : PyVal) (op : EngineOp) (s2 : PyVal),
      registry_inv state = true →
      Effect.writeState s2 ∈ applyOp now user state op → registry_inv s2 = true) ∧
    (∀ (now : Nat) (stateD storesD : Dict) (store_id : String) (cascade : Bool)
        (user : Option String),
      dget stateD "stores" = some (.dict storesD) →
      dmem storesD store_id = true → storesD.length ≤ 1 →
      delete_store now (.dict stateD) store_id cascade user
        = ([], .error (.valueError "至少需要保留一个门店"))) ∧
    (∀ (now : Nat) (state : PyVal) (cascade : Bool) (user : Option String)
        (store_id : Option String),
      delete_category now state UNCATEGORIZED_ID cascade user store_id
        = ([], .error (.valueError "默认分类无法删除"))) := by
  refine ⟨?_, ?_, ?_⟩
  · intro now user state op s2 hinv hmem
    cases op with
    | setQ n q u t k c sid =>
      simp only [applyOp] at hmem
      unfold set_quantity at hmem
      split at hmem
      · exact absurd hmem (List.not_mem_nil _)
      · rename_i s2c entry item hchk
        rcases List.mem_append.mp hmem with hm | hm
        · exact absurd hm (writeState_not_mem_appends _ _)
        · have hs2 : s2 = s2c := by
            have := List.mem_singleton.mp hm
            injection this
          rw [hs2]
          exact set_checked_inv hinv hchk
    | adjQ n d sid =>
      simp only [applyOp] at hmem
      unfold adjust_quantity at hmem
      split at hmem
      · exact absurd hmem (List.not_mem_nil _)
      · rename_i s2c entry item hchk
        rcases List.mem_append.mp hmem with hm | hm
        · exact absurd hm (writeState_not_mem_appends _ _)
        · have hs2 : s2 = s2c := by
            have := List.mem_singleton.mp hm
            injection this
          rw [hs2]
          exact adjust_checked_inv hinv hchk
    | transfer n q src tgt =>
      simp only [applyOp] at hmem
      unfold transfer_item at hmem
      split at hmem
      · exact absurd hmem (List.not_mem_nil _)
      · rename_i s2c e1 e2 i1 i2 hchk
        simp only [List.mem_cons, List.not_mem_nil, or_false] at hmem
        rcases hmem with hm | hm | hm
        · exact Effect.noConfusion hm
        · exact Effect.noConfusion hm
        · have hs2 : s2 = s2c := by injection hm
          rw [hs2]
          exact transfer_checked_inv hinv hchk
    | delItem n sid =>
      simp only [applyOp] at hmem
      unfold delete_item at hmem
      split at hmem
      · exact absurd hmem (List.not_mem_nil _)
      · rename_i s2c entry hchk
        simp only [List.mem_cons, List.not_mem_nil, or_false] at hmem
        rcases hmem with hm | hm
        · have hs2 : s2 = s2c := by injection hm
          rw [hs2]
          exact delete_item_checked_inv hinv hchk
        · exact Effect.noConfusion hm
    | delStore sid c =>
      simp only [applyOp] at hmem
      exact delete_store_op_inv hinv hmem
    | delCat cid c sid =>
      simp only [applyOp] at hmem
      exact delete_category_op_inv hinv hmem
    | newStore n =>
      simp only [applyOp] at hmem
      unfold create_store at hmem
      split at hmem
      · exact absurd hmem (List.not_mem_nil _)
      · rename_i s2c ret hchk
        simp only [List.mem_cons, List.not_mem_nil, or_false] at hmem
        have hs2 : s2 = s2c := by injection hmem
        rw [hs2]
        exact create_store_checked_inv hinv hchk
    | newCat n =>
      simp only [applyOp] at hmem
      unfold create_category at hmem
      split at hmem
      · exact absurd hmem (List.not_mem_nil _)
      · rename_i s2c ret hchk
        simp only [List.mem_cons, List.not_mem_nil, or_false] at hmem
        have hs2 : s2 = s2c := by injection hmem
        rw [hs2]
        exact create_category_checked_inv hinv hchk
    | importRows rows sid =>
      simp only [applyOp] at hmem
      exact import_items_op_inv hinv hmem
  · intro now stateD storesD store_id cascade user hstores hsmem hle
    have hhdr : delete_store_header (.dict stateD) store_id cascade
        = .error (.valueError "至少需要保留一个门店") := by
      unfold delete_store_header
      simp only [Bind.bind]
      rw [show expectDict (PyVal.dict stateD) PyErr.typeError = Except.ok stateD from rfl]
      simp only [Except.bind]
      rw [show getKey stateD "stores" = Except.ok (PyVal.dict storesD) from by
        unfold getKey
        rw [hstores]
        rfl]
      simp only [Except.bind]
      rw [show pyInOp (PyVal.dict storesD) (PyVal.str store_id)
          = Except.ok (dmem storesD store_id) from rfl, hsmem]
      simp only [Except.bind]
      rw [if_neg (by simp : ¬(true = false))]
      simp only [pure, Except.pure, Except.bind]
      rw [show pyLen (PyVal.dict storesD) = Except.ok storesD.length from rfl]
      simp only [Except.bind]
      rw [if_pos hle]
    unfold delete_store
    rw [hhdr]
  · intro now state cascade user store_id
    unfold delete_category
    rw [if_pos rfl]

/-- The state committed by `create_category 5 exState "Tools"`. -/
def exNewCatState : PyVal :=
  .dict (dset exStateD "categories" (.dict (dset exCatsD "tools"
    (.dict [("id", .str "tools"), ("name", .str "Tools"), ("created_at", .int 5)]))))

/-- Witness for C5: a concrete committed state keeps the invariants, and the
two refusals fire on the one-store document. -/
theorem C5_witness :
    (registry_inv exState = true ∧ registry_inv exNewCatState = true) ∧
    delete_store 0 exState "default" true Option.none
      = ([], .error (.valueError "至少需要保留一个门店")) ∧
    delete_category 0 exState UNCATEGORIZED_ID true Option.none Option.none
      = ([], .error (.valueError "默认分类无法删除")) := by
  refine ⟨⟨by decide, ?_⟩, ?_, ?_⟩
  · exact C5_registry_invariants.1 5 Option.none exState (.newCat "Tools") exNewCatState
      (by decide)
      (by rw [show applyOp 5 Option.none exState (.newCat "Tools")
            = [Effect.writeState exNewCatState] from rfl]
          exact List.mem_singleton.mpr rfl)
  · exact C5_registry_invariants.2.1 0 exStateD exStoresD "default" true Option.none
      (by rfl) (by rfl) (by decide)
  · exact C5_registry_invariants.2.2 0 exState true Option.none Option.none

/-! ### C8 — idempotence of the upgrade pass -/

/-- A store entry that `upgrade_store_entry` accepts unchanged. -/
def storeClean (sid : String) (v : PyVal) : Prop :=
  ∃ sd, v = .dict sd ∧ (∃ its, dget sd "items" = some (.dict its)) ∧
    dgetD sd "id" .none = .str sid ∧ (∃ t, dget sd "name" = some (.str t)) ∧
    dmem sd "created_at" = true

/-- A category entry that `upgrade_category_entry` accepts unchanged. -/
def catClean (cid : String) (v : PyVal) : Prop :=
  ∃ cd, v = .dict cd ∧ dgetD cd "id" .none = .str cid ∧
    (∃ t, dget cd "name" = some (.str t)) ∧ dmem cd "created_at" = true

/-- An item record that `upgrade_item_record` accepts unchanged. -/
def recClean (cats : Dict) (r : PyVal) : Prop :=
  ∃ rd s, r = .dict rd ∧ dget rd "category" = some (.str s) ∧ pyStrip s ≠ "" ∧
    dmem cats s = true

/-- The category registry only ever grows during the item pass. -/
def catsLE (c1 c2 : Dict) : Prop := ∀ k, dmem c1 k = true → dmem c2 k = true

theorem catsLE_refl (c : Dict) : catsLE c c := fun _ h => h

theorem catsLE_trans {a b c : Dict} (h1 : catsLE a b) (h2 : catsLE b c) : catsLE a c :=
  fun k h => h2 k (h1 k h)

theorem recClean_mono {c1 c2 : Dict} {r : PyVal} (hle : catsLE c1 c2)
    (h : recClean c1 r) : recClean c2 r := by
  obtain ⟨rd, s, hr, hc, hs, hm⟩ := h
  exact ⟨rd, s, hr, hc, hs, hle s hm⟩

theorem dset_eq_self {d : Dict} {k : String} {v : PyVal} (h : dget d k = some v) :
    dset d k v = d := by
  induction d with
  | nil => simp [dget] at h
  | cons hd tl ih =>
    obtain ⟨k0, v0⟩ := hd
    by_cases h0 : k0 = k
    · subst h0
      rw [show dget ((k0, v0) :: tl) k0 = some v0 from by simp [dget]] at h
      injection h with h
      rw [dset, if_pos rfl, h]
    · simp only [dget, if_neg h0] at h
      rw [dset, if_neg h0, ih h]

theorem mem_dset {kv : String × PyVal} {d : Dict} {k : String} {v : PyVal}
    (h : kv ∈ dset d k v) : kv ∈ d ∨ kv = (k, v) := by
  induction d with
  | nil => simpa [dset] using h
  | cons hd tl ih =>
    obtain ⟨k0, v0⟩ := hd
    by_cases h0 : k0 = k
    · rw [dset, if_pos h0] at h
      rcases List.mem_cons.mp h with h | h
      · exact Or.inr h
      · exact Or.inl (List.mem_cons_of_mem _ h)
    · rw [dset, if_neg h0] at h
      rcases List.mem_cons.mp h with h | h
      · exact Or.inl (by rw [h]; exact List.mem_cons_self _ _)
      · rcases ih h with h2 | h2
        · exact Or.inl (List.mem_cons_of_mem _ h2)
        · exact Or.inr h2

theorem dmem_headD {d : Dict} (h : d ≠ []) : dmem d ((dkeys d).headD "") = true := by
  cases d with
  | nil => exact absurd rfl h
  | cons hd tl =>
    obtain ⟨k, v⟩ := hd
    simp [dkeys, dmem, dget]

theorem dmem_pairs_map (g : String → PyVal → Bool × PyVal) (d : Dict) (k : String) :
    dmem ((d.map (fun kv => (kv.1, g kv.1 kv.2))).map (fun kv => (kv.1, kv.2.2))) k
      = dmem d k := by
  induction d with
  | nil => rfl
  | cons hd tl ih =>
    obtain ⟨k0, v0⟩ := hd
    simp only [List.map_cons]
    by_cases h0 : k0 = k
    · simp [dmem, dget, h0]
    · simp only [dmem, dget, if_neg h0]
      exact ih

theorem pairs_map_id {g : String → PyVal → Bool × PyVal} {d : Dict}
    (h : ∀ kv ∈ d, g kv.1 kv.2 = (false, kv.2)) :
    ((d.map (fun kv => (kv.1, g kv.1 kv.2))).any (fun kv => kv.2.1) = false) ∧
    (d.map (fun kv => (kv.1, g kv.1 kv.2))).map (fun kv => (kv.1, kv.2.2)) = d := by
  induction d with
  | nil => exact ⟨rfl, rfl⟩
  | cons hd tl ih =>
    obtain ⟨k0, v0⟩ := hd
    have hh := h (k0, v0) (List.mem_cons_self _ _)
    obtain ⟨h1, h2⟩ := ih (fun kv hkv => h kv (List.mem_cons_of_mem _ hkv))
    simp only [List.map_cons, List.any_cons, hh, h2]
    simp [h1]

theorem pairs_map_mem {g : String → PyVal → Bool × PyVal} {d : Dict} {kv : String × PyVal}
    (h : kv ∈ (d.map (fun kv => (kv.1, g kv.1 kv.2))).map (fun kv => (kv.1, kv.2.2))) :
    ∃ v0, kv.2 = (g kv.1 v0).2 := by
  simp only [List.map_map, List.mem_map] at h
  obtain ⟨⟨k0, v0⟩, -, hkv⟩ := h
  refine ⟨v0, ?_⟩
  rw [← hkv]
  rfl

theorem dget_ite_dset_ne (c : Prop) [Decidable c] (d : Dict) (k k2 : String) (v : PyVal)
    (hne : k ≠ k2) : dget (if c then dset d k2 v else d) k = dget d k := by
  split_ifs with h
  · exact dget_dset_ne d k2 k v hne
  · rfl

theorem fixItems_spec (sd : Dict) :
    (∃ its, dget (fixItems sd).2 "items" = some (.dict its)) ∧
    (∀ k, k ≠ "items" → dget (fixItems sd).2 k = dget sd k) := by
  unfold fixItems
  cases hi : dget sd "items" with
  | none => exact ⟨⟨[], dget_dset_self _ _ _⟩, fun k hk => dget_dset_ne _ _ _ _ hk⟩
  | some w =>
    cases w with
    | dict its => exact ⟨⟨its, hi⟩, fun k hk => rfl⟩
    | none => exact ⟨⟨[], dget_dset_self _ _ _⟩, fun k hk => dget_dset_ne _ _ _ _ hk⟩
    | bool b => exact ⟨⟨[], dget_dset_self _ _ _⟩, fun k hk => dget_dset_ne _ _ _ _ hk⟩
    | int n => exact ⟨⟨[], dget_dset_self _ _ _⟩, fun k hk => dget_dset_ne _ _ _ _ hk⟩
    | str t => exact ⟨⟨[], dget_dset_self _ _ _⟩, fun k hk => dget_dset_ne _ _ _ _ hk⟩
    | list l => exact ⟨⟨[], dget_dset_self _ _ _⟩, fun k hk => dget_dset_ne _ _ _ _ hk⟩

theorem fixId_spec (ident : String) (sd : Dict) :
    dgetD (fixId ident sd).2 "id" .none = .str ident ∧
    (∀ k, k ≠ "id" → dget (fixId ident sd).2 k = dget sd k) := by
  unfold fixId
  split_ifs with h
  · exact ⟨by simp [dgetD, dget_dset_self], fun k hk => dget_dset_ne _ _ _ _ hk⟩
  · exact ⟨not_not.mp h, fun k hk => rfl⟩

theorem fixName_spec (ident : String) (sd : Dict) :
    (∃ t, dget (fixName ident sd).2 "name" = some (.str t)) ∧
    (∀ k, k ≠ "name" → dget (fixName ident sd).2 k = dget sd k) := by
  unfold fixName
  cases hn : dget sd "name" with
  | none => exact ⟨⟨ident, dget_dset_self _ _ _⟩, fun k hk => dget_dset_ne _ _ _ _ hk⟩
  | some w =>
    cases w with
    | str t => exact ⟨⟨t, hn⟩, fun k hk => rfl⟩
    | none => exact ⟨⟨ident, dget_dset_self _ _ _⟩, fun k hk => dget_dset_ne _ _ _ _ hk⟩
    | bool b => exact ⟨⟨ident, dget_dset_self _ _ _⟩, fun k hk => dget_dset_ne _ _ _ _ hk⟩
    | int n => exact ⟨⟨ident, dget_dset_self _ _ _⟩, fun k hk => dget_dset_ne _ _ _ _ hk⟩
    | dict d2 => exact ⟨⟨ident, dget_dset_self _ _ _⟩, fun k hk => dget_dset_ne _ _ _ _ hk⟩
    | list l => exact ⟨⟨ident, dget_dset_self _ _ _⟩, fun k hk => dget_dset_ne _ _ _ _ hk⟩

theorem fixCreated_spec (now : Nat) (sd : Dict) :
    dmem (fixCreated now sd).2 "created_at" = true ∧
    (∀ k, k ≠ "created_at" → dget (fixCreated now sd).2 k = dget sd k) := by
  unfold fixCreated
  split_ifs with h
  · exact ⟨h, fun k hk => rfl⟩
  · refine ⟨?_, fun k hk => dget_dset_ne _ _ _ _ hk⟩
    rw [dmem_dset]
    simp

theorem fixItems_id {sd : Dict} {its : Dict} (h : dget sd "items" = some (.dict its)) :
    fixItems sd = (false, sd) := by
  unfold fixItems
  rw [h]

theorem fixId_id {ident : String} {sd : Dict} (h : dgetD sd "id" .none = .str ident) :
    fixId ident sd = (false, sd) := by
  unfold fixId
  rw [if_neg (not_not_intro h)]

theorem fixName_id {ident : String} {sd : Dict} {t : String}
    (h : dget sd "name" = some (.str t)) : fixName ident sd = (false, sd) := by
  unfold fixName
  rw [h]

theorem fixCreated_id {now : Nat} {sd : Dict} (h : dmem sd "created_at" = true) :
    fixCreated now sd = (false, sd) := by
  unfold fixCreated
  rw [if_pos h]

theorem upgrade_store_entry_clean (now : Nat) (sid : String) (v : PyVal) :
    storeClean sid (upgrade_store_entry now sid v).2 := by
  cases v with
  | dict sd0 =>
    unfold upgrade_store_entry
    cases hf1 : fixItems sd0 with
    | mk c1 sd1 =>
      cases hf2 : fixId sid sd1 with
      | mk c2 sd2 =>
        cases hf3 : fixName sid sd2 with
        | mk c3 sd3 =>
          cases hf4 : fixCreated now sd3 with
          | mk c4 sd4 =>
            simp only [hf1, hf2, hf3, hf4]
            obtain ⟨⟨its, hits⟩, hpres1⟩ := fixItems_spec sd0
            rw [hf1] at hits hpres1
            obtain ⟨hid, hpres2⟩ := fixId_spec sid sd1
            rw [hf2] at hid hpres2
            obtain ⟨⟨t, hname⟩, hpres3⟩ := fixName_spec sid sd2
            rw [hf3] at hname hpres3
            obtain ⟨hts, hpres4⟩ := fixCreated_spec now sd3
            rw [hf4] at hts hpres4
            have hitems4 : dget sd4 "items" = some (.dict its) := by
              rw [hpres4 _ (by decide), hpres3 _ (by decide), hpres2 _ (by decide)]
              exact hits
            have hid4 : dgetD sd4 "id" .none = .str sid := by
              show (dget sd4 "id").getD .none = .str sid
              rw [hpres4 _ (by decide), hpres3 _ (by decide)]
              exact hid
            have hname4 : dget sd4 "name" = some (.str t) := by
              rw [hpres4 _ (by decide)]
              exact hname
            exact ⟨sd4, rfl, ⟨its, hitems4⟩, hid4, ⟨t, hname4⟩, hts⟩
  | none => exact ⟨_, rfl, ⟨[], rfl⟩, by simp [dgetD, dget], ⟨sid, by simp [dget]⟩,
      by simp [dmem, dget]⟩
  | bool b => exact ⟨_, rfl, ⟨[], rfl⟩, by simp [dgetD, dget], ⟨sid, by simp [dget]⟩,
      by simp [dmem, dget]⟩
  | int n => exact ⟨_, rfl, ⟨[], rfl⟩, by simp [dgetD, dget], ⟨sid, by simp [dget]⟩,
      by simp [dmem, dget]⟩
  | str t => exact ⟨_, rfl, ⟨[], rfl⟩, by simp [dgetD, dget], ⟨sid, by simp [dget]⟩,
      by simp [dmem, dget]⟩
  | list l => exact ⟨_, rfl, ⟨[], rfl⟩, by simp [dgetD, dget], ⟨sid, by simp [dget]⟩,
      by simp [dmem, dget]⟩

theorem upgrade_category_entry_clean (now : Nat) (cid : String) (v : PyVal) :
    catClean cid (upgrade_category_entry now cid v).2 := by
  cases v with
  | dict cd0 =>
    unfold upgrade_category_entry
    cases hf1 : fixId cid cd0 with
    | mk c1 cd1 =>
      cases hf2 : fixName cid cd1 with
      | mk c2 cd2 =>
        cases hf3 : fixCreated now cd2 with
        | mk c3 cd3 =>
          simp only [hf1, hf2, hf3]
          obtain ⟨hid, hpres1⟩ := fixId_spec cid cd0
          rw [hf1] at hid hpres1
          obtain ⟨⟨t, hname⟩, hpres2⟩ := fixName_spec cid cd1
          rw [hf2] at hname hpres2
          obtain ⟨hts, hpres3⟩ := fixCreated_spec now cd2
          rw [hf3] at hts hpres3
          have hid3 : dgetD cd3 "id" .none = .str cid := by
            show (dget cd3 "id").getD .none = .str cid
            rw [hpres3 _ (by decide), hpres2 _ (by decide)]
            exact hid
          have hname3 : dget cd3 "name" = some (.str t) := by
            rw [hpres3 _ (by decide)]
            exact hname
          exact ⟨cd3, rfl, hid3, ⟨t, hname3⟩, hts⟩
  | none => exact ⟨_, rfl, by simp [dgetD, dget], ⟨pyStr PyVal.none, by simp [dget]⟩,
      by simp [dmem, dget]⟩
  | bool b => exact ⟨_, rfl, by simp [dgetD, dget], ⟨pyStr (PyVal.bool b), by simp [dget]⟩,
      by simp [dmem, dget]⟩
  | int n => exact ⟨_, rfl, by simp [dgetD, dget], ⟨pyStr (PyVal.int n), by simp [dget]⟩,
      by simp [dmem, dget]⟩
  | str t => exact ⟨_, rfl, by simp [dgetD, dget], ⟨pyStr (PyVal.str t), by simp [dget]⟩,
      by simp [dmem, dget]⟩
  | list l => exact ⟨_, rfl, by simp [dgetD, dget], ⟨pyStr (PyVal.list l), by simp [dget]⟩,
      by simp [dmem, dget]⟩

theorem upgrade_store_entry_id (now : Nat) (sid : String) {v : PyVal}
    (h : storeClean sid v) : upgrade_store_entry now sid v = (false, v) := by
  obtain ⟨sd, rfl, ⟨its, hits⟩, hid, ⟨t, hname⟩, hts⟩ := h
  unfold upgrade_store_entry
  simp only [fixItems_id hits, fixId_id hid, fixName_id hname, fixCreated_id hts,
    Bool.or_self, Bool.or_false, Bool.false_or]

theorem upgrade_category_entry_id (now : Nat) (cid : String) {v : PyVal}
    (h : catClean cid v) : upgrade_category_entry now cid v = (false, v) := by
  obtain ⟨cd, rfl, hid, ⟨t, hname⟩, hts⟩ := h
  unfold upgrade_category_entry
  simp only [fixId_id hid, fixName_id hname, fixCreated_id hts,
    Bool.or_self, Bool.or_false, Bool.false_or]

theorem catClean_stub (now : Nat) (s : String) :
    catClean s (.dict [("id", .str s), ("name", .str s), ("created_at", .int now)]) :=
  ⟨_, rfl, by simp [dgetD, dget], ⟨s, by simp [dget]⟩, by simp [dmem, dget]⟩

theorem upgrade_item_record_id {now : Nat} {cats : Dict} {r : PyVal}
    (h : recClean cats r) : upgrade_item_record now r cats = .ok (false, r, cats) := by
  obtain ⟨rd, s, rfl, hc, hs, hm⟩ := h
  unfold upgrade_item_record
  simp only []
  rw [hc]
  simp only []
  rw [if_neg hs, hm, if_neg (by simp : ¬(true = false))]

theorem upgrade_items_fold_id (now : Nat) :
    ∀ (its cats : Dict), (∀ iv ∈ its, recClean cats iv.2) →
      upgrade_items_fold now cats its = .ok (false, its, cats) := by
  intro its
  induction its with
  | nil => intro cats h; rfl
  | cons iv rest ih =>
    intro cats h
    obtain ⟨n, r⟩ := iv
    rw [upgrade_items_fold]
    rw [upgrade_item_record_id (h (n, r) (by simp))]
    simp only [Bind.bind, Except.bind]
    rw [ih cats (fun x hx => h x (by simp [hx]))]
    rfl

theorem upgrade_stores_items_id (now : Nat) :
    ∀ (stores cats : Dict),
      (∀ kv ∈ stores, ∃ sd its, kv.2 = .dict sd ∧ dget sd "items" = some (.dict its) ∧
        ∀ iv ∈ its, recClean cats iv.2) →
      upgrade_stores_items now cats stores = .ok (false, stores, cats) := by
  intro stores
  induction stores with
  | nil => intro cats h; rfl
  | cons kv rest ih =>
    intro cats h
    obtain ⟨sid, store⟩ := kv
    obtain ⟨sd, its, hsd, hits, hrec⟩ := h (sid, store) (by simp)
    subst hsd
    rw [upgrade_stores_items]
    rw [hits]
    simp only []
    rw [upgrade_items_fold_id now its cats hrec]
    simp only [Bind.bind, Except.bind]
    rw [ih cats (fun x hx => h x (by simp [hx]))]
    simp only [Bind.bind, Except.bind]
    rw [dset_eq_self hits]
    rfl

theorem upgrade_item_record_wf {now : Nat} {r : PyVal} {cats : Dict} {c : Bool} {r2 : PyVal}
    {cats2 : Dict}
    (huncat : dmem cats UNCATEGORIZED_ID = true)
    (hcl : ∀ kv ∈ cats, catClean kv.1 kv.2)
    (h : upgrade_item_record now r cats = .ok (c, r2, cats2)) :
    recClean cats2 r2 ∧ catsLE cats cats2 ∧ dmem cats2 UNCATEGORIZED_ID = true ∧
    (∀ kv ∈ cats2, catClean kv.1 kv.2) := by
  have reset : ∀ rd : Dict, .ok (true, .dict (dset rd "category" (.str UNCATEGORIZED_ID)),
        cats) = (.ok (c, r2, cats2) : Except PyErr (Bool × PyVal × Dict)) →
      recClean cats2 r2 ∧ catsLE cats cats2 ∧ dmem cats2 UNCATEGORIZED_ID = true ∧
      (∀ kv ∈ cats2, catClean kv.1 kv.2) := by
    intro rd hh
    simp only [Except.ok.injEq, Prod.mk.injEq] at hh
    obtain ⟨-, hr2, hcats⟩ := hh
    subst hr2
    subst hcats
    exact ⟨⟨_, UNCATEGORIZED_ID, rfl, dget_dset_self _ _ _, by decide, huncat⟩,
      catsLE_refl _, huncat, hcl⟩
  cases r with
  | dict rd =>
    unfold upgrade_item_record at h
    simp only [] at h
    cases hc : dget rd "category" with
    | some w =>
      rw [hc] at h
      cases w with
      | str s =>
        simp only [] at h
        by_cases hs : pyStrip s = ""
        · rw [if_pos hs] at h
          exact reset rd h
        · rw [if_neg hs] at h
          by_cases hm : dmem cats s = false
          · rw [if_pos hm] at h
            simp only [Except.ok.injEq, Prod.mk.injEq] at h
            obtain ⟨-, hr2, hcats⟩ := h
            subst hr2
            subst hcats
            refine ⟨⟨rd, s, rfl, hc, hs, by rw [dmem_dset]; simp⟩,
              fun k hk => by rw [dmem_dset]; simp [hk], ?_, ?_⟩
            · rw [dmem_dset]
              simp [huncat]
            · intro kv hkv
              rcases mem_dset hkv with hin | hstub
              · exact hcl kv hin
              · rw [hstub]
                exact catClean_stub now s
          · rw [if_neg hm] at h
            simp only [Except.ok.injEq, Prod.mk.injEq] at h
            obtain ⟨-, hr2, hcats⟩ := h
            subst hr2
            subst hcats
            exact ⟨⟨rd, s, rfl, hc, hs, by simpa using hm⟩, catsLE_refl _, huncat, hcl⟩
      | none => exact reset rd h
      | bool b => exact reset rd h
      | int n => exact reset rd h
      | dict d2 => exact reset rd h
      | list l => exact reset rd h
    | none =>
      rw [hc] at h
      exact reset rd h
  | none =>
    unfold upgrade_item_record at h
    simp only [] at h
    cases hn : pyInt (if pyTruthy PyVal.none then PyVal.none else .int 0) with
    | error e => rw [hn] at h; exact Except.noConfusion h
    | ok n =>
      rw [hn] at h
      simp only [Bind.bind, Except.bind] at h
      exact reset _ h
  | bool b =>
    unfold upgrade_item_record at h
    simp only [] at h
    cases hn : pyInt (if pyTruthy (PyVal.bool b) then PyVal.bool b else .int 0) with
    | error e => rw [hn] at h; exact Except.noConfusion h
    | ok n =>
      rw [hn] at h
      simp only [Bind.bind, Except.bind] at h
      exact reset _ h
  | int n0 =>
    unfold upgrade_item_record at h
    simp only [] at h
    cases hn : pyInt (if pyTruthy (PyVal.int n0) then PyVal.int n0 else .int 0) with
    | error e => rw [hn] at h; exact Except.noConfusion h
    | ok n =>
      rw [hn] at h
      simp only [Bind.bind, Except.bind] at h
      exact reset _ h
  | str t =>
    unfold upgrade_item_record at h
    simp only [] at h
    cases hn : pyInt (if pyTruthy (PyVal.str t) then PyVal.str t else .int 0) with
    | error e => rw [hn] at h; exact Except.noConfusion h
    | ok n =>
      rw [hn] at h
      simp only [Bind.bind, Except.bind] at h
      exact reset _ h
  | list l =>
    unfold upgrade_item_record at h
    simp only [] at h
    cases hn : pyInt (if pyTruthy (PyVal.list l) then PyVal.list l else .int 0) with
    | error e => rw [hn] at h; exact Except.noConfusion h
    | ok n =>
      rw [hn] at h
      simp only [Bind.bind, Except.bind] at h
      exact reset _ h

theorem upgrade_items_fold_wf (now : Nat) :
    ∀ (its cats : Dict) {c : Bool} {its2 cats2 : Dict},
      dmem cats UNCATEGORIZED_ID = true →
      (∀ kv ∈ cats, catClean kv.1 kv.2) →
      upgrade_items_fold now cats its = .ok (c, its2, cats2) →
      catsLE cats cats2 ∧ dmem cats2 UNCATEGORIZED_ID = true ∧
      (∀ kv ∈ cats2, catClean kv.1 kv.2) ∧ (∀ iv ∈ its2, recClean cats2 iv.2) := by
  intro its
  induction its with
  | nil =>
    intro cats c its2 cats2 hu hcl h
    rw [upgrade_items_fold] at h
    simp only [Except.ok.injEq, Prod.mk.injEq] at h
    obtain ⟨-, hits2, hcats2⟩ := h
    subst hits2
    subst hcats2
    exact ⟨catsLE_refl _, hu, hcl, by simp⟩
  | cons iv rest ih =>
    intro cats c its2 cats2 hu hcl h
    obtain ⟨n, r⟩ := iv
    rw [upgrade_items_fold] at h
    cases hir : upgrade_item_record now r cats with
    | error e => rw [hir] at h; exact Except.noConfusion h
    | ok tr =>
      obtain ⟨c1, r2, catsA⟩ := tr
      rw [hir] at h
      simp only [Bind.bind, Except.bind] at h
      cases hfr : upgrade_items_fold now catsA rest with
      | error e => rw [hfr] at h; exact Except.noConfusion h
      | ok tr2 =>
        obtain ⟨cr, rest2, catsB⟩ := tr2
        rw [hfr] at h
        simp only [Except.ok.injEq, Prod.mk.injEq] at h
        obtain ⟨-, hits2, hcats2⟩ := h
        subst hits2
        subst hcats2
        obtain ⟨hrc, hle1, hu1, hcl1⟩ := upgrade_item_record_wf hu hcl hir
        obtain ⟨hle2, hu2, hcl2, hrec2⟩ := ih catsA hu1 hcl1 hfr
        refine ⟨catsLE_trans hle1 hle2, hu2, hcl2, ?_⟩
        intro x hx
        rcases List.mem_cons.mp hx with hx1 | hx2
        · rw [hx1]
          exact recClean_mono hle2 hrc
        · exact hrec2 x hx2

theorem upgrade_stores_items_wf (now : Nat) :
    ∀ (stores cats : Dict) {ci : Bool} {stores4 cats4 : Dict},
      (∀ kv ∈ stores, storeClean kv.1 kv.2) →
      dmem cats UNCATEGORIZED_ID = true →
      (∀ kv ∈ cats, catClean kv.1 kv.2) →
      upgrade_stores_items now cats stores = .ok (ci, stores4, cats4) →
      stores4.length = stores.length ∧ catsLE cats cats4 ∧
      dmem cats4 UNCATEGORIZED_ID = true ∧
      (∀ kv ∈ cats4, catClean kv.1 kv.2) ∧
      (∀ kv ∈ stores4, storeClean kv.1 kv.2 ∧
        ∃ sd its, kv.2 = .dict sd ∧ dget sd "items" = some (.dict its) ∧
          ∀ iv ∈ its, recClean cats4 iv.2) := by
  intro stores
  induction stores with
  | nil =>
    intro cats ci stores4 cats4 hscl hu hcl h
    rw [upgrade_stores_items] at h
    simp only [Except.ok.injEq, Prod.mk.injEq] at h
    obtain ⟨-, hs4, hc4⟩ := h
    subst hs4
    subst hc4
    exact ⟨rfl, catsLE_refl _, hu, hcl, by simp⟩
  | cons kv rest ih =>
    intro cats ci stores4 cats4 hscl hu hcl h
    obtain ⟨sid, store⟩ := kv
    obtain ⟨sd, hsd, ⟨its, hits⟩, hid, hname, hts⟩ := hscl (sid, store) (by simp)
    subst hsd
    rw [upgrade_stores_items] at h
    rw [hits] at h
    simp only [] at h
    cases hif : upgrade_items_fold now cats its with
    | error e => rw [hif] at h; exact Except.noConfusion h
    | ok tr =>
      obtain ⟨c1, its2, catsA⟩ := tr
      rw [hif] at h
      simp only [Bind.bind, Except.bind] at h
      cases hrr : upgrade_stores_items now catsA rest with
      | error e => rw [hrr] at h; exact Except.noConfusion h
      | ok tr2 =>
        obtain ⟨cr, rest2, catsB⟩ := tr2
        rw [hrr] at h
        simp only [Except.ok.injEq, Prod.mk.injEq] at h
        obtain ⟨-, hs4, hc4⟩ := h
        subst hs4
        subst hc4
        obtain ⟨hle1, hu1, hcl1, hrec1⟩ := upgrade_items_fold_wf now its cats hu hcl hif
        obtain ⟨hlen2, hle2, hu2, hcl2, hst2⟩ := ih catsA
          (fun x hx => hscl x (by simp [hx])) hu1 hcl1 hrr
        refine ⟨by simp [hlen2], catsLE_trans hle1 hle2, hu2, hcl2, ?_⟩
        intro x hx
        rcases List.mem_cons.mp hx with hx1 | hx2
        · rw [hx1]
          constructor
          · refine ⟨dset sd "items" (.dict its2), rfl, ⟨its2, dget_dset_self _ _ _⟩,
              ?_, ?_, ?_⟩
            · show (dget (dset sd "items" (.dict its2)) "id").getD .none = _
              rw [dget_dset_ne _ _ _ _ (by decide)]
              exact hid
            · obtain ⟨t, ht⟩ := hname
              exact ⟨t, by rw [dget_dset_ne _ _ _ _ (by decide)]; exact ht⟩
            · show (dget (dset sd "items" (.dict its2)) "created_at").isSome = true
              rw [dget_dset_ne _ _ _ _ (by decide)]
              exact hts
          · exact ⟨dset sd "items" (.dict its2), its2, rfl, dget_dset_self _ _ _,
              fun iv hiv => recClean_mono hle2 (hrec1 iv hiv)⟩
        · exact hst2 x hx2

theorem upgrade_stores_phase_wf (now : Nat) (sd : Dict) :
    (upgrade_stores_phase now sd).2 ≠ [] ∧
    ∀ kv ∈ (upgrade_stores_phase now sd).2, storeClean kv.1 kv.2 := by
  constructor
  · unfold upgrade_stores_phase
    simp only [ne_eq, List.map_eq_nil_iff]
    split_ifs with h
    · simp
    · intro hnil
      exact h (by rw [hnil]; rfl)
  · intro kv hkv
    unfold upgrade_stores_phase at hkv
    obtain ⟨v0, hv⟩ := pairs_map_mem hkv
    rw [hv]
    exact upgrade_store_entry_clean now kv.1 v0

theorem upgrade_cats_phase_wf (now : Nat) (sd : Dict) :
    dmem (upgrade_cats_phase now sd).2 UNCATEGORIZED_ID = true ∧
    ∀ kv ∈ (upgrade_cats_phase now sd).2, catClean kv.1 kv.2 := by
  constructor
  · unfold upgrade_cats_phase
    simp only []
    rw [dmem_pairs_map]
    split_ifs with h
    · rw [dmem_dset]
      simp
    · simpa using h
  · intro kv hkv
    unfold upgrade_cats_phase at hkv
    obtain ⟨v0, hv⟩ := pairs_map_mem hkv
    rw [hv]
    exact upgrade_category_entry_clean now kv.1 v0

theorem meta_needDefault_analysis (stores4 metaD : Dict) (hne : stores4 ≠ []) :
    ∃ s, dgetD (if (match dgetD metaD "default_store" .none with
        | .str t => !(dmem stores4 t) | _ => true) = true
      then dset metaD "default_store" (.str ((dkeys stores4).headD "")) else metaD)
      "default_store" .none = .str s ∧ dmem stores4 s = true := by
  split_ifs with h
  · refine ⟨(dkeys stores4).headD "", ?_, dmem_headD hne⟩
    show (dget (dset metaD "default_store" _) "default_store").getD .none = _
    rw [dget_dset_self]
    rfl
  · cases hd : dgetD metaD "default_store" .none with
    | str s =>
      rw [hd] at h
      refine ⟨s, rfl, ?_⟩
      simpa using h
    | none => rw [hd] at h; simp at h
    | bool b => rw [hd] at h; simp at h
    | int n => rw [hd] at h; simp at h
    | dict d2 => rw [hd] at h; simp at h
    | list l => rw [hd] at h; simp at h

theorem upgrade_meta_phase_wf (stores4 : Dict) (sd : Dict) (hne : stores4 ≠ []) :
    ∃ s, dgetD (upgrade_meta_phase stores4 sd).2 "default_store" .none = .str s ∧
      dmem stores4 s = true := by
  unfold upgrade_meta_phase
  exact meta_needDefault_analysis stores4 _ hne

theorem upgrade_stores_phase_id (now : Nat) (stores4 : Dict) (cv mv : PyVal)
    (hne : stores4 ≠ [])
    (hclean : ∀ kv ∈ stores4, storeClean kv.1 kv.2) :
    upgrade_stores_phase now [("stores", .dict stores4), ("categories", cv), ("meta", mv)]
      = (false, stores4) := by
  unfold upgrade_stores_phase
  rw [show dget [("stores", .dict stores4), ("categories", cv), ("meta", mv)] "stores"
      = some (.dict stores4) from by simp [dget]]
  simp only []
  have hie : stores4.isEmpty = false := by
    cases stores4 with
    | nil => exact absurd rfl hne
    | cons a b => rfl
  rw [hie, if_neg (by simp : ¬(false = true))]
  obtain ⟨h1, h2⟩ := pairs_map_id
    (fun kv hkv => upgrade_store_entry_id now kv.1 (hclean kv hkv))
  rw [h1, h2]
  rfl

theorem upgrade_cats_phase_id (now : Nat) (cats4 : Dict) (sv mv : PyVal)
    (huncat : dmem cats4 UNCATEGORIZED_ID = true)
    (hclean : ∀ kv ∈ cats4, catClean kv.1 kv.2) :
    upgrade_cats_phase now [("stores", sv), ("categories", .dict cats4), ("meta", mv)]
      = (false, cats4) := by
  unfold upgrade_cats_phase
  rw [show dget [("stores", sv), ("categories", .dict cats4), ("meta", mv)] "categories"
      = some (.dict cats4) from by simp [dget]]
  simp only []
  rw [huncat]
  rw [if_neg (by simp : ¬((!true) = true))]
  obtain ⟨h1, h2⟩ := pairs_map_id
    (fun kv hkv => upgrade_category_entry_id now kv.1 (hclean kv hkv))
  rw [h1, h2]
  rfl

theorem upgrade_meta_phase_id (stores4 metaD2 : Dict) (sv cv : PyVal) {s : String}
    (hd : dgetD metaD2 "default_store" .none = .str s)
    (hmem : dmem stores4 s = true) :
    upgrade_meta_phase stores4 [("stores", sv), ("categories", cv), ("meta", .dict metaD2)]
      = (false, metaD2) := by
  unfold upgrade_meta_phase
  rw [show dget [("stores", sv), ("categories", cv), ("meta", .dict metaD2)] "meta"
      = some (.dict metaD2) from by simp [dget]]
  simp only []
  rw [hd]
  simp only [hmem]
  rw [if_neg (by simp : ¬((!true) = true))]
  rfl

theorem upgrade_body_wf {now : Nat} {changed0 : Bool} {sd : Dict} {c : Bool} {out : PyVal}
    (h : upgrade_body now changed0 sd = .ok (c, out)) :
    ∀ now2, _upgrade_state now2 out = .ok (false, out) := by
  unfold upgrade_body at h
  cases hsp : upgrade_stores_phase now sd with
  | mk cs stores3 =>
    rw [hsp] at h
    simp only [] at h
    cases hcp : upgrade_cats_phase now sd with
    | mk cc cats3 =>
      rw [hcp] at h
      simp only [] at h
      cases hsi : upgrade_stores_items now cats3 stores3 with
      | error e => rw [hsi] at h; exact Except.noConfusion h
      | ok tr =>
        obtain ⟨ci, stores4, cats4⟩ := tr
        rw [hsi] at h
        simp only [Bind.bind, Except.bind] at h
        cases hmp : upgrade_meta_phase stores4 sd with
        | mk cm metaD2 =>
          rw [hmp] at h
          simp only [Except.ok.injEq, Prod.mk.injEq] at h
          obtain ⟨-, hout⟩ := h
          obtain ⟨hne3, hclean3⟩ := upgrade_stores_phase_wf now sd
          rw [hsp] at hne3 hclean3
          obtain ⟨hu3, hccl3⟩ := upgrade_cats_phase_wf now sd
          rw [hcp] at hu3 hccl3
          obtain ⟨hlen, hle, hu4, hccl4, hstores4⟩ :=
            upgrade_stores_items_wf now stores3 cats3 hclean3 hu3 hccl3 hsi
          have hne4 : stores4 ≠ [] := by
            intro hnil
            apply hne3
            rw [hnil] at hlen
            simp only [List.length_nil] at hlen
            exact (List.length_eq_zero.mp hlen.symm)
          obtain ⟨s, hds, hdm⟩ := upgrade_meta_phase_wf stores4 sd hne4
          rw [hmp] at hds
          intro now2
          rw [← hout]
          show upgrade_body now2 false
            [("stores", .dict stores4), ("categories", .dict cats4),
             ("meta", .dict metaD2)] = _
          unfold upgrade_body
          rw [upgrade_stores_phase_id now2 stores4 (.dict cats4) (.dict metaD2) hne4
            (fun kv hkv => (hstores4 kv hkv).1)]
          simp only []
          rw [upgrade_cats_phase_id now2 cats4 (.dict stores4) (.dict metaD2) hu4 hccl4]
          simp only []
          rw [upgrade_stores_items_id now2 stores4 cats4
            (fun kv hkv => (hstores4 kv hkv).2)]
          simp only [Bind.bind, Except.bind]
          rw [upgrade_meta_phase_id stores4 metaD2 (.dict stores4) (.dict cats4) hds hdm]
          rfl

/-- C8: the document upgrade pass is idempotent — whatever document (dict or
not, legacy or partially malformed) a first pass normalizes successfully, a
second pass at any timestamp returns the same document and reports that no
change was needed. -/
theorem C8_upgrade_idempotent :
    ∀ (now now2 : Nat) (s0 : PyVal) (c : Bool) (out : PyVal),
      _upgrade_state now s0 = .ok (c, out) →
      _upgrade_state now2 out = .ok (false, out) := by
  intro now now2 s0 c out h
  cases s0 with
  | dict d => exact upgrade_body_wf h now2
  | none =>
    have h2 : upgrade_body now true [] = .ok (c, out) := h
    exact upgrade_body_wf h2 now2
  | bool b =>
    have h2 : upgrade_body now true [] = .ok (c, out) := h
    exact upgrade_body_wf h2 now2
  | int n =>
    have h2 : upgrade_body now true [] = .ok (c, out) := h
    exact upgrade_body_wf h2 now2
  | str t =>
    have h2 : upgrade_body now true [] = .ok (c, out) := h
    exact upgrade_body_wf h2 now2
  | list l =>
    have h2 : upgrade_body now true [] = .ok (c, out) := h
    exact upgrade_body_wf h2 now2

def exLegacyDoc : PyVal := .dict [("widget", .dict [("quantity", .int 2)])]

def exUpgradedDoc : PyVal := .dict
  [("stores", .dict
      [("default", .dict
          [("id", .str "default"), ("name", .str "默认门店"), ("created_at", .int 3),
           ("items", .dict
              [("widget", .dict
                  [("quantity", .int 2), ("category", .str "uncategorized")])])])]),
   ("categories", .dict
      [("uncategorized", .dict
          [("id", .str "uncategorized"), ("name", .str "未分类"),
           ("created_at", .int 3)])]),
   ("meta", .dict [("default_store", .str "default")])]

theorem C8_witness :
    _upgrade_state 3 exLegacyDoc = .ok (true, exUpgradedDoc) ∧
    _upgrade_state 9 exUpgradedDoc = .ok (false, exUpgradedDoc) :=
  ⟨rfl, C8_upgrade_idempotent 3 9 exLegacyDoc true exUpgradedDoc rfl⟩

end Inventory
